import Mathlib

/-!
Verification of the BlendXChess engine core against its specification.

The development shallowly embeds the C++ sources: machine integers become
Nat or Int (with explicit wrapping where overflow can matter), arrays become
functions from indices, in-place mutation becomes functional record update,
and fallible parsing returns Except.  Each embedded definition mirrors one
source function; theorems at the end settle the specification claims.
-/

namespace BlendX

/-! ### Basic constants and types (src/basic_types.h) -/

def FILE_CNT : Nat := 8
def RANK_CNT : Nat := 8
def SQUARE_CNT : Nat := 64
def COLOR_CNT : Nat := 2
def PIECETYPE_CNT : Nat := 7
def MAX_GAME_PLY : Nat := 1024
def MAX_SEARCH_PLY : Nat := 50
def MAX_KILLERS_CNT : Nat := 3

/-- Piece types: PT_NULL = PT_ALL = 0, PAWN = 1 .. KING = 6. -/
def PT_NULL : Nat := 0
def PT_ALL : Nat := 0
def PAWN : Nat := 1
def KNIGHT : Nat := 2
def BISHOP : Nat := 3
def ROOK : Nat := 4
def QUEEN : Nat := 5
def KING : Nat := 6

/-- Sides: WHITE = 0, BLACK = 1, NULL_COLOR = 2. -/
def WHITE : Nat := 0
def BLACK : Nat := 1
def NULL_COLOR : Nat := 2

/-- Pieces are encoded as (side <<< 3) ||| type; PIECE_NULL = 0. -/
def PIECE_NULL : Nat := 0

def makePiece (c pt : Nat) : Nat := (c <<< 3) ||| pt

def getPieceType (pc : Nat) : Nat := pc &&& 7

def getPieceSide (pc : Nat) : Nat := if pc = PIECE_NULL then NULL_COLOR else pc >>> 3

def opposite (c : Nat) : Nat := if c = WHITE then BLACK else WHITE

/-- Castling right masks (basic_types.h enum CastlingRight). -/
def CR_NULL : Nat := 0
def CR_WHITE_OO : Nat := 1
def CR_WHITE_OOO : Nat := 2
def CR_BLACK_OO : Nat := 4
def CR_BLACK_OOO : Nat := 8
def CR_ALL : Nat := 15

/-- Castling sides OO = 0, OOO = 1; makeCastling from basic_types.h. -/
def OO : Nat := 0
def OOO : Nat := 1

def makeCastling (c cs : Nat) : Nat := CR_WHITE_OO <<< ((c <<< 1) ||| cs)

/-- Bounds for transposition-table entries. -/
def BOUND_LOWER : Nat := 1
def BOUND_UPPER : Nat := 2
def BOUND_EXACT : Nat := 3

/-- Move types. -/
def MT_NORMAL : Nat := 0
def MT_CASTLING : Nat := 1
def MT_PROMOTION : Nat := 2
def MT_EN_PASSANT : Nat := 3

/-- Scores (Score is int16_t in the source; these values are far from the
int16 range ends, and the wrapping conversions are made explicit where an
overflow could occur). -/
def SCORE_ZERO : Int := 0
def SCORE_LOSE : Int := -30000
def SCORE_WIN : Int := 30000
def SCORE_LOSE_MAX : Int := SCORE_LOSE + MAX_GAME_PLY
def SCORE_WIN_MIN : Int := SCORE_WIN - MAX_GAME_PLY

/-- Squares are 0..63 in file-major order; Sq::NONE = 64. -/
def SQ_NONE : Nat := 64

/-- Square from (rank, file), mirroring the Square(rank, file) constructor. -/
def mkSquare (rank file : Nat) : Nat := (rank <<< 3) ||| file

def sqFile (sq : Nat) : Nat := sq &&& 7

def sqRank (sq : Nat) : Nat := sq >>> 3

/-- Square relative to a given side (flips the rank for BLACK), mirroring
Square::relativeTo.  On 0..63 inputs the source int8 arithmetic never
overflows. -/
def relSquare (sq c : Nat) : Nat :=
  if c = WHITE then sq else sq + FILE_CNT * (RANK_CNT - 1 - (sqRank sq) * 2)

/-- Moves are 16-bit packed: bits 0..5 from, 6..11 to, 12..13 type,
14..15 promotion minus 2 (MoveDesc in basic_types.h). -/
def MOVE_NONE : Nat := 0
def MOVE_NULL : Nat := 0xfff

def mkMoveFull (from₀ to₀ mt promotion : Nat) : Nat :=
  (from₀ <<< 0) ||| (to₀ <<< 6) ||| (mt <<< 12) ||| ((promotion - 2) <<< 14)

def mkMove (from₀ to₀ : Nat) : Nat := mkMoveFull from₀ to₀ MT_NORMAL KNIGHT

def moveFrom (m : Nat) : Nat := m &&& 63

def moveTo (m : Nat) : Nat := (m >>> 6) &&& 63

def moveType (m : Nat) : Nat := (m >>> 12) &&& 3

def movePromotion (m : Nat) : Nat := ((m >>> 14) &&& 3) + 2

/-- Castling move of a side: king from E1 to G1 (OO) or C1 (OOO), relative
to the side (Move(Side, CastlingSide) constructor). -/
def mkCastlingMove (c cs : Nat) : Nat :=
  if cs = OO then mkMoveFull (relSquare 4 c) (relSquare 6 c) MT_CASTLING KNIGHT
  else mkMoveFull (relSquare 4 c) (relSquare 2 c) MT_CASTLING KNIGHT

/-! ### Transposition table (src/engine/transtable.h, transtable.cpp) -/

def TTBUCKET_ENTRIES : Nat := 3
def TT_INDEX_BITS : Nat := 21
def TT_INDEX_MASK : Nat := (1 <<< TT_INDEX_BITS) - 1

/-- Entry of the transposition table.  The constructor sets depth = 0
(empty); the other fields of an empty entry are never read by store or
probe, and are modelled as zero. -/
structure TTEntry where
  depth : Nat
  bound : Nat
  score : Int
  age : Nat
  move : Nat
  key : Nat
deriving DecidableEq

def TTEntry.empty : TTEntry := ⟨0, 0, 0, 0, 0, 0⟩

/-- TTEntry::store: overwrite all fields. -/
def TTEntry.store (k : Nat) (d : Nat) (b : Nat) (s : Int) (m : Nat) (a : Nat) : TTEntry :=
  ⟨d, b, s, a, m, k⟩

/-- Bucket of three entries, kept as a function from the index. -/
structure TTBucket where
  entries : Nat → TTEntry

def TTBucket.setEntry (b : TTBucket) (i : Nat) (e : TTEntry) : TTBucket :=
  ⟨fun j => if j = i then e else b.entries j⟩

def TTBucket.empty : TTBucket := ⟨fun _ => TTEntry.empty⟩

/-- Loop body of TTBucket::store: scan the remaining entry indices carrying
the current replacement candidate; write at the first empty entry; at a key
match overwrite iff the new depth is at least the stored one; otherwise
update the victim candidate and continue; after the scan overwrite the
victim iff the incoming record dominates it. -/
def TTBucket.storeGo (key : Nat) (depth : Nat) (bound : Nat) (score : Int) (move : Nat)
    (age : Nat) (b : TTBucket) : List Nat → Nat → TTBucket
  | [], replace =>
      if (b.entries replace).age < age ∨
          ((b.entries replace).age = age ∧
            ((b.entries replace).depth < depth ∨
              ((b.entries replace).depth = depth ∧ bound = BOUND_EXACT))) then
        b.setEntry replace (TTEntry.store key depth bound score move age)
      else b
  | i :: rest, replace =>
      if (b.entries i).depth = 0 then
        b.setEntry i (TTEntry.store key depth bound score move age)
      else if (b.entries i).key = key then
        (if depth ≥ (b.entries i).depth then
          b.setEntry i (TTEntry.store key depth bound score move age)
        else b)
      else
        let replace :=
          if (b.entries i).age < (b.entries replace).age ∨
              ((b.entries i).age = (b.entries replace).age ∧
                (b.entries i).depth < (b.entries replace).depth) then i else replace
        TTBucket.storeGo key depth bound score move age b rest replace

/-- TTBucket::store. -/
def TTBucket.store (b : TTBucket) (key : Nat) (depth : Nat) (bound : Nat) (score : Int)
    (move : Nat) (age : Nat) : TTBucket :=
  TTBucket.storeGo key depth bound score move age b (List.range TTBUCKET_ENTRIES) 0

/-- Loop body of TTBucket::probe: scan until the first empty entry. -/
def TTBucket.probeGo (b : TTBucket) (key : Nat) : List Nat → Option TTEntry
  | [] => none
  | i :: rest =>
      if (b.entries i).depth = 0 then none
      else if (b.entries i).key = key then some (b.entries i)
      else TTBucket.probeGo b key rest

/-- TTBucket::probe. -/
def TTBucket.probe (b : TTBucket) (key : Nat) : Option TTEntry :=
  TTBucket.probeGo b key (List.range TTBUCKET_ENTRIES)

/-- The table: 2 ^ TT_INDEX_BITS buckets and the current age.  The mutex
stripe only serializes accesses and has no sequential meaning. -/
structure TranspositionTable where
  table : Nat → TTBucket
  age : Nat

def TranspositionTable.empty : TranspositionTable := ⟨fun _ => TTBucket.empty, 0⟩

/-- TranspositionTable::store: dispatch to the bucket at the low index bits
of the key, passing the table age. -/
def TranspositionTable.store (t : TranspositionTable) (key : Nat) (depth : Nat)
    (bound : Nat) (score : Int) (move : Nat) : TranspositionTable :=
  ⟨fun j => if j = (key &&& TT_INDEX_MASK) then
      (t.table (key &&& TT_INDEX_MASK)).store key depth bound score move t.age
    else t.table j, t.age⟩

/-- TranspositionTable::probe. -/
def TranspositionTable.probe (t : TranspositionTable) (key : Nat) : Option TTEntry :=
  (t.table (key &&& TT_INDEX_MASK)).probe key

/-! ### Score-ply correction (src/engine/search.h, Searcher::scoreToTT/scoreFromTT) -/

/-- Wrapping conversion of an int value to int16_t, made explicit because
Score is int16_t in the source. -/
def wrap16 (x : Int) : Int := (x + 2 ^ 15) % 2 ^ 16 - 2 ^ 15

/-- Searcher::scoreToTT. -/
def scoreToTT (searchPly : Int) (score : Int) : Int :=
  wrap16 (if score > SCORE_WIN_MIN then score + searchPly
    else if score < SCORE_LOSE_MAX then score - searchPly else score)

/-- Searcher::scoreFromTT. -/
def scoreFromTT (searchPly : Int) (score : Int) : Int :=
  wrap16 (if score > SCORE_WIN_MIN then score - searchPly
    else if score < SCORE_LOSE_MAX then score + searchPly else score)

/-! ### Killer moves (src/engine/search.cpp, Searcher::updateKillers) -/

/-! ### Characterization of the bucket replacement policy -/

/-- First index (in scan order 0,1,2) whose entry is empty or matches the
key; the store scan services this entry and never looks further. -/
def ttFirstServiced (b : TTBucket) (key : Nat) : Option Nat :=
  if (b.entries 0).depth = 0 ∨ (b.entries 0).key = key then some 0
  else if (b.entries 1).depth = 0 ∨ (b.entries 1).key = key then some 1
  else if (b.entries 2).depth = 0 ∨ (b.entries 2).key = key then some 2
  else none

/-- Whether the entry at index i beats the entry at index r as replacement
victim: strictly smaller age, or equal age and strictly smaller depth. -/
def ttVictimBeats (b : TTBucket) (i r : Nat) : Prop :=
  (b.entries i).age < (b.entries r).age ∨
    ((b.entries i).age = (b.entries r).age ∧ (b.entries i).depth < (b.entries r).depth)

instance (b : TTBucket) (i r : Nat) : Decidable (ttVictimBeats b i r) := by
  unfold ttVictimBeats; infer_instance

/-- Victim of the replacement scan: the entry with the smallest age, ties
broken by smaller depth, the earlier index winning remaining ties. -/
def ttVictim (b : TTBucket) : Nat :=
  let r1 := if ttVictimBeats b 1 0 then 1 else 0
  if ttVictimBeats b 2 r1 then 2 else r1

/-- Declarative form of the bucket replacement policy, written from the
amended claim: the scan services the first entry (in index order) that is
empty or key-matching — an empty one is always written, a matching one iff
the new depth is at least the stored one; when no entry is empty or
matching, the victim with smallest age (ties: smaller depth) is written iff
the incoming record has newer age, or equal age and greater depth, or equal
age and depth with an EXACT bound. -/
def ttStoreSpec (b : TTBucket) (key : Nat) (depth : Nat) (bound : Nat) (score : Int)
    (move : Nat) (age : Nat) : TTBucket :=
  match ttFirstServiced b key with
  | some i =>
      if (b.entries i).depth = 0 then
        b.setEntry i (TTEntry.store key depth bound score move age)
      else if depth ≥ (b.entries i).depth then
        b.setEntry i (TTEntry.store key depth bound score move age)
      else b
  | none =>
      let r := ttVictim b
      if (b.entries r).age < age ∨
          ((b.entries r).age = age ∧
            ((b.entries r).depth < depth ∨
              ((b.entries r).depth = depth ∧ bound = BOUND_EXACT))) then
        b.setEntry r (TTEntry.store key depth bound score move age)
      else b

/-- Whether the bucket replacement policy accepts (writes) the incoming
record. -/
def ttStoreWrites (b : TTBucket) (key : Nat) (depth : Nat) (bound : Nat)
    (age : Nat) : Bool :=
  match ttFirstServiced b key with
  | some i =>
      if (b.entries i).depth = 0 then true else decide (depth ≥ (b.entries i).depth)
  | none =>
      let r := ttVictim b
      decide ((b.entries r).age < age ∨
        ((b.entries r).age = age ∧
          ((b.entries r).depth < depth ∨
            ((b.entries r).depth = depth ∧ bound = BOUND_EXACT))))

/-- Shift loop of updateKillers: for i = 0 .. MAX_KILLERS_CNT - 2 in this
order, killers[i + 1] := killers[i], each iteration reading the already
updated row. -/
def killersShiftGo (kl : Nat → Nat) : List Nat → (Nat → Nat)
  | [] => kl
  | i :: rest => killersShiftGo (fun j => if j = i + 1 then kl i else kl j) rest

/-- Searcher::updateKillers restricted to one ply row: if the move already
occurs among the killers the row is unchanged, otherwise the shift loop runs
and the front slot receives the move. -/
def updateKillers (kl : Nat → Nat) (bestMove : Nat) : Nat → Nat :=
  if (List.range MAX_KILLERS_CNT).any (fun i => kl i == bestMove) then kl
  else
    let kl := killersShiftGo kl (List.range (MAX_KILLERS_CNT - 1))
    fun j => if j = 0 then bestMove else kl j

/-! ### Zobrist keys (src/bitboard.cpp, initZobrist) -/

def PRNG_MUL : Nat := 6364136223846930515
def PRNG_ADD : Nat := 14426950408963407454
def PRNG_MOD : Nat := 4586769527459239595

/-- State of the linear-congruential generator after n getNext calls,
seeded with 1; the multiply-add wraps at 2^64 (Bitboard is uint64_t). -/
def lcgState : Nat → Nat
  | 0 => 1
  | n + 1 => (lcgState n * PRNG_MUL + PRNG_ADD) % 2 ^ 64

/-- Value returned by the n-th getNext call (the state reduced mod PRNG_MOD). -/
def zobristRand (n : Nat) : Nat := lcgState n % PRNG_MOD

/-- Zobrist component of the side to move (first PRNG output; named
ZobristBlackSide in the position.cpp revision, ZobristSide in bitboard.cpp). -/
def ZobristBlackSide : Nat := zobristRand 1

/-- Zobrist components of the singular castling rights, indexed by mask
value as in the source array; uninitialized slots are zero. -/
def ZobristCR (cr : Nat) : Nat :=
  if cr = CR_WHITE_OO then zobristRand 2
  else if cr = CR_WHITE_OOO then zobristRand 3
  else if cr = CR_BLACK_OO then zobristRand 4
  else if cr = CR_BLACK_OOO then zobristRand 5
  else 0

/-- Zobrist components of the en-passant files. -/
def ZobristEP (f : Nat) : Nat := if f < 8 then zobristRand (6 + f) else 0

/-- Zobrist components per (side, piece type, square), filled in the loop
order of initZobrist; the pt = 0 row stays zero (uninitialized). -/
def ZobristPSQ (c pt sq : Nat) : Nat :=
  if c < 2 ∧ 1 ≤ pt ∧ pt ≤ 6 ∧ sq < 64 then
    zobristRand (14 + c * 384 + (pt - 1) * 64 + sq)
  else 0

/-! ### Bitboard tables (src/bitboard.cpp, initBB; bitboard.h is absent
from the repository, so the constants it declares are reproduced from the
initialization code and, where noted, modelled from the spec). -/

def BB_RANK_1 : Nat := 0xff
def BB_FILE_A : Nat := 0x0101010101010101
def BB_RANK_8 : Nat := BB_RANK_1 <<< 56
def BB_FILE_H : Nat := BB_FILE_A <<< 7
def BB_RANK_3 : Nat := BB_RANK_1 <<< 16
def BB_RANK_6 : Nat := BB_RANK_1 <<< 40

def bbRank (r : Nat) : Nat := BB_RANK_1 <<< (8 * r)

def bbFile (f : Nat) : Nat := BB_FILE_A <<< f

def bbSquare (sq : Nat) : Nat := 1 <<< sq

/-- Diagonal index of a square (rank - file + 7) and antidiagonal index
(rank + file), as in the Square class. -/
def sqDiagonal (sq : Nat) : Nat := sqRank sq + 7 - sqFile sq

def sqAntidiagonal (sq : Nat) : Nat := sqRank sq + sqFile sq

/-- Bitboard of a whole diagonal: union of the squares with that diagonal
index (the initBB loops enumerate exactly these squares). -/
def bbDiagonal (d : Nat) : Nat :=
  (List.range 64).foldl (fun acc sq => if sqDiagonal sq = d then acc ||| bbSquare sq else acc) 0

def bbAntidiagonal (d : Nat) : Nat :=
  (List.range 64).foldl
    (fun acc sq => if sqAntidiagonal sq = d then acc ||| bbSquare sq else acc) 0

/-- Manhattan distance between squares (basic_types.h distance). -/
def sqDistance (sq1 sq2 : Nat) : Nat :=
  (Int.natAbs ((sqRank sq1 : Int) - sqRank sq2)) +
    (Int.natAbs ((sqFile sq1 : Int) - sqFile sq2))

/-- Whether an int square value is on the board (Square::isValid). -/
def sqValidInt (sq : Int) : Prop := 0 ≤ sq ∧ sq < 64

instance (sq : Int) : Decidable (sqValidInt sq) := by unfold sqValidInt; infer_instance

/-- Pawn attack table: initBB adds the up-left and up-right steps (down for
BLACK via the - (c << 4) correction), guarded by the source file tests; the
init loop runs for sq < H8, so the H8 slot stays zero. -/
def bbPawnAttack (c sq : Nat) : Nat :=
  if sq < 63 then
    (if sqFile sq ≠ 0 ∧ sqValidInt ((sq : Int) + 7 - 16 * c) then
      bbSquare (((sq : Int) + 7 - 16 * c).toNat) else 0) |||
    (if sqFile sq ≠ 7 ∧ sqValidInt ((sq : Int) + 9 - 16 * c) then
      bbSquare (((sq : Int) + 9 - 16 * c).toNat) else 0)
  else 0

/-- Knight attack table: the eight knight steps kept when on the board and
at Manhattan distance 3. -/
def bbKnightAttack (sq : Nat) : Nat :=
  [(-17 : Int), -15, -10, -6, 6, 10, 15, 17].foldl
    (fun acc d =>
      let tsq := (sq : Int) + d
      if sqValidInt tsq ∧ sqDistance sq tsq.toNat = 3 then acc ||| bbSquare tsq.toNat
      else acc) 0

/-- King attack table: the eight king steps kept when on the board and at
Manhattan distance at most 2. -/
def bbKingAttack (sq : Nat) : Nat :=
  [(-9 : Int), -8, -7, -1, 1, 7, 8, 9].foldl
    (fun acc d =>
      let tsq := (sq : Int) + d
      if sqValidInt tsq ∧ sqDistance sq tsq.toNat ≤ 2 then acc ||| bbSquare tsq.toNat
      else acc) 0

/-- Castling inner squares that must be empty: G1,F1 for OO and B1,C1,D1
for OOO, relative to the side. -/
def bbCastlingInner (c cs : Nat) : Nat :=
  if cs = OO then bbSquare (relSquare 6 c) ||| bbSquare (relSquare 5 c)
  else bbSquare (relSquare 1 c) ||| bbSquare (relSquare 2 c) ||| bbSquare (relSquare 3 c)

/-- One ray walk of lineAttacks: from the current square keep stepping in
direction d while the next square is on the board and does not wrap around
a border (Manhattan distance of one step is at most 2), accumulating
squares and stopping after the first relatively-occupied one; the fuel
bounds the at most seven steps of a ray. -/
def lineAttacksRay (relOcc : Nat) (d : Int) : Nat → Int → Nat → Nat
  | 0, _, acc => acc
  | fuel + 1, tsq, acc =>
      if sqValidInt tsq ∧ sqDistance (tsq - d).toNat tsq.toNat ≤ 2 then
        let acc := acc ||| bbSquare tsq.toNat
        if relOcc &&& bbSquare tsq.toNat ≠ 0 then acc
        else lineAttacksRay relOcc d fuel (tsq + d) acc
      else acc

/-- lineAttacks (src/bitboard.cpp): attacks from a square along four
directions given a relative occupancy. -/
def lineAttacks (from₀ : Nat) (relOcc : Nat) (dirs : List Int) : Nat :=
  dirs.foldl (fun acc d => lineAttacksRay relOcc d 8 ((from₀ : Int) + d) acc) 0

def ROOK_DIR : List Int := [8, -8, -1, 1]
def BISHOP_DIR : List Int := [-9, -7, 9, 7]

/-- Border squares that cannot block a ray from sq (initMagics). -/
def bbBorder (sq : Nat) : Nat :=
  ((BB_RANK_1 ||| BB_RANK_8) &&& ((2 ^ 64 - 1) ^^^ bbRank (sqRank sq))) |||
    ((BB_FILE_A ||| BB_FILE_H) &&& ((2 ^ 64 - 1) ^^^ bbFile (sqFile sq)))

/-- Relative occupancy mask of a rook at sq (initMagics). -/
def rookRelOcc (sq : Nat) : Nat :=
  (bbRank (sqRank sq) ||| bbFile (sqFile sq)) &&&
    ((2 ^ 64 - 1) ^^^ bbSquare sq) &&& ((2 ^ 64 - 1) ^^^ bbBorder sq)

/-- Relative occupancy mask of a bishop at sq (initMagics). -/
def bishopRelOcc (sq : Nat) : Nat :=
  (bbDiagonal (sqDiagonal sq) ||| bbAntidiagonal (sqAntidiagonal sq)) &&&
    ((2 ^ 64 - 1) ^^^ bbSquare sq) &&& ((2 ^ 64 - 1) ^^^ bbBorder sq)

/-- Modelled from the spec: magic sliding-attack lookup for rooks
(bitboard.h with the table accessors is missing from the repository).  The
spec describes the lookup as a verified perfect hash from the masked
occupancy to the precomputed attack set, and initMagics fills every table
slot with lineAttacks of the corresponding masked occupancy, so the lookup
is modelled as exactly that function. -/
def magicRookAttacks (sq occ : Nat) : Nat :=
  lineAttacks sq (occ &&& rookRelOcc sq) ROOK_DIR

/-- Modelled from the spec: magic sliding-attack lookup for bishops (see
magicRookAttacks). -/
def magicBishopAttacks (sq occ : Nat) : Nat :=
  lineAttacks sq (occ &&& bishopRelOcc sq) BISHOP_DIR

/-- Modelled from the spec: bbPawnQuiet (declared in the missing
bitboard.h) holds the quiet pawn pushes on an empty board: the single push
and, from the relative second rank, the double push. -/
def bbPawnQuiet (c sq : Nat) : Nat :=
  if c = WHITE then
    (if sqRank sq < 7 then bbSquare (sq + 8) else 0) |||
      (if sqRank sq = 1 then bbSquare (sq + 16) else 0)
  else
    (if 0 < sqRank sq then bbSquare (sq - 8) else 0) |||
      (if sqRank sq = 6 then bbSquare (sq - 16) else 0)

/-- Modelled from the spec: bbAttackEB (missing bitboard.h) holds the
attack set of a non-pawn piece type on an otherwise empty board. -/
def bbAttackEB (pt sq : Nat) : Nat :=
  if pt = KNIGHT then bbKnightAttack sq
  else if pt = KING then bbKingAttack sq
  else if pt = BISHOP then lineAttacks sq 0 BISHOP_DIR
  else if pt = ROOK then lineAttacks sq 0 ROOK_DIR
  else if pt = QUEEN then lineAttacks sq 0 BISHOP_DIR ||| lineAttacks sq 0 ROOK_DIR
  else 0

/-- One walk of bbBetween accumulation: step at most six times from just
after the source square towards the target, collecting squares strictly
before it. -/
def bbBetweenGo (to₀ : Nat) (d : Int) : Nat → Int → Nat → Nat
  | 0, _, acc => acc
  | fuel + 1, cur, acc =>
      if cur = (to₀ : Int) then acc
      else if sqValidInt cur then
        bbBetweenGo to₀ d fuel (cur + d) (acc ||| bbSquare cur.toNat)
      else acc

/-- Modelled from the spec: bbBetween (missing bitboard.h) holds the
squares strictly between two squares sharing a rank, file or diagonal, and
is empty otherwise. -/
def bbBetween (from₀ to₀ : Nat) : Nat :=
  if from₀ = to₀ ∨ 64 ≤ from₀ ∨ 64 ≤ to₀ then 0
  else
    let dr : Int := Int.sign ((sqRank to₀ : Int) - sqRank from₀)
    let df : Int := Int.sign ((sqFile to₀ : Int) - sqFile from₀)
    let aligned :=
      sqRank from₀ = sqRank to₀ ∨ sqFile from₀ = sqFile to₀ ∨
        (Int.natAbs ((sqRank to₀ : Int) - sqRank from₀) =
          Int.natAbs ((sqFile to₀ : Int) - sqFile from₀))
    if aligned then bbBetweenGo to₀ (8 * dr + df) 8 ((from₀ : Int) + 8 * dr + df) 0
    else 0

/-! ### Evaluation tables (engine/evaluate.h declares ptWeight and
psqTable; the file with their values is missing from the repository). -/

/-- Modelled from the spec: piece weights with the standard material
ordering P < N, N close to B, B < R < Q required by the spec; the spec
leaves the exact numbers free. -/
def ptWeight (pt : Nat) : Int :=
  if pt = PAWN then 100
  else if pt = KNIGHT then 300
  else if pt = BISHOP then 305
  else if pt = ROOK then 500
  else if pt = QUEEN then 900
  else 0

/-- Modelled from the spec: the piece-square table signed from White's
perspective; the spec allows any tables, and this model uses the bare
material weights (zero positional bonus). -/
def psqTable (c pt sq : Nat) : Int :=
  if sq < 64 then (if c = WHITE then ptWeight pt else -ptWeight pt) else 0

/-! ### Position (src/position.h, src/position.cpp; the put/move/remove
primitives follow src/engine/position.h, whose only difference from the
top-level revision is that it also maintains pieceCount[c][PT_ALL]). -/

structure PositionInfo where
  justCaptured : Nat
  rule50 : Nat
  epSquare : Nat
  castlingRight : Nat
  keyZobrist : Nat
deriving DecidableEq

def PositionInfo.clear : PositionInfo :=
  ⟨PT_NULL, 0, SQ_NONE, CR_NULL, 0⟩

/-- Function update helper standing for an array element assignment. -/
def updFn {α : Type} (f : Nat → α) (i : Nat) (v : α) : Nat → α :=
  fun j => if j = i then v else f j

/-- Update helper for the doubly indexed pieceCount array. -/
def updFn2 {α : Type} (f : Nat → Nat → α) (i j : Nat) (v : α) : Nat → Nat → α :=
  fun x y => if x = i ∧ y = j then v else f x y

/-- Update helper for the triply indexed pieceSq array. -/
def updFn3 {α : Type} (f : Nat → Nat → Nat → α) (i j k : Nat) (v : α) :
    Nat → Nat → Nat → α :=
  fun x y z => if x = i ∧ y = j ∧ z = k then v else f x y z

structure Position where
  board : Nat → Nat
  pieceSq : Nat → Nat → Nat → Nat
  pieceCount : Nat → Nat → Nat
  index : Nat → Nat
  colorBB : Nat → Nat
  pieceTypeBB : Nat → Nat
  info : PositionInfo
  prevStates : Nat → PositionInfo
  psqScore : Int
  gamePly : Nat
  turn : Nat

/-- Position::putPiece. -/
def Position.putPiece (p : Position) (sq c pt : Nat) : Position :=
  let bbS := bbSquare sq
  let cnt := p.pieceCount c pt
  let ptBB := updFn p.pieceTypeBB pt (p.pieceTypeBB pt ||| bbS)
  { p with
    colorBB := updFn p.colorBB c (p.colorBB c ||| bbS)
    pieceTypeBB := updFn ptBB PT_ALL (ptBB PT_ALL ||| bbS)
    pieceSq := updFn3 p.pieceSq c pt cnt sq
    index := updFn p.index sq cnt
    pieceCount := updFn2 (updFn2 p.pieceCount c pt (cnt + 1)) c PT_ALL
      ((updFn2 p.pieceCount c pt (cnt + 1)) c PT_ALL + 1)
    board := updFn p.board sq (makePiece c pt)
    psqScore := wrap16 (p.psqScore + psqTable c pt sq)
    info := { p.info with keyZobrist := p.info.keyZobrist ^^^ ZobristPSQ c pt sq } }

/-- Position::movePiece. -/
def Position.movePiece (p : Position) (from₀ to₀ : Nat) : Position :=
  let c := getPieceSide (p.board from₀)
  let pt := getPieceType (p.board from₀)
  let fromToBB := bbSquare from₀ ^^^ bbSquare to₀
  let idx := p.index from₀
  { p with
    colorBB := updFn p.colorBB c (p.colorBB c ^^^ fromToBB)
    pieceTypeBB := updFn (updFn p.pieceTypeBB pt (p.pieceTypeBB pt ^^^ fromToBB)) PT_ALL
      ((updFn p.pieceTypeBB pt (p.pieceTypeBB pt ^^^ fromToBB)) PT_ALL ^^^ fromToBB)
    pieceSq := updFn3 p.pieceSq c pt idx to₀
    index := updFn p.index to₀ idx
    board := updFn (updFn p.board to₀ (p.board from₀)) from₀ PIECE_NULL
    psqScore := wrap16 (p.psqScore + (psqTable c pt to₀ - psqTable c pt from₀))
    info := { p.info with
      keyZobrist := p.info.keyZobrist ^^^ (ZobristPSQ c pt from₀ ^^^ ZobristPSQ c pt to₀) } }

/-- Position::removePiece. -/
def Position.removePiece (p : Position) (sq : Nat) : Position :=
  let c := getPieceSide (p.board sq)
  let pt := getPieceType (p.board sq)
  let bbS := bbSquare sq
  let cnt := p.pieceCount c pt - 1
  let idx := p.index sq
  let last := p.pieceSq c pt cnt
  let atIdx := p.pieceSq c pt idx
  let newPieceSq := updFn3 (updFn3 p.pieceSq c pt cnt atIdx) c pt idx last
  { p with
    colorBB := updFn p.colorBB c (p.colorBB c ^^^ bbS)
    pieceTypeBB := updFn (updFn p.pieceTypeBB pt (p.pieceTypeBB pt ^^^ bbS)) PT_ALL
      ((updFn p.pieceTypeBB pt (p.pieceTypeBB pt ^^^ bbS)) PT_ALL ^^^ bbS)
    pieceCount := updFn2 (updFn2 p.pieceCount c pt cnt) c PT_ALL
      ((updFn2 p.pieceCount c pt cnt) c PT_ALL - 1)
    pieceSq := newPieceSq
    index := updFn p.index (newPieceSq c pt idx) idx
    board := updFn p.board sq PIECE_NULL
    psqScore := wrap16 (p.psqScore - psqTable c pt sq)
    info := { p.info with keyZobrist := p.info.keyZobrist ^^^ ZobristPSQ c pt sq } }

/-- Position::removeCastlingRight (engine/position.h): assumes a singular
right; the int8 complement is rendered through the 8-bit mask. -/
def Position.removeCastlingRight (p : Position) (cr : Nat) : Position :=
  if p.info.castlingRight &&& cr ≠ 0 then
    { p with info := { p.info with
        castlingRight := p.info.castlingRight &&& (255 ^^^ cr)
        keyZobrist := p.info.keyZobrist ^^^ ZobristCR cr } }
  else p

def Position.pieceBB (p : Position) (c pt : Nat) : Nat := p.colorBB c &&& p.pieceTypeBB pt

def Position.occupiedBB (p : Position) : Nat := p.pieceTypeBB PT_ALL

def Position.emptyBB (p : Position) : Nat := (2 ^ 64 - 1) ^^^ p.occupiedBB

/-- getLSB (src/bitboard.cpp): binary search for the least set bit. -/
def getLSB (bb : Nat) : Nat :=
  let s1 := if bb &&& 0xffffffff = 0 then (32, bb >>> 32) else (0, bb)
  let s2 := if s1.2 &&& 0xffff = 0 then (s1.1 + 16, s1.2 >>> 16) else s1
  let s3 := if s2.2 &&& 0xff = 0 then (s2.1 + 8, s2.2 >>> 8) else s2
  let s4 := if s3.2 &&& 0xf = 0 then (s3.1 + 4, s3.2 >>> 4) else s3
  let s5 := if s4.2 &&& 0x3 = 0 then (s4.1 + 2, s4.2 >>> 2) else s4
  if s5.2 &&& 0x1 = 0 then s5.1 + 1 else s5.1

/-- popLSB (src/bitboard.cpp): the least set bit index together with the
bitboard with that bit cleared. -/
def popLSB (bb : Nat) : Nat × Nat := (getLSB bb, bb &&& (bb - 1))

/-- Position::isAttacked: whether side c attacks square sq in the current
occupancy. -/
def Position.isAttacked (p : Position) (sq c : Nat) : Bool :=
  (bbPawnAttack (opposite c) sq &&& p.pieceBB c PAWN != 0) ||
  (bbKnightAttack sq &&& p.pieceBB c KNIGHT != 0) ||
  (bbKingAttack sq &&& p.pieceBB c KING != 0) ||
  (magicRookAttacks sq p.occupiedBB &&& (p.pieceBB c ROOK ||| p.pieceBB c QUEEN) != 0) ||
  (magicBishopAttacks sq p.occupiedBB &&& (p.pieceBB c BISHOP ||| p.pieceBB c QUEEN) != 0)

/-- Position::isInCheck. -/
def Position.isInCheck (p : Position) : Bool :=
  p.isAttacked (p.pieceSq p.turn KING 0) (opposite p.turn)

/-- Position::leastAttacker: least valuable attacker of square sq by side c
(P, N, B, R, Q, K order), Sq::NONE if there is none. -/
def Position.leastAttacker (p : Position) (sq c : Nat) : Nat :=
  let f1 := bbPawnAttack (opposite c) sq &&& p.pieceBB c PAWN
  if f1 ≠ 0 then getLSB f1 else
  let f2 := bbKnightAttack sq &&& p.pieceBB c KNIGHT
  if f2 ≠ 0 then getLSB f2 else
  let mBA := magicBishopAttacks sq p.occupiedBB
  let f3 := mBA &&& p.pieceBB c BISHOP
  if f3 ≠ 0 then getLSB f3 else
  let mRA := magicRookAttacks sq p.occupiedBB
  let f4 := mRA &&& p.pieceBB c ROOK
  if f4 ≠ 0 then getLSB f4 else
  let f5 := (mBA ||| mRA) &&& p.pieceBB c QUEEN
  if f5 ≠ 0 then getLSB f5 else
  let f6 := bbKingAttack sq &&& p.pieceBB c KING
  if f6 ≠ 0 then getLSB f6 else SQ_NONE

/-- Position::clear: reset scalar state; board squares 0..63, the bitboards
and the piece counts are zeroed, whereas pieceSq, index and prevStates keep
their previous contents exactly as in the source. -/
def Position.clear (p : Position) : Position :=
  { p with
    board := fun sq => if sq < 64 then PIECE_NULL else p.board sq
    colorBB := fun c => if c < 2 then 0 else p.colorBB c
    pieceTypeBB := fun pt => if pt ≤ 6 then 0 else p.pieceTypeBB pt
    pieceCount := fun c pt => if c < 2 ∧ pt ≤ 6 then 0 else p.pieceCount c pt
    info := PositionInfo.clear
    psqScore := 0
    gamePly := 0
    turn := NULL_COLOR }

/-- A fully zeroed Position value used as the arbitrary pre-construction
memory state of a C++ Position object. -/
def Position.initial : Position :=
  ⟨fun _ => PIECE_NULL, fun _ _ _ => 0, fun _ _ => 0, fun _ => 0, fun _ => 0,
    fun _ => 0, PositionInfo.clear, fun _ => PositionInfo.clear, 0, 0, NULL_COLOR⟩

/-- Position::reset: clear, place the 32 starting pieces in source order,
set the side to WHITE and grant all castling rights. -/
def Position.reset (p : Position) : Position :=
  let p := p.clear
  let p := (List.range 8).foldl (fun q i => q.putPiece (8 + i) WHITE PAWN) p
  let p := (List.range 8).foldl (fun q i => q.putPiece (48 + i) BLACK PAWN) p
  let p := (p.putPiece 0 WHITE ROOK).putPiece 7 WHITE ROOK
  let p := (p.putPiece 56 BLACK ROOK).putPiece 63 BLACK ROOK
  let p := (p.putPiece 1 WHITE KNIGHT).putPiece 6 WHITE KNIGHT
  let p := (p.putPiece 57 BLACK KNIGHT).putPiece 62 BLACK KNIGHT
  let p := (p.putPiece 2 WHITE BISHOP).putPiece 5 WHITE BISHOP
  let p := (p.putPiece 58 BLACK BISHOP).putPiece 61 BLACK BISHOP
  let p := (p.putPiece 3 WHITE QUEEN).putPiece 59 BLACK QUEEN
  let p := (p.putPiece 4 WHITE KING).putPiece 60 BLACK KING
  { p with
    turn := WHITE
    info := { p.info with
      castlingRight := CR_ALL
      keyZobrist := p.info.keyZobrist ^^^
        (ZobristCR CR_WHITE_OO ^^^ ZobristCR CR_WHITE_OOO ^^^
          ZobristCR CR_BLACK_OO ^^^ ZobristCR CR_BLACK_OOO) } }

/-- Position::doMove (src/position.cpp): apply a pseudo-legal move, pushing
the previous PositionInfo onto the stack at the current gamePly. -/
def Position.doMove (p0 : Position) (move : Nat) : Position :=
  let from₀ := moveFrom move
  let to₀ := moveTo move
  let type := moveType move
  let from_pt := getPieceType (p0.board from₀)
  let p := { p0 with prevStates := updFn p0.prevStates p0.gamePly p0.info }
  let p :=
    if p.info.epSquare ≠ SQ_NONE then
      { p with info := { p.info with
          keyZobrist := p.info.keyZobrist ^^^ ZobristEP (sqFile p.info.epSquare)
          epSquare := SQ_NONE } }
    else p
  let justCaptured := if type = MT_EN_PASSANT then PAWN else getPieceType (p.board to₀)
  let p := { p with info := { p.info with justCaptured := justCaptured } }
  let p :=
    if justCaptured ≠ PT_NULL then
      let p :=
        if type = MT_EN_PASSANT then
          p.removePiece (if p.turn = WHITE then to₀ - 8 else to₀ + 8)
        else
          let p :=
            if justCaptured = ROOK then
              if to₀ = relSquare 0 (opposite p.turn) then
                p.removeCastlingRight (makeCastling (opposite p.turn) OOO)
              else if to₀ = relSquare 7 (opposite p.turn) then
                p.removeCastlingRight (makeCastling (opposite p.turn) OO)
              else p
            else p
          p.removePiece to₀
      { p with info := { p.info with rule50 := 0 } }
    else if from_pt = PAWN then
      let p :=
        if ((to₀ : Int) - from₀).natAbs = 16 then
          let ep := (from₀ + to₀) >>> 1
          { p with info := { p.info with
              epSquare := ep
              keyZobrist := p.info.keyZobrist ^^^ ZobristEP (sqFile ep) } }
        else p
      { p with info := { p.info with rule50 := 0 } }
    else { p with info := { p.info with rule50 := (p.info.rule50 + 1) % 256 } }
  let p :=
    if from_pt = KING then
      (p.removeCastlingRight (makeCastling p.turn OO)).removeCastlingRight
        (makeCastling p.turn OOO)
    else if from_pt = ROOK then
      if from₀ = relSquare 0 p.turn then p.removeCastlingRight (makeCastling p.turn OOO)
      else if from₀ = relSquare 7 p.turn then p.removeCastlingRight (makeCastling p.turn OO)
      else p
    else p
  let p :=
    if type = MT_PROMOTION then
      (p.putPiece to₀ p.turn (movePromotion move)).removePiece from₀
    else p.movePiece from₀ to₀
  let p :=
    if type = MT_CASTLING then
      let kingSide := from₀ < to₀
      p.movePiece (mkSquare (if p.turn = WHITE then 0 else 7) (if kingSide then 7 else 0))
        (mkSquare (if p.turn = WHITE then 0 else 7) (if kingSide then 5 else 3))
    else p
  { p with
    info := { p.info with keyZobrist := p.info.keyZobrist ^^^ ZobristBlackSide }
    turn := opposite p.turn
    gamePly := p.gamePly + 1 }

/-- Position::undoMove (src/position.cpp): revert a move, restoring the
PositionInfo popped from the stack. -/
def Position.undoMove (p0 : Position) (move : Nat) : Position :=
  let from₀ := moveFrom move
  let to₀ := moveTo move
  let type := moveType move
  let p := { p0 with gamePly := p0.gamePly - 1, turn := opposite p0.turn }
  let p :=
    if type = MT_PROMOTION then
      (p.putPiece from₀ p.turn PAWN).removePiece to₀
    else p.movePiece to₀ from₀
  let p :=
    if p.info.justCaptured ≠ PT_NULL then
      if type = MT_EN_PASSANT then
        p.putPiece (if p.turn = WHITE then to₀ - 8 else to₀ + 8) (opposite p.turn)
          p.info.justCaptured
      else p.putPiece to₀ (opposite p.turn) p.info.justCaptured
    else p
  let p :=
    if type = MT_CASTLING then
      let kingSide := from₀ < to₀
      p.movePiece (mkSquare (if p.turn = WHITE then 0 else 7) (if kingSide then 5 else 3))
        (mkSquare (if p.turn = WHITE then 0 else 7) (if kingSide then 7 else 0))
    else p
  { p with info := p.prevStates p.gamePly }

/-- Move::getCastlingSide: OOO when the destination file is c, else OO. -/
def moveCastlingSide (m : Nat) : Nat := if sqFile (moveTo m) = 2 then OOO else OO

/-- Position::isPseudoLegal (src/position.cpp): test whether a move
(typically from the transposition table) is achievable in the current
position. -/
def Position.isPseudoLegal (p : Position) (move : Nat) : Bool :=
  let from₀ := moveFrom move
  let to₀ := moveTo move
  if getPieceSide (p.board from₀) ≠ p.turn ∨ getPieceSide (p.board to₀) = p.turn ∨
      p.occupiedBB &&& bbBetween from₀ to₀ ≠ 0 then false
  else if moveType move = MT_CASTLING then
    if moveCastlingSide move = OO then
      (p.info.castlingRight &&& makeCastling p.turn OO != 0) &&
        (from₀ == relSquare 4 p.turn) &&
        (p.occupiedBB &&& bbCastlingInner p.turn OO == 0) &&
        !(p.isAttacked from₀ (opposite p.turn)) &&
        !(p.isAttacked (relSquare 5 p.turn) (opposite p.turn)) &&
        !(p.isAttacked (relSquare 6 p.turn) (opposite p.turn))
    else
      (p.info.castlingRight &&& makeCastling p.turn OOO != 0) &&
        (from₀ == relSquare 4 p.turn) &&
        (p.occupiedBB &&& bbCastlingInner p.turn OOO == 0) &&
        !(p.isAttacked from₀ (opposite p.turn)) &&
        !(p.isAttacked (relSquare 3 p.turn) (opposite p.turn)) &&
        !(p.isAttacked (relSquare 2 p.turn) (opposite p.turn))
  else if getPieceType (p.board from₀) = PAWN then
    if moveType move = MT_EN_PASSANT then
      (to₀ == p.info.epSquare) && (bbPawnAttack p.turn from₀ &&& bbSquare to₀ != 0)
    else
      bbSquare to₀ &&&
        (if p.board to₀ = PIECE_NULL then bbPawnQuiet p.turn from₀
          else bbPawnAttack p.turn from₀) != 0
  else bbAttackEB (getPieceType (p.board from₀)) from₀ &&& bbSquare to₀ != 0

/-! ### Position invariants -/

/-- Well-formed piece encoding: a real side and a real piece type. -/
def pieceWF (pc : Nat) : Prop :=
  getPieceSide pc < 2 ∧ 1 ≤ getPieceType pc ∧ getPieceType pc ≤ 6 ∧
    pc = makePiece (getPieceSide pc) (getPieceType pc)

instance (pc : Nat) : Decidable (pieceWF pc) := by
  unfold pieceWF; infer_instance

/-- Consistency of a position: the facts the engine maintains between the
board, the bitboards, the counters and the reversible info, used as the
meaning of the spec notion of a legal position.  Only the parts needed by
the make/unmake and Zobrist arguments are included; the quantifiers are
bounded so that the predicate is decidable on concrete positions. -/
def Position.consistent (p : Position) : Prop :=
  (p.turn = WHITE ∨ p.turn = BLACK) ∧
  (∀ sq ∈ List.range 64, p.board sq = PIECE_NULL ∨ pieceWF (p.board sq)) ∧
  (∀ c ∈ List.range 2, p.colorBB c < 2 ^ 64 ∧ ∀ j ∈ List.range 64,
    (p.colorBB c).testBit j =
      (decide (p.board j ≠ PIECE_NULL) && decide (getPieceSide (p.board j) = c))) ∧
  (∀ pt ∈ List.range 7, 1 ≤ pt → p.pieceTypeBB pt < 2 ^ 64 ∧ ∀ j ∈ List.range 64,
    (p.pieceTypeBB pt).testBit j =
      (decide (p.board j ≠ PIECE_NULL) && decide (getPieceType (p.board j) = pt))) ∧
  (p.pieceTypeBB PT_ALL < 2 ^ 64 ∧ ∀ j ∈ List.range 64,
    (p.pieceTypeBB PT_ALL).testBit j = decide (p.board j ≠ PIECE_NULL)) ∧
  (∀ sq ∈ List.range 64, p.board sq ≠ PIECE_NULL →
    1 ≤ p.pieceCount (getPieceSide (p.board sq)) (getPieceType (p.board sq)) ∧
      1 ≤ p.pieceCount (getPieceSide (p.board sq)) PT_ALL) ∧
  (-(2 ^ 15) ≤ p.psqScore ∧ p.psqScore < 2 ^ 15) ∧
  (p.info.epSquare = SQ_NONE ∨
    (p.info.epSquare < 64 ∧ p.board p.info.epSquare = PIECE_NULL ∧
      (p.turn = WHITE →
        16 ≤ p.info.epSquare ∧
          p.board (p.info.epSquare - 8) = makePiece BLACK PAWN) ∧
      (p.turn = BLACK →
        p.info.epSquare + 8 < 64 ∧
          p.board (p.info.epSquare + 8) = makePiece WHITE PAWN))) ∧
  (∀ c, c < 2 →
    (p.info.castlingRight &&& makeCastling c OO ≠ 0 →
      p.board (relSquare 7 c) = makePiece c ROOK) ∧
    (p.info.castlingRight &&& makeCastling c OOO ≠ 0 →
      p.board (relSquare 0 c) = makePiece c ROOK))

instance (p : Position) : Decidable p.consistent := by
  unfold Position.consistent; infer_instance

/-- Shape conditions that every generated move satisfies and that the
pseudo-legality test deliberately does not re-check (its comment: the
tested move is assumed to have been generated for some valid position):
a promotion or en-passant move moves a pawn, and a castling move goes to
the relative G1 or C1 square. -/
def moveShapeOk (p : Position) (m : Nat) : Prop :=
  (moveType m = MT_PROMOTION → getPieceType (p.board (moveFrom m)) = PAWN) ∧
  (moveType m = MT_EN_PASSANT → getPieceType (p.board (moveFrom m)) = PAWN) ∧
  (moveType m = MT_CASTLING →
    moveTo m = relSquare 6 p.turn ∨ moveTo m = relSquare 2 p.turn)

instance (p : Position) (m : Nat) : Decidable (moveShapeOk p m) := by
  unfold moveShapeOk; infer_instance

/-! ### Zobrist key recomputation (the invariant of the spec) -/

/-- Zobrist contribution of one square: the per-piece component when the
square is occupied. -/
def sqKeyContrib (b : Nat → Nat) (sq : Nat) : Nat :=
  if b sq ≠ PIECE_NULL then ZobristPSQ (getPieceSide (b sq)) (getPieceType (b sq)) sq
  else 0

/-- XOR of the piece components over a list of squares. -/
def boardKeyList (b : Nat → Nat) : List Nat → Nat
  | [] => 0
  | sq :: rest => sqKeyContrib b sq ^^^ boardKeyList b rest

/-- XOR of the castling-right components over the set bits of the mask. -/
def crKey (cr : Nat) : Nat :=
  (if cr &&& CR_WHITE_OO ≠ 0 then ZobristCR CR_WHITE_OO else 0) ^^^
  (if cr &&& CR_WHITE_OOO ≠ 0 then ZobristCR CR_WHITE_OOO else 0) ^^^
  (if cr &&& CR_BLACK_OO ≠ 0 then ZobristCR CR_BLACK_OO else 0) ^^^
  (if cr &&& CR_BLACK_OOO ≠ 0 then ZobristCR CR_BLACK_OOO else 0)

/-- Full recomputation of the Zobrist key from scratch: piece components
for every occupied square, castling-right components for every set right
bit, the en-passant file component when the en-passant square is set, and
the side component exactly when BLACK is to move. -/
def zobristRecompute (p : Position) : Nat :=
  boardKeyList p.board (List.range 64) ^^^
    crKey p.info.castlingRight ^^^
    (if p.info.epSquare ≠ SQ_NONE then ZobristEP (sqFile p.info.epSquare) else 0) ^^^
    (if p.turn = BLACK then ZobristBlackSide else 0)

/-- The Zobrist invariant: the incrementally maintained key equals the full
recomputation. -/
def Position.keyInv (p : Position) : Prop :=
  p.info.keyZobrist = zobristRecompute p

instance (p : Position) : Decidable p.keyInv := by
  unfold Position.keyInv; infer_instance

/-- Fields restored by a make/unmake pair: everything the amended claim
lists (the piece-list arrays pieceSq and index, and the used slot of the
undo stack, are excluded). -/
def restoredFields (p q : Position) : Prop :=
  q.board = p.board ∧ q.colorBB = p.colorBB ∧ q.pieceTypeBB = p.pieceTypeBB ∧
    q.pieceCount = p.pieceCount ∧ q.psqScore = p.psqScore ∧ q.gamePly = p.gamePly ∧
    q.turn = p.turn ∧ q.info = p.info

/-- The decision of the TT_MOVE phase of MoveManager::next in the non-root
search: the transposition-table move is yielded iff it passes
Position::isPseudoLegal (src/engine/move_manager.cpp). -/
def ttMovePhaseYield (p : Position) (ttMove : Nat) : Option Nat :=
  if p.isPseudoLegal ttMove then some ttMove else none


/-! ### FEN input and output (Position::loadPosition / Position::writePosition)

The C++ functions stream over std::istream / std::ostream; the embedding
uses a List Char as the stream.  Formatted char input skips whitespace and
yields one character, formatted int input skips whitespace and parses an
optional sign and digits, and istr.get() consumes one raw character.  The
only liberty taken is that running out of input, which in C++ sets the
failbit and leaves the target variable unchanged, is modelled as a parse
failure; all theorems below use inputs on which no read runs dry. -/

def isDigitC (c : Char) : Bool :=
  decide (48 ≤ c.toNat) && decide (c.toNat ≤ 57)

def isUpperC (c : Char) : Bool :=
  decide (65 ≤ c.toNat) && decide (c.toNat ≤ 90)

def toUpperC (c : Char) : Char :=
  if decide (97 ≤ c.toNat) && decide (c.toNat ≤ 122) then Char.ofNat (c.toNat - 32) else c

def toLowerC (c : Char) : Char :=
  if isUpperC c then Char.ofNat (c.toNat + 32) else c

def isSpaceC (c : Char) : Bool :=
  decide (c = ' ') || decide (c.toNat = 9) || decide (c.toNat = 10) ||
    decide (c.toNat = 13)

def skipWS : List Char → List Char
  | [] => []
  | c :: rest => if isSpaceC c then skipWS rest else c :: rest

/-- Formatted char extraction: skip whitespace, take one character. -/
def readCharE (s : List Char) : Except String (Char × List Char) :=
  match skipWS s with
  | [] => .error "unexpected end of input"
  | c :: rest => .ok (c, rest)

def readDigits : List Char → Nat → Nat × List Char
  | [], acc => (acc, [])
  | c :: rest, acc =>
    if isDigitC c then readDigits rest (acc * 10 + (c.toNat - 48)) else (acc, c :: rest)

/-- Formatted int extraction: skip whitespace, optional minus sign, digits. -/
def readIntE (s : List Char) : Except String (Int × List Char) :=
  match skipWS s with
  | [] => .error "unexpected end of input"
  | '-' :: rest =>
    match rest with
    | c :: _ =>
      if isDigitC c then
        match readDigits rest 0 with
        | (n, r) => .ok (-(n : Int), r)
      else .error "invalid integer"
    | [] => .error "invalid integer"
  | c :: rest =>
    if isDigitC c then
      match readDigits (c :: rest) 0 with
      | (n, r) => .ok ((n : Int), r)
    else .error "invalid integer"

def intRepr (i : Int) : String :=
  if i < 0 then "-" ++ Nat.repr (-i).toNat else Nat.repr i.toNat

/-- pieceTypeFromFEN (basic_types.h): uppercase FEN letter to piece type,
PT_NULL for anything unknown. -/
def pieceTypeFromFEN (c : Char) : Nat :=
  if c = 'P' then PAWN
  else if c = 'N' then KNIGHT
  else if c = 'B' then BISHOP
  else if c = 'R' then ROOK
  else if c = 'Q' then QUEEN
  else if c = 'K' then KING
  else PT_NULL

/-- pieceTypeToFEN (basic_types.h). -/
def pieceTypeToFEN (pt : Nat) : Char :=
  if pt = PAWN then 'P'
  else if pt = KNIGHT then 'N'
  else if pt = BISHOP then 'B'
  else if pt = ROOK then 'R'
  else if pt = QUEEN then 'Q'
  else if pt = KING then 'K'
  else Char.ofNat 0

/-- The file loop of the placement parser for one rank; the fuel is 9,
enough for the at most 8 iterations (each consumes at least one file). -/
def loadRankFiles : Nat → Nat → Nat → Position → List Char →
    Except String (Position × List Char)
  | 0, _, _, _, _ => .error "file loop bound exceeded"
  | fuel + 1, rank, file, p, s =>
    if 8 ≤ file then .ok (p, s)
    else
      match readCharE s with
      | .error e => .error e
      | .ok (piece, s) =>
        if isDigitC piece then
          let filePass := piece.toNat - 48
          if filePass = 0 ∨ 8 < file + filePass then
            .error ("Invalid file pass number " ++ Nat.repr filePass)
          else loadRankFiles fuel rank (file + filePass) p s
        else
          loadRankFiles fuel rank (file + 1)
            (p.putPiece (mkSquare rank file)
              (if isUpperC piece then WHITE else BLACK)
              (pieceTypeFromFEN (toUpperC piece))) s

/-- The rank loop of the placement parser, ranks 7 down to 0 with a
mandatory slash between ranks. -/
def loadRanks : List Nat → Position → List Char → Except String (Position × List Char)
  | [], p, s => .ok (p, s)
  | rank :: rest, p, s =>
    match loadRankFiles 9 rank 0 p s with
    | .error e => .error e
    | .ok (p, s) =>
      if rank ≠ 0 then
        match readCharE s with
        | .error e => .error e
        | .ok (delim, s) =>
          if delim ≠ '/' then
            .error ("Missing/invalid rank delimiter " ++ String.mk [delim])
          else loadRanks rest p s
      else loadRanks rest p s

/-- The do-while loop over castling tokens: process the current token, then
grab the next raw character and stop on a space.  Running out of input
stands for the C++ get() returning EOF, whose tolower is not k or q. -/
def loadCastling : Char → Position → List Char → Except String (Position × List Char)
  | cr, p, s =>
    let cs := toLowerC cr
    if cs ≠ 'k' ∧ cs ≠ 'q' then
      .error ("Invalid castling right token " ++ String.mk [cr])
    else
      let crMask := makeCastling (if isUpperC cr then WHITE else BLACK)
        (if cs = 'k' then OO else OOO)
      let p := { p with info := { p.info with
        castlingRight := p.info.castlingRight ||| crMask
        keyZobrist := p.info.keyZobrist ^^^ ZobristCR crMask } }
      match s with
      | [] => .error ("Invalid castling right token " ++ String.mk [Char.ofNat 255])
      | c :: rest => if c = ' ' then .ok (p, rest) else loadCastling c p rest

/-- fileFromAN over Int (the int8 arithmetic fileAN - 97). -/
def fileFromAN (c : Char) : Int := (c.toNat : Int) - 97

/-- rankToAN: the char 49 + rank of the int8 arithmetic. -/
def rankToAN (r : Int) : Char := Char.ofNat ((49 + r).toNat % 256)

/-- Position::loadPosition (src/position.cpp): parse a FEN stream onto a
cleared position. -/
def Position.loadPosition (p0 : Position) (s : List Char) (omitCounters : Bool) :
    Except String Position :=
  let p := p0.clear
  match loadRanks [7, 6, 5, 4, 3, 2, 1, 0] p s with
  | .error e => .error e
  | .ok (p, s) =>
  match readCharE s with
  | .error e => .error e
  | .ok (side, s) =>
  if side = 'w' ∨ side = 'b' then
    let p :=
      if side = 'b' then
        { p with
          turn := BLACK
          info := { p.info with keyZobrist := p.info.keyZobrist ^^^ ZobristBlackSide } }
      else { p with turn := WHITE }
    match readCharE s with
    | .error e => .error e
    | .ok (castlingRight, s) =>
    match ((if castlingRight ≠ '-' then loadCastling castlingRight p s
        else .ok (p, s)) : Except String (Position × List Char)) with
    | .error e => .error e
    | .ok (p, s) =>
    match readCharE s with
    | .error e => .error e
    | .ok (epFile, s) =>
    match ((if epFile ≠ '-' then
        match readIntE s with
        | .error e => .error e
        | .ok (epRank, s) =>
          if ¬(0 ≤ epRank ∧ epRank < 8) ∨ ¬(0 ≤ fileFromAN epFile ∧ fileFromAN epFile < 8) ∨
              (epRank ≠ 2 ∧ epRank ≠ 5) then
            .error ("Invalid en-passant square " ++ String.mk [epFile, rankToAN epRank])
          else
            .ok ({ p with info := { p.info with
              epSquare := mkSquare (fileFromAN epFile).toNat epRank.toNat
              keyZobrist := p.info.keyZobrist ^^^
                ZobristEP (fileFromAN epFile).toNat } }, s)
      else .ok (p, s)) : Except String (Position × List Char)) with
    | .error e => .error e
    | .ok (p, s) =>
    if omitCounters then .ok p
    else
      match readCharE s with
      | .error e => .error e
      | .ok (r50char, s) =>
        let r50 := r50char.toNat % 256
        if 50 < r50 then
          .error ("Rule-50 halfmove counter" ++ Nat.repr r50 ++ " is invalid ")
        else
          match readIntE s with
          | .error e => .error e
          | .ok (fullMoves, _) =>
            if fullMoves ≤ 0 then
              .error ("Invalid full move counter " ++ intRepr fullMoves)
            else
              .ok { p with
                info := { p.info with rule50 := r50 }
                gamePly := ((fullMoves - 1) * 2).toNat +
                  (if side = 'b' then 1 else 0) }
  else .error ("Invalid side to move identifier " ++ String.mk [side])

def natChars (n : Nat) : List Char := (Nat.repr n).toList

/-- The placement loop of Position::writePosition, preserving its quirks:
the piece letter cur_ch is computed but never streamed, and the
consecutive-empty counter is printed at a rank end but only reset to zero
when a piece is encountered. -/
def writePlacement (p : Position) : List Nat → Nat → List Char
  | [], _ => []
  | rank :: rest, consec0 =>
    let st := (List.range 8).foldl
      (fun (st : Nat × List Char) file =>
        let pc := p.board (mkSquare rank file)
        if pc = PIECE_NULL then (st.1 + 1, st.2)
        else if st.1 ≠ 0 then (0, st.2 ++ natChars st.1) else st)
      (consec0, [])
    let out := if st.1 ≠ 0 then st.2 ++ natChars st.1 else st.2
    out ++ [if rank = 0 then ' ' else '/'] ++ writePlacement p rest st.1

/-- Position::writePosition (src/position.cpp): emit the position as a
character list, following the source statement by statement. -/
def Position.writePosition (p : Position) (omitCounters : Bool) : List Char :=
  writePlacement p [7, 6, 5, 4, 3, 2, 1, 0] 0 ++
  (if p.turn = WHITE then ['w', ' '] else ['b', ' ']) ++
  (if p.info.castlingRight = CR_NULL then ['-', ' ']
    else
      (if p.info.castlingRight &&& CR_WHITE_OO ≠ 0 then ['K'] else []) ++
      (if p.info.castlingRight &&& CR_WHITE_OOO ≠ 0 then ['Q'] else []) ++
      (if p.info.castlingRight &&& CR_BLACK_OO ≠ 0 then ['k'] else []) ++
      (if p.info.castlingRight &&& CR_BLACK_OOO ≠ 0 then ['q'] else []) ++ [' ']) ++
  (if p.info.epSquare = SQ_NONE then ['-', ' ']
    else natChars (sqFile p.info.epSquare + 97) ++ natChars (sqRank p.info.epSquare) ++
      [' ']) ++
  (if omitCounters then []
    else [Char.ofNat (p.info.rule50 % 256), ' '] ++ natChars (p.gamePly / 2))

/-- The error message of a parse result, none on success. -/
def parseError (e : Except String Position) : Option String :=
  match e with
  | .error msg => some msg
  | .ok _ => none
/-! ### Move lists and move generation
(src/engine/movelist.h, movelist.cpp; src/position.cpp generation bodies,
dispatched as in src/engine/position.h).  Only the pseudo-legal (LEGAL =
false) template instantiation is embedded: it is the one the interior
search uses through MoveManager<false>; the LEGAL = true instantiation is
used only by the root search, which is outside the verified claims. -/

def MG_NON_CAPTURES : Nat := 1
def MG_CAPTURES : Nat := 2
def MG_ALL : Nat := 3
def MAX_MOVECNT : Nat := 218

/-- The square list of a bitboard in the order the popLSB while-loops visit
it (least significant bit first).  The fuel is the 64 possible bits. -/
def bbToListGo : Nat → Nat → List Nat
  | 0, _ => []
  | fuel + 1, bb => if bb = 0 then [] else getLSB bb :: bbToListGo fuel (bb &&& (bb - 1))

def bbToList (bb : Nat) : List Nat := bbToListGo 64 bb

def MASK64 : Nat := 2 ^ 64 - 1

/-- Modelled from the spec: shiftD (declared in the missing bitboard.h)
shifts a bitboard one step in the given direction; the spec describes pawn
capture generation as "directional shifts of the pawn bitboard", which
forces the standard semantics of dropping the squares that would wrap
around the A/H file border. -/
def shiftD (d : Int) (bb : Nat) : Nat :=
  if d = 8 then (bb <<< 8) &&& MASK64
  else if d = -8 then bb >>> 8
  else if d = 7 then ((bb &&& (MASK64 ^^^ BB_FILE_A)) <<< 7) &&& MASK64
  else if d = 9 then ((bb &&& (MASK64 ^^^ BB_FILE_H)) <<< 9) &&& MASK64
  else if d = -9 then (bb &&& (MASK64 ^^^ BB_FILE_A)) >>> 9
  else if d = -7 then (bb &&& (MASK64 ^^^ BB_FILE_H)) >>> 7
  else 0

/-- MoveList (src/engine/movelist.h): the fixed moves array is kept as a
function from the index to the (move, score) node, together with the used
count and the getNextBest cursor. -/
structure MoveList where
  moves : Nat → Nat × Int
  moveCnt : Nat
  moveIdx : Nat

def MoveList.empty : MoveList := ⟨fun _ => (MOVE_NONE, 0), 0, 0⟩

/-- MoveList::add(Move): only the move field of the next node is written;
the score is never read before Searcher::scoreMoves overwrites it, and the
uninitialized source value is modelled as 0. -/
def MoveList.add (ml : MoveList) (m : Nat) : MoveList :=
  ⟨fun j => if j = ml.moveCnt then (m, (ml.moves j).2) else ml.moves j,
    ml.moveCnt + 1, ml.moveIdx⟩

/-- MoveList::add(Move, MoveScore). -/
def MoveList.addScored (ml : MoveList) (m : Nat) (s : Int) : MoveList :=
  ⟨fun j => if j = ml.moveCnt then (m, s) else ml.moves j, ml.moveCnt + 1, ml.moveIdx⟩

/-- One selection pass of MoveList::getNextBest: for each later index in
order, swap its node with the cursor node whenever its score is larger. -/
def MoveList.selPass (ml : MoveList) : List Nat → MoveList
  | [] => ml
  | i :: rest =>
      if (ml.moves i).2 > (ml.moves ml.moveIdx).2 then
        MoveList.selPass
          ⟨fun j => if j = i then ml.moves ml.moveIdx
            else if j = ml.moveIdx then ml.moves i else ml.moves j,
            ml.moveCnt, ml.moveIdx⟩ rest
      else MoveList.selPass ml rest

/-- MoveList::getNextBest. -/
def MoveList.getNextBest (ml : MoveList) : Nat × MoveList :=
  if ml.moveIdx = ml.moveCnt then (MOVE_NONE, ml)
  else
    let ml := ml.selPass (List.range' (ml.moveIdx + 1) (ml.moveCnt - (ml.moveIdx + 1)))
    ((ml.moves ml.moveIdx).1, ⟨ml.moves, ml.moveCnt, ml.moveIdx + 1⟩)

/-- MoveList::sort: std::sort by descending score.  std::sort leaves the
order of equal-score nodes unspecified; the model fixes it as a stable
descending sort. -/
def MoveList.sortedML (ml : MoveList) : MoveList :=
  let l := ((List.range ml.moveCnt).map ml.moves).mergeSort (fun a b => b.2 ≤ a.2)
  ⟨fun j => l.getD j (MOVE_NONE, 0), ml.moveCnt, ml.moveIdx⟩

/-- Position::isCaptureMove (the body survives in src/engine.h; the engine
header only declares it). -/
def Position.isCaptureMove (p : Position) (m : Nat) : Bool :=
  p.board (moveTo m) != PIECE_NULL

/-- Position::addMoveIfSuitable with LEGAL = false: unconditionally add the
pseudo-legal move. -/
def Position.addMoveIfSuitablePL (ml : MoveList) (m : Nat) : MoveList := ml.add m

/-- Position::revealPawnMoves (LEGAL = false): walk the destination
bitboard; the source square is the destination minus the direction; on the
relative last rank emit the KNIGHT and QUEEN promotions, otherwise the
plain move. -/
def Position.revealPawnMovesPL (turn0 : Nat) (destBB : Nat) (dir : Int)
    (ml : MoveList) : MoveList :=
  (bbToList destBB).foldl
    (fun ml (to₀ : Nat) =>
      let from₀ := ((to₀ : Int) - dir).toNat
      if (if turn0 = WHITE then 55 < to₀ else to₀ < 8) then
        Position.addMoveIfSuitablePL
          (Position.addMoveIfSuitablePL ml (mkMoveFull from₀ to₀ MT_PROMOTION KNIGHT))
          (mkMoveFull from₀ to₀ MT_PROMOTION QUEEN)
      else Position.addMoveIfSuitablePL ml (mkMove from₀ to₀)) ml

/-- Position::revealMoves (LEGAL = false): emit a plain move to every
square of the attack bitboard. -/
def Position.revealMovesPL (from₀ : Nat) (attackBB : Nat) (ml : MoveList) : MoveList :=
  (bbToList attackBB).foldl
    (fun ml to₀ => Position.addMoveIfSuitablePL ml (mkMove from₀ to₀)) ml

/-- Position::generatePawnMoves (LEGAL = false): left and right capture
shifts, en passant, then single and double pushes, gated by the MG_TYPE
bits. -/
def Position.generatePawnMovesPL (p : Position) (turn0 mgType : Nat)
    (ml : MoveList) : MoveList :=
  let LEFT_CAPT : Int := if turn0 = WHITE then 7 else -9
  let RIGHT_CAPT : Int := if turn0 = WHITE then 9 else -7
  let FORWARD : Int := if turn0 = WHITE then 8 else -8
  let BB_REL_RANK_3 := if turn0 = WHITE then BB_RANK_3 else BB_RANK_6
  let TURN_PAWN := makePiece turn0 PAWN
  let ml :=
    if mgType &&& MG_CAPTURES ≠ 0 then
      let ml := Position.revealPawnMovesPL turn0
        (shiftD LEFT_CAPT (p.pieceBB turn0 PAWN) &&& p.colorBB (opposite turn0))
        LEFT_CAPT ml
      let ml := Position.revealPawnMovesPL turn0
        (shiftD RIGHT_CAPT (p.pieceBB turn0 PAWN) &&& p.colorBB (opposite turn0))
        RIGHT_CAPT ml
      if p.info.epSquare ≠ SQ_NONE then
        let ml :=
          if sqFile p.info.epSquare ≠ 7 ∧
              p.board (((p.info.epSquare : Int) - LEFT_CAPT).toNat) = TURN_PAWN then
            Position.addMoveIfSuitablePL ml
              (mkMoveFull (((p.info.epSquare : Int) - LEFT_CAPT).toNat)
                p.info.epSquare MT_EN_PASSANT KNIGHT)
          else ml
        if sqFile p.info.epSquare ≠ 0 ∧
            p.board (((p.info.epSquare : Int) - RIGHT_CAPT).toNat) = TURN_PAWN then
          Position.addMoveIfSuitablePL ml
            (mkMoveFull (((p.info.epSquare : Int) - RIGHT_CAPT).toNat)
              p.info.epSquare MT_EN_PASSANT KNIGHT)
        else ml
      else ml
    else ml
  if mgType &&& MG_NON_CAPTURES ≠ 0 then
    let destBB := shiftD FORWARD (p.pieceBB turn0 PAWN) &&& p.emptyBB
    let ml := Position.revealPawnMovesPL turn0 destBB FORWARD ml
    let destBB2 := shiftD FORWARD (destBB &&& BB_REL_RANK_3) &&& p.emptyBB
    (bbToList destBB2).foldl
      (fun ml (to₀ : Nat) =>
        Position.addMoveIfSuitablePL ml
          (mkMove (((to₀ : Int) - (FORWARD + FORWARD)).toNat) to₀)) ml
  else ml

/-- Position::generateMoves (LEGAL = false): pawn moves, castlings with
their on-the-spot legality conditions, then the non-pawn piece list loops
against the MG_TYPE target. -/
def Position.generateMovesPL (p : Position) (turn0 mgType : Nat)
    (ml : MoveList) : MoveList :=
  let ml := p.generatePawnMovesPL turn0 mgType ml
  let ml :=
    if mgType &&& MG_NON_CAPTURES ≠ 0 then
      let ml :=
        if p.info.castlingRight &&& makeCastling turn0 OO ≠ 0 ∧
            p.occupiedBB &&& bbCastlingInner turn0 OO = 0 ∧
            ¬(p.isAttacked (relSquare 6 turn0) (opposite turn0) = true ∨
              p.isAttacked (relSquare 5 turn0) (opposite turn0) = true ∨
              p.isAttacked (relSquare 4 turn0) (opposite turn0) = true) then
          Position.addMoveIfSuitablePL ml (mkCastlingMove turn0 OO)
        else ml
      if p.info.castlingRight &&& makeCastling turn0 OOO ≠ 0 ∧
          p.occupiedBB &&& bbCastlingInner turn0 OOO = 0 ∧
          ¬(p.isAttacked (relSquare 2 turn0) (opposite turn0) = true ∨
            p.isAttacked (relSquare 3 turn0) (opposite turn0) = true ∨
            p.isAttacked (relSquare 4 turn0) (opposite turn0) = true) then
        Position.addMoveIfSuitablePL ml (mkCastlingMove turn0 OOO)
      else ml
    else ml
  let target :=
    if mgType = MG_CAPTURES then p.colorBB (opposite turn0)
    else if mgType = MG_NON_CAPTURES then p.emptyBB
    else MASK64 ^^^ p.colorBB turn0
  let ml := (List.range (p.pieceCount turn0 KNIGHT)).foldl
    (fun ml i =>
      let from₀ := p.pieceSq p.turn KNIGHT i
      Position.revealMovesPL from₀ (bbKnightAttack from₀ &&& target) ml) ml
  let ml := (List.range (p.pieceCount turn0 KING)).foldl
    (fun ml i =>
      let from₀ := p.pieceSq p.turn KING i
      Position.revealMovesPL from₀ (bbKingAttack from₀ &&& target) ml) ml
  let ml := (List.range (p.pieceCount turn0 ROOK)).foldl
    (fun ml i =>
      let from₀ := p.pieceSq p.turn ROOK i
      Position.revealMovesPL from₀ (magicRookAttacks from₀ p.occupiedBB &&& target) ml)
    ml
  let ml := (List.range (p.pieceCount turn0 QUEEN)).foldl
    (fun ml i =>
      let from₀ := p.pieceSq p.turn QUEEN i
      Position.revealMovesPL from₀ (magicRookAttacks from₀ p.occupiedBB &&& target) ml)
    ml
  let ml := (List.range (p.pieceCount turn0 BISHOP)).foldl
    (fun ml i =>
      let from₀ := p.pieceSq p.turn BISHOP i
      Position.revealMovesPL from₀ (magicBishopAttacks from₀ p.occupiedBB &&& target)
        ml) ml
  (List.range (p.pieceCount turn0 QUEEN)).foldl
    (fun ml i =>
      let from₀ := p.pieceSq p.turn QUEEN i
      Position.revealMovesPL from₀ (magicBishopAttacks from₀ p.occupiedBB &&& target)
        ml) ml

/-- Position::generatePseudolegalMoves (src/engine/position.h): dispatch on
the side to move; when the king is attacked the evasion generator is used.
MG_EVASIONS is declared in the missing engine basic_types header; the only
implementation of the evasion generator present in the repository
(Position::generateEvasions in src/position.cpp) generates all MG_ALL
moves, so MG_EVASIONS is modelled as MG_ALL. -/
def Position.generatePseudolegalMovesMG (p : Position) (mgType : Nat)
    (ml : MoveList) : MoveList :=
  if p.turn = WHITE then
    if p.isAttacked (p.pieceSq WHITE KING 0) BLACK then
      p.generateMovesPL WHITE MG_ALL ml
    else p.generateMovesPL WHITE mgType ml
  else
    if p.isAttacked (p.pieceSq BLACK KING 0) WHITE then
      p.generateMovesPL BLACK MG_ALL ml
    else p.generateMovesPL BLACK mgType ml

/-! ### Searcher state and helpers (src/engine/search.h, search.cpp).
The wall clock probed by the time check cannot be modelled inside a pure
function; the field timeLimitExceeded is the oracle for "elapsed time
above options->timeLimit" at the moments the check fires. -/

def TIME_CHECK_INTERVAL : Nat := 10000
def MS_TT_BONUS : Int := 1500000000
def MS_COUNTERMOVE_BONUS : Int := 300000
def MS_KILLER_BONUS : Int := 1200000
def DELTA_MARGIN : Int := 400

/-- MS_CAPTURE_BONUS_VICTIM (search.h): indexed by the captured piece
type. -/
def MS_CAPTURE_BONUS_VICTIM (pt : Nat) : Int :=
  [0, 100000, 285000, 300000, 500000, 1000000, 0].getD pt 0

/-- MS_CAPTURE_BONUS_ATTACKER (search.h): the initializer lists only six
values for the seven slots, so the KING slot is value-initialized to 0. -/
def MS_CAPTURE_BONUS_ATTACKER (pt : Nat) : Int :=
  [0, 1000000, 800000, 750000, 400000, 200000, 0].getD pt 0

/-- The per-thread search state of class Searcher together with the parts
of the shared info its search path reads and writes (stop flags, counters
and the transposition table). -/
structure Searcher where
  pos : Position
  searchPly : Nat
  prevMoves : Nat → Nat
  history : Nat → Nat → Int
  countermoves : Nat → Nat → Nat
  killers : Nat → Nat → Nat
  tt : TranspositionTable
  stopSearch : Bool
  timeout : Bool
  timeCheckCounter : Nat
  visitedNodes : Nat
  ttHits : Nat
  timeLimitExceeded : Bool

/-- The Searcher constructor state at searchPly 0: prevMoves, history and
countermoves are zeroed; the killers array is left uninitialized by the
constructor and its indeterminate contents are modelled as MOVE_NONE. -/
def Searcher.fresh (p : Position) : Searcher :=
  ⟨p, 0, fun _ => MOVE_NONE, fun _ _ => 0, fun _ _ => MOVE_NONE, fun _ _ => MOVE_NONE,
    TranspositionTable.empty, false, false, 0, 0, 0, false⟩

/-- Searcher::evaluate. -/
def Searcher.evaluate (s : Searcher) : Int :=
  if s.pos.turn = WHITE then s.pos.psqScore else -s.pos.psqScore

/-- Searcher::doMove: make the move on pos, undo it and fail if the king of
the side that moved is attacked, otherwise record it in prevMoves and
advance searchPly.  The PositionInfo out-parameter of the source is the
stack slot prevStates[gamePly] that the embedded Position::doMove already
maintains. -/
def Searcher.doMoveChecked (s : Searcher) (m : Nat) : Bool × Searcher :=
  let p1 := s.pos.doMove m
  if p1.isAttacked (p1.pieceSq (opposite p1.turn) KING 0) p1.turn then
    (false, { s with pos := p1.undoMove m })
  else
    (true, { s with
      pos := p1
      prevMoves := updFn s.prevMoves s.searchPly m
      searchPly := s.searchPly + 1 })

/-- Searcher::undoMove. -/
def Searcher.undoMoveS (s : Searcher) (m : Nat) : Searcher :=
  { s with pos := s.pos.undoMove m, searchPly := s.searchPly - 1 }

/-- Searcher::updateKillers at a ply row. -/
def Searcher.updateKillersS (s : Searcher) (ply m : Nat) : Searcher :=
  { s with killers := updFn s.killers ply (updateKillers (s.killers ply) m) }

/-- Searcher::scoreMoves: every node's score becomes the history value plus
the capture bonuses for captures, or the countermove and killer bonuses for
quiet moves. -/
def Searcher.scoreMoves (s : Searcher) (ml : MoveList) : MoveList :=
  ⟨fun i =>
    if i < ml.moveCnt then
      let m := (ml.moves i).1
      let base := s.history (moveFrom m) (moveTo m)
      if s.pos.isCaptureMove m then
        (m, base + MS_CAPTURE_BONUS_VICTIM (getPieceType (s.pos.board (moveTo m))) +
          MS_CAPTURE_BONUS_ATTACKER (getPieceType (s.pos.board (moveFrom m))))
      else
        let cmBonus :=
          if 0 < s.searchPly ∧
              m = s.countermoves (moveFrom (s.prevMoves (s.searchPly - 1)))
                (moveTo (s.prevMoves (s.searchPly - 1))) then
            MS_COUNTERMOVE_BONUS
          else 0
        let kBonus :=
          if (List.range MAX_KILLERS_CNT).any
              (fun j => s.killers s.searchPly j == m) then
            MS_KILLER_BONUS
          else 0
        (m, base + cmBonus + kBonus)
    else ml.moves i, ml.moveCnt, ml.moveIdx⟩

/-- Searcher::sortMoves: score then sort (the reset call is commented out
in the source). -/
def Searcher.sortMovesS (s : Searcher) (ml : MoveList) : MoveList :=
  (s.scoreMoves ml).sortedML

/-- One level of Searcher::SEE: take the least attacker, recurse on the
position with the exchange played, then unmake.  The source mutates pos and
restores it before returning; the model threads the restored position
through, piece-list permutations included.  The source recursion has no
explicit bound (each level removes a piece from the board); the fuel covers
the 64 board squares, and exhaustion returns SCORE_ZERO like the
no-attacker base case. -/
def SEEgo : Nat → Position → Nat → Nat → Int × Position
  | 0, p, _, _ => (SCORE_ZERO, p)
  | fuel + 1, p, sq, by₀ =>
      let from₀ := p.leastAttacker sq by₀
      if from₀ = SQ_NONE then (SCORE_ZERO, p)
      else
        let capt := p.board sq
        let p1 := (p.removePiece sq).movePiece from₀ sq
        let (v, p2) := SEEgo fuel p1 sq (opposite by₀)
        let value := max 0 (ptWeight (getPieceType capt) - v)
        ((value, (p2.movePiece sq from₀).putPiece sq (getPieceSide capt)
          (getPieceType capt)))

/-- Searcher::SEECapture. -/
def SEECapture (p : Position) (from₀ to₀ by₀ : Nat) : Int × Position :=
  let capt := p.board to₀
  let p1 := (p.removePiece to₀).movePiece from₀ to₀
  let (v, p2) := SEEgo 64 p1 to₀ (opposite by₀)
  let value := ptWeight (getPieceType capt) - v
  (value, (p2.movePiece to₀ from₀).putPiece to₀ (getPieceSide capt) (getPieceType capt))

/-! ### MoveManager (src/engine/move_manager.h, move_manager.cpp), the
non-root instantiation used by the interior search. -/

/-- MMState: TT_MOVE = 0, GENMOVES = 1, GENERATED = 2. -/
structure MoveManager where
  state : Nat
  ttMove : Nat
  moveList : MoveList

def MoveManager.init (ttMove : Nat) : MoveManager := ⟨0, ttMove, MoveList.empty⟩

/-- The GENERATED arm of MoveManager::next: pick the next best move,
skipping it once when it equals the transposition-table move. -/
def MoveManager.nextGenerated (mm : MoveManager) : Nat × MoveManager :=
  let (nm, ml1) := mm.moveList.getNextBest
  if nm = mm.ttMove then
    let (nm2, ml2) := ml1.getNextBest
    (nm2, ⟨2, mm.ttMove, ml2⟩)
  else (nm, ⟨2, mm.ttMove, ml1⟩)

/-- MoveManager<false>::next: yield the pseudo-legal ttMove first, then
generate and score the pseudo-legal moves once, then select by descending
score. -/
def MoveManager.next (s : Searcher) (mm : MoveManager) : Nat × MoveManager :=
  if mm.state = 0 then
    if s.pos.isPseudoLegal mm.ttMove then (mm.ttMove, ⟨1, mm.ttMove, mm.moveList⟩)
    else
      let ml := s.scoreMoves (s.pos.generatePseudolegalMovesMG MG_ALL MoveList.empty)
      MoveManager.nextGenerated ⟨2, mm.ttMove, ml⟩
  else if mm.state = 1 then
    let ml := s.scoreMoves (s.pos.generatePseudolegalMovesMG MG_ALL MoveList.empty)
    MoveManager.nextGenerated ⟨2, mm.ttMove, ml⟩
  else MoveManager.nextGenerated mm

/-! ### Quiescent search and PVS (src/engine/search.cpp).
Scores are modelled as unbounded Int: the source computes on Score
(int16_t) values after C++ integral promotion to int, and the search keeps
them within [SCORE_LOSE, SCORE_WIN].  The source quiescence recursion has
no explicit depth bound; the model bounds it by a fuel parameter, and fuel
exhaustion returns alpha. -/

/-- The capture loop of Searcher::quiescentSearch: delta pruning, SEE
pruning (which mutates and restores pos), lazy legality, recursion and the
alpha/beta update.  Returns (alpha, anyLegalMove, state). -/
def quiescentLoop (rec : Searcher → Int → Int → Int × Searcher) :
    Nat → Searcher → MoveList → Nat → Int → Int → Int → Bool →
    Int × Bool × Searcher
  | 0, s, _, _, alpha, _, _, anyLegal => (alpha, anyLegal, s)
  | fuel + 1, s, ml, idx, alpha, beta, standPat, anyLegal =>
      if idx < ml.moveCnt then
        let m := (ml.moves idx).1
        let (prune, s) :=
          if standPat + ptWeight (getPieceType (s.pos.board (moveTo m))) +
              DELTA_MARGIN < alpha then
            (true, s)
          else if s.pos.board (moveTo m) ≠ PIECE_NULL then
            let (v, p') := SEECapture s.pos (moveFrom m) (moveTo m) s.pos.turn
            (v < SCORE_ZERO, { s with pos := p' })
          else (false, s)
        let (ok, s1) := s.doMoveChecked m
        if !ok then quiescentLoop rec fuel s1 ml (idx + 1) alpha beta standPat anyLegal
        else if prune then
          quiescentLoop rec fuel (s1.undoMoveS m) ml (idx + 1) alpha beta standPat true
        else
          let (v, s2) := rec s1 (-beta) (-alpha)
          let score := -v
          let s3 := s2.undoMoveS m
          if score > alpha then
            if score ≥ beta then (score, true, s3)
            else quiescentLoop rec fuel s3 ml (idx + 1) score beta standPat true
          else quiescentLoop rec fuel s3 ml (idx + 1) alpha beta standPat true
      else (alpha, anyLegal, s)

/-- Searcher::quiescentSearch. -/
def quiescentSearch : Nat → Searcher → Int → Int → Int × Searcher
  | 0, s, alpha, _ => (alpha, s)
  | fuel + 1, s, alpha, beta =>
      let s := { s with visitedNodes := s.visitedNodes + 1 }
      let standPat := s.evaluate
      if standPat ≥ beta then (beta, s)
      else
        let alpha := if alpha < standPat then standPat else alpha
        let ml := s.pos.generatePseudolegalMovesMG MG_CAPTURES MoveList.empty
        if ml.moveCnt = 0 then
          (if s.pos.isInCheck then SCORE_LOSE + (s.searchPly : Int) else standPat, s)
        else
          let ml := s.sortMovesS ml
          let (alpha', anyLegal, s') :=
            quiescentLoop (quiescentSearch fuel) (ml.moveCnt + 1) s ml 0 alpha beta
              standPat false
          (if anyLegal then alpha'
            else if s'.pos.isInCheck then SCORE_LOSE + (s'.searchPly : Int)
            else standPat, s')

/-- The fuel handed to quiescentSearch by pvs at depth zero: the source
recursion is bounded only by the exchange of material. -/
def QSEARCH_FUEL : Nat := 64

/-- The nodes-between-time-checks counter of Searcher::pvs: on the
TIME_CHECK_INTERVAL-th entered node consult the clock oracle and raise the
stop and timeout flags when over the limit. -/
def pvsTimeCheck (s : Searcher) : Bool × Searcher :=
  if s.timeCheckCounter + 1 = TIME_CHECK_INTERVAL then
    let s := { s with timeCheckCounter := 0 }
    if s.timeLimitExceeded then (true, { s with stopSearch := true, timeout := true })
    else (false, s)
  else (false, { s with timeCheckCounter := s.timeCheckCounter + 1 })

/-- The transposition-table window adjustment of Searcher::pvs: when the
stored depth suffices, a LOWER bound can raise alpha and an UPPER bound can
lower beta; the stored move is remembered regardless.  Returns the adjusted
(alpha, beta) and the ttMove. -/
def pvsTTAdjust (searchPly : Nat) (entry : Option TTEntry) (depth : Nat)
    (alpha beta : Int) : Int × Int × Nat :=
  match entry with
  | none => (alpha, beta, MOVE_NONE)
  | some e =>
      if e.depth ≥ depth then
        let ttScore := scoreFromTT (searchPly : Int) e.score
        let alpha :=
          if e.bound &&& BOUND_LOWER ≠ 0 ∧ ttScore > alpha then ttScore else alpha
        let beta :=
          if e.bound &&& BOUND_UPPER ≠ 0 ∧ ttScore < beta then ttScore else beta
        (alpha, beta, e.move)
      else (alpha, beta, e.move)

/-- Whether the adjusted window collapses, which makes pvs return the
adjusted alpha before iterating any move. -/
def pvsTTCut (searchPly : Nat) (entry : Option TTEntry) (depth : Nat)
    (alpha beta : Int) : Bool :=
  match entry with
  | none => false
  | some e =>
      decide (e.depth ≥ depth) &&
        (let r := pvsTTAdjust searchPly entry depth alpha beta
         decide (r.1 ≥ r.2.1))

/-- Result of the move loop of Searcher::pvs: stopped signals the
return-SCORE_ZERO exit taken when the shared stop flag is observed after an
undo. -/
structure PvsLoopOut where
  stopped : Bool
  alpha : Int
  bestScore : Int
  bestMove : Nat
  anyLegalMove : Bool
  s : Searcher

/-- The move loop of Searcher::pvs.  rec is the search of the remaining
depth; depth is this node's depth for the history update at a beta
cutoff.  The fuel covers the manager's yields: the ttMove phase and one
list slot per iteration (the source asserts at most MAX_MOVECNT generated
moves); exhaustion ends the loop like the MOVE_NONE exit. -/
def pvsMoveLoop (rec : Searcher → Int → Int → Int × Searcher) (depth : Nat) :
    Nat → Searcher → MoveManager → Int → Int → Int → Nat → Bool → Bool →
    PvsLoopOut
  | 0, s, _, alpha, _, bestScore, bestMove, anyLegal, _ =>
      ⟨false, alpha, bestScore, bestMove, anyLegal, s⟩
  | fuel + 1, s, mm, alpha, beta, bestScore, bestMove, anyLegal, pvSearch =>
      let nx := MoveManager.next s mm
      let move := nx.1
      let mm1 := nx.2
      if move = MOVE_NONE then ⟨false, alpha, bestScore, bestMove, anyLegal, s⟩
      else
        let dm := s.doMoveChecked move
        if !dm.1 then
          pvsMoveLoop rec depth fuel dm.2 mm1 alpha beta bestScore bestMove anyLegal
            pvSearch
        else
          let sc :=
            if pvSearch then
              let r := rec dm.2 (-beta) (-alpha)
              (-r.1, r.2)
            else
              let r := rec dm.2 (-alpha - 1) (-alpha)
              let score := -r.1
              if ¬r.2.stopSearch = true ∧ beta > score ∧ score > alpha then
                let r2 := rec r.2 (-beta) (-score)
                (-r2.1, r2.2)
              else (score, r.2)
          let score := sc.1
          let s3 := sc.2.undoMoveS move
          if s3.stopSearch then ⟨true, alpha, bestScore, bestMove, true, s3⟩
          else if score > bestScore then
            if score > alpha then
              if score ≥ beta then
                let s4 :=
                  if ¬s3.pos.isCaptureMove move = true then
                    let s4 := s3.updateKillersS s3.searchPly move
                    let s4 := { s4 with
                      history := updFn2 s4.history (moveFrom move) (moveTo move)
                        (s4.history (moveFrom move) (moveTo move) +
                          (depth : Int) * (depth : Int)) }
                    { s4 with
                      countermoves := updFn2 s4.countermoves
                        (moveFrom (s4.prevMoves (s4.searchPly - 1)))
                        (moveTo (s4.prevMoves (s4.searchPly - 1))) move }
                  else s3
                ⟨false, score, score, move, true, s4⟩
              else
                pvsMoveLoop rec depth fuel s3 mm1 score beta score move true false
            else pvsMoveLoop rec depth fuel s3 mm1 alpha beta score move true false
          else
            pvsMoveLoop rec depth fuel s3 mm1 alpha beta bestScore bestMove true
              pvSearch

/-- The move-loop fuel: the ttMove yield, the generated list and slack. -/
def PVSLOOP_FUEL : Nat := MAX_MOVECNT + 2

/-- The transposition-table hit counter bump of Searcher::pvs. -/
def pvsTTHit (s : Searcher) (entry : Option TTEntry) : Searcher :=
  match entry with
  | some _ => { s with ttHits := s.ttHits + 1 }
  | none => s

/-- The probe, window adjustment and move loop of Searcher::pvs, taken as
one unit: rec searches the remaining depth, depth is this node's depth and
s is the state right after the node-count increment. -/
def pvsLoopCall (rec : Searcher → Int → Int → Int × Searcher) (depth : Nat)
    (s : Searcher) (alpha beta : Int) : PvsLoopOut :=
  let entry := s.tt.probe s.pos.info.keyZobrist
  let adj := pvsTTAdjust s.searchPly entry depth alpha beta
  pvsMoveLoop rec depth PVSLOOP_FUEL (pvsTTHit s entry) (MoveManager.init adj.2.2)
    adj.1 adj.2.1 SCORE_LOSE MOVE_NONE false true

/-- Searcher::pvs: time check, quiescence hand-off at depth zero, fifty-move
draw, transposition-table window narrowing with its possible early cutoff,
the move loop, the transposition-table store when a legal move was found,
and the checkmate/stalemate scores otherwise. -/
def pvs : Nat → Searcher → Int → Int → Int × Searcher
  | 0, s0, alpha, beta =>
      match pvsTimeCheck s0 with
      | (true, s) => (SCORE_ZERO, s)
      | (false, s) => quiescentSearch QSEARCH_FUEL s alpha beta
  | depth + 1, s0, alpha, beta =>
      match pvsTimeCheck s0 with
      | (true, s) => (SCORE_ZERO, s)
      | (false, s) =>
        let sv := { s with visitedNodes := s.visitedNodes + 1 }
        if sv.pos.info.rule50 ≥ 100 then (SCORE_ZERO, sv)
        else
          let entry := sv.tt.probe sv.pos.info.keyZobrist
          let adj := pvsTTAdjust sv.searchPly entry (depth + 1) alpha beta
          if pvsTTCut sv.searchPly entry (depth + 1) alpha beta then (adj.1, sv)
          else
            let out := pvsLoopCall (pvs depth) (depth + 1) sv alpha beta
            if out.stopped then (SCORE_ZERO, out.s)
            else
              let s' :=
                if out.anyLegalMove then
                  { out.s with
                    tt := out.s.tt.store out.s.pos.info.keyZobrist (depth + 1)
                      (if out.alpha = alpha then BOUND_UPPER
                        else if out.alpha < adj.2.1 then BOUND_EXACT else BOUND_LOWER)
                      (scoreToTT (out.s.searchPly : Int) out.bestScore) out.bestMove }
                else out.s
              (if out.anyLegalMove then out.alpha
                else if s'.pos.isInCheck then SCORE_LOSE + (s'.searchPly : Int)
                else SCORE_ZERO, s')

/-- The checkmate test position: black king on h8, white queen h7 guarded by
the king on g6; black to move with no legal move and in check. -/
def mateTestPos : Position :=
  (Position.initial.loadPosition ("7k/7Q/6K1/8/8/8/8/8 b - - 0 1".toList)
    false).toOption.getD Position.initial

/-- The searcher handed to pvs on the checkmate test position. -/
def mateTestS0 : Searcher := Searcher.fresh mateTestPos

/-- The searcher state right after the time check of pvs on the checkmate
test position. -/
def mateTestS1 : Searcher := (pvsTimeCheck mateTestS0).2

/-- The move-loop outcome of pvs at depth 1 on the checkmate test position. -/
def mateTestOut : PvsLoopOut :=
  pvsLoopCall (pvs 0) 1 { mateTestS1 with visitedNodes := mateTestS1.visitedNodes + 1 }
    SCORE_LOSE SCORE_WIN
/-! ## Lemmas and claim theorems -/

@[simp] lemma rcr_board (p : Position) (cr : Nat) :
    (p.removeCastlingRight cr).board = p.board := by
  unfold Position.removeCastlingRight; split <;> rfl
@[simp] lemma rcr_colorBB (p : Position) (cr : Nat) :
    (p.removeCastlingRight cr).colorBB = p.colorBB := by
  unfold Position.removeCastlingRight; split <;> rfl
@[simp] lemma rcr_pieceTypeBB (p : Position) (cr : Nat) :
    (p.removeCastlingRight cr).pieceTypeBB = p.pieceTypeBB := by
  unfold Position.removeCastlingRight; split <;> rfl
@[simp] lemma rcr_pieceCount (p : Position) (cr : Nat) :
    (p.removeCastlingRight cr).pieceCount = p.pieceCount := by
  unfold Position.removeCastlingRight; split <;> rfl
@[simp] lemma rcr_psqScore (p : Position) (cr : Nat) :
    (p.removeCastlingRight cr).psqScore = p.psqScore := by
  unfold Position.removeCastlingRight; split <;> rfl
@[simp] lemma rcr_turn (p : Position) (cr : Nat) :
    (p.removeCastlingRight cr).turn = p.turn := by
  unfold Position.removeCastlingRight; split <;> rfl
@[simp] lemma rcr_gamePly (p : Position) (cr : Nat) :
    (p.removeCastlingRight cr).gamePly = p.gamePly := by
  unfold Position.removeCastlingRight; split <;> rfl
@[simp] lemma rcr_prevStates (p : Position) (cr : Nat) :
    (p.removeCastlingRight cr).prevStates = p.prevStates := by
  unfold Position.removeCastlingRight; split <;> rfl
@[simp] lemma rcr_justCaptured (p : Position) (cr : Nat) :
    (p.removeCastlingRight cr).info.justCaptured = p.info.justCaptured := by
  unfold Position.removeCastlingRight; split <;> rfl

lemma wrap16_wrap16_add (x y : Int) : wrap16 (wrap16 x + y) = wrap16 (x + y) := by
  unfold wrap16; omega

lemma wrap16_eq_self (x : Int) (h1 : -(2 ^ 15) ≤ x) (h2 : x < 2 ^ 15) : wrap16 x = x := by
  unfold wrap16; omega

lemma opposite_opposite (t : Nat) (h : t = WHITE ∨ t = BLACK) :
    opposite (opposite t) = t := by
  rcases h with h | h <;> subst h <;> decide

lemma moveFrom_lt (m : Nat) : moveFrom m < 64 := by
  unfold moveFrom
  have := Nat.and_le_right (n := m) (m := 63)
  omega

lemma moveTo_lt (m : Nat) : moveTo m < 64 := by
  unfold moveTo
  have := Nat.and_le_right (n := m >>> 6) (m := 63)
  omega

/-- Splitting the first guard of isPseudoLegal. -/
lemma isPseudoLegal_split (p : Position) (m : Nat) (h : p.isPseudoLegal m = true) :
    getPieceSide (p.board (moveFrom m)) = p.turn ∧
      getPieceSide (p.board (moveTo m)) ≠ p.turn := by
  unfold Position.isPseudoLegal at h
  by_cases hc : getPieceSide (p.board (moveFrom m)) ≠ p.turn ∨
      getPieceSide (p.board (moveTo m)) = p.turn ∨
      p.occupiedBB &&& bbBetween (moveFrom m) (moveTo m) ≠ 0
  · rw [if_pos hc] at h; exact absurd h (by simp)
  · push_neg at hc
    exact ⟨hc.1, hc.2.1⟩

lemma doMove_normal_quiet_fields (p : Position) (m : Nat)
    (htype : moveType m = MT_NORMAL)
    (hjc : getPieceType (p.board (moveTo m)) = PT_NULL) :
    (p.doMove m).board =
        updFn (updFn p.board (moveTo m) (p.board (moveFrom m))) (moveFrom m) PIECE_NULL ∧
      (p.doMove m).colorBB = updFn p.colorBB (getPieceSide (p.board (moveFrom m)))
        (p.colorBB (getPieceSide (p.board (moveFrom m))) ^^^
          (bbSquare (moveFrom m) ^^^ bbSquare (moveTo m))) ∧
      (p.doMove m).pieceTypeBB =
        updFn (updFn p.pieceTypeBB (getPieceType (p.board (moveFrom m)))
            (p.pieceTypeBB (getPieceType (p.board (moveFrom m))) ^^^
              (bbSquare (moveFrom m) ^^^ bbSquare (moveTo m)))) PT_ALL
          ((updFn p.pieceTypeBB (getPieceType (p.board (moveFrom m)))
            (p.pieceTypeBB (getPieceType (p.board (moveFrom m))) ^^^
              (bbSquare (moveFrom m) ^^^ bbSquare (moveTo m)))) PT_ALL ^^^
            (bbSquare (moveFrom m) ^^^ bbSquare (moveTo m))) ∧
      (p.doMove m).pieceCount = p.pieceCount ∧
      (p.doMove m).psqScore = wrap16 (p.psqScore +
        (psqTable (getPieceSide (p.board (moveFrom m)))
            (getPieceType (p.board (moveFrom m))) (moveTo m) -
          psqTable (getPieceSide (p.board (moveFrom m)))
            (getPieceType (p.board (moveFrom m))) (moveFrom m))) ∧
      (p.doMove m).turn = opposite p.turn ∧
      (p.doMove m).gamePly = p.gamePly + 1 ∧
      (p.doMove m).prevStates = updFn p.prevStates p.gamePly p.info ∧
      (p.doMove m).info.justCaptured = PT_NULL := by
  unfold Position.doMove
  simp only [htype, hjc, show MT_NORMAL ≠ MT_EN_PASSANT by decide,
    show MT_NORMAL ≠ MT_PROMOTION by decide, show MT_NORMAL ≠ MT_CASTLING by decide,
    if_neg, if_false, ite_self, ne_eq, not_true_eq_false, not_false_eq_true,
    apply_ite Position.board, apply_ite Position.colorBB, apply_ite Position.pieceTypeBB,
    apply_ite Position.pieceCount,
    apply_ite Position.psqScore, apply_ite Position.turn, apply_ite Position.gamePly,
    apply_ite Position.prevStates, apply_ite Position.info,
    apply_ite PositionInfo.justCaptured,
    Position.movePiece, rcr_board, rcr_colorBB, rcr_pieceTypeBB, rcr_pieceCount,
    rcr_psqScore, rcr_turn, rcr_gamePly, rcr_prevStates, rcr_justCaptured]
  simp

lemma undoMove_normal_quiet_fields (q : Position) (m : Nat)
    (htype : moveType m = MT_NORMAL) (hjc : q.info.justCaptured = PT_NULL) :
    (q.undoMove m).board =
        updFn (updFn q.board (moveFrom m) (q.board (moveTo m))) (moveTo m) PIECE_NULL ∧
      (q.undoMove m).colorBB = updFn q.colorBB (getPieceSide (q.board (moveTo m)))
        (q.colorBB (getPieceSide (q.board (moveTo m))) ^^^
          (bbSquare (moveTo m) ^^^ bbSquare (moveFrom m))) ∧
      (q.undoMove m).pieceTypeBB =
        updFn (updFn q.pieceTypeBB (getPieceType (q.board (moveTo m)))
            (q.pieceTypeBB (getPieceType (q.board (moveTo m))) ^^^
              (bbSquare (moveTo m) ^^^ bbSquare (moveFrom m)))) PT_ALL
          ((updFn q.pieceTypeBB (getPieceType (q.board (moveTo m)))
            (q.pieceTypeBB (getPieceType (q.board (moveTo m))) ^^^
              (bbSquare (moveTo m) ^^^ bbSquare (moveFrom m)))) PT_ALL ^^^
            (bbSquare (moveTo m) ^^^ bbSquare (moveFrom m))) ∧
      (q.undoMove m).pieceCount = q.pieceCount ∧
      (q.undoMove m).psqScore = wrap16 (q.psqScore +
        (psqTable (getPieceSide (q.board (moveTo m)))
            (getPieceType (q.board (moveTo m))) (moveFrom m) -
          psqTable (getPieceSide (q.board (moveTo m)))
            (getPieceType (q.board (moveTo m))) (moveTo m))) ∧
      (q.undoMove m).turn = opposite q.turn ∧
      (q.undoMove m).gamePly = q.gamePly - 1 ∧
      (q.undoMove m).info = q.prevStates (q.gamePly - 1) := by
  unfold Position.undoMove
  simp only [htype, hjc, show MT_NORMAL ≠ MT_EN_PASSANT by decide,
    show MT_NORMAL ≠ MT_PROMOTION by decide, show MT_NORMAL ≠ MT_CASTLING by decide,
    if_neg, if_false, ite_self, ne_eq, not_true_eq_false, not_false_eq_true,
    apply_ite Position.board, apply_ite Position.colorBB, apply_ite Position.pieceTypeBB,
    apply_ite Position.pieceCount,
    apply_ite Position.psqScore, apply_ite Position.turn, apply_ite Position.gamePly,
    apply_ite Position.prevStates, apply_ite Position.info,
    apply_ite PositionInfo.justCaptured,
    Position.movePiece]
  simp


lemma xor_cancel_pair (x a b : Nat) : x ^^^ (a ^^^ b) ^^^ (b ^^^ a) = x := by
  rw [Nat.xor_comm b a, Nat.xor_assoc, Nat.xor_self, Nat.xor_zero]

lemma xor_cancel_pair2 (x a b : Nat) : x ^^^ (a ^^^ b) ^^^ (a ^^^ b) = x := by
  rw [Nat.xor_assoc, Nat.xor_self, Nat.xor_zero]

lemma pieceNull_side (t : Nat) (ht : t = WHITE ∨ t = BLACK) :
    getPieceSide PIECE_NULL ≠ t := by
  rcases ht with h | h <;> subst h <;> decide

lemma roundtrip_normal_quiet (p : Position) (m : Nat) (hc : p.consistent)
    (htype : moveType m = MT_NORMAL) (hpl : p.isPseudoLegal m = true)
    (hbt : p.board (moveTo m) = PIECE_NULL) :
    restoredFields p ((p.doMove m).undoMove m) := by
  obtain ⟨hturn, hwf, _, _, _, _, hpsq, _, _⟩ := hc
  obtain ⟨hsf, hst⟩ := isPseudoLegal_split p m hpl
  have hf64 : moveFrom m < 64 := moveFrom_lt m
  have ht64 : moveTo m < 64 := moveTo_lt m
  have hbf : p.board (moveFrom m) ≠ PIECE_NULL := by
    intro h
    rw [h] at hsf
    exact pieceNull_side p.turn hturn hsf
  have hne : moveFrom m ≠ moveTo m := fun h => hbf (h ▸ hbt)
  have hwff : pieceWF (p.board (moveFrom m)) :=
    (hwf (moveFrom m) (List.mem_range.mpr hf64)).resolve_left hbf
  have hptne : getPieceType (p.board (moveFrom m)) ≠ PT_ALL := by
    have := hwff.2.1; unfold PT_ALL; omega
  obtain ⟨do_b, do_c, do_t, do_n, do_p, do_tu, do_g, do_pv, do_jc⟩ :=
    doMove_normal_quiet_fields p m htype (by rw [hbt]; rfl)
  obtain ⟨un_b, un_c, un_t, un_n, un_p, un_tu, un_g, un_i⟩ :=
    undoMove_normal_quiet_fields (p.doMove m) m htype do_jc
  have hq_to : (p.doMove m).board (moveTo m) = p.board (moveFrom m) := by
    rw [do_b]; unfold updFn
    simp [Ne.symm hne]
  refine ⟨?_, ?_, ?_, ?_, ?_, ?_, ?_, ?_⟩
  · -- board
    rw [un_b, hq_to, do_b]
    funext j
    unfold updFn
    by_cases h1 : j = moveTo m
    · subst h1; simp [hne, Ne.symm hne, hbt]
    · by_cases h2 : j = moveFrom m <;> simp [h1, h2, hne, Ne.symm hne]
  · -- colorBB
    rw [un_c, hq_to, do_c]
    funext c
    unfold updFn
    by_cases h1 : c = getPieceSide (p.board (moveFrom m)) <;>
      simp [h1, xor_cancel_pair, xor_cancel_pair2]
  · -- pieceTypeBB
    rw [un_t, hq_to, do_t]
    funext v
    unfold updFn
    by_cases h0 : v = PT_ALL
    · have h1 : v ≠ getPieceType (p.board (moveFrom m)) := by
        rw [h0]; exact Ne.symm hptne
      simp [h0, h1, hptne, Ne.symm hptne, xor_cancel_pair, xor_cancel_pair2]
    · by_cases h1 : v = getPieceType (p.board (moveFrom m)) <;>
        simp [h0, h1, hptne, Ne.symm hptne, xor_cancel_pair, xor_cancel_pair2]
  · -- pieceCount
    rw [un_n, do_n]
  · -- psqScore
    rw [un_p, hq_to, do_p, wrap16_wrap16_add]
    have harith : p.psqScore +
        (psqTable (getPieceSide (p.board (moveFrom m))) (getPieceType (p.board (moveFrom m)))
          (moveTo m) -
        psqTable (getPieceSide (p.board (moveFrom m))) (getPieceType (p.board (moveFrom m)))
          (moveFrom m)) +
        (psqTable (getPieceSide (p.board (moveFrom m))) (getPieceType (p.board (moveFrom m)))
          (moveFrom m) -
        psqTable (getPieceSide (p.board (moveFrom m))) (getPieceType (p.board (moveFrom m)))
          (moveTo m)) = p.psqScore := by ring
    rw [harith, wrap16_eq_self p.psqScore hpsq.1 hpsq.2]
  · -- gamePly
    rw [un_g, do_g]
    omega
  · -- turn
    rw [un_tu, do_tu, opposite_opposite p.turn hturn]
  · -- info
    rw [un_i, do_g, do_pv]
    unfold updFn
    simp

lemma bbSquare_testBit (sq j : Nat) : (bbSquare sq).testBit j = decide (j = sq) := by
  unfold bbSquare
  rw [Nat.one_shiftLeft, Nat.testBit_two_pow]
  simp [eq_comm]

lemma xor_or_cancel (x : Nat) (sq : Nat) (hbit : x.testBit sq = true) :
    (x ^^^ bbSquare sq) ||| bbSquare sq = x := by
  apply Nat.eq_of_testBit_eq
  intro j
  rw [Nat.testBit_or, Nat.testBit_xor, bbSquare_testBit]
  by_cases h : j = sq
  · subst h; simp [hbit]
  · simp [h]

lemma or_xor_cancel (x : Nat) (sq : Nat) (hbit : x.testBit sq = false) :
    (x ||| bbSquare sq) ^^^ bbSquare sq = x := by
  apply Nat.eq_of_testBit_eq
  intro j
  rw [Nat.testBit_xor, Nat.testBit_or, bbSquare_testBit]
  by_cases h : j = sq
  · subst h; simp [hbit]
  · simp [h]

lemma enemy_side (e t : Nat) (he : e < 2) (ht : t = WHITE ∨ t = BLACK) (hne : e ≠ t) :
    e = opposite t := by
  rcases ht with h | h <;> subst h
  · rw [show opposite WHITE = BLACK from rfl]; unfold WHITE BLACK at *; omega
  · rw [show opposite BLACK = WHITE from rfl]; unfold WHITE BLACK at *; omega

lemma makePiece_decomp (pc : Nat) (h : pieceWF pc) :
    makePiece (getPieceSide pc) (getPieceType pc) = pc := h.2.2.2.symm

lemma doMove_normal_capture_fields (p : Position) (m : Nat)
    (htype : moveType m = MT_NORMAL)
    (hjc : getPieceType (p.board (moveTo m)) ≠ PT_NULL) :
    (p.doMove m).board =
        ((p.removePiece (moveTo m)).movePiece (moveFrom m) (moveTo m)).board ∧
      (p.doMove m).colorBB =
        ((p.removePiece (moveTo m)).movePiece (moveFrom m) (moveTo m)).colorBB ∧
      (p.doMove m).pieceTypeBB =
        ((p.removePiece (moveTo m)).movePiece (moveFrom m) (moveTo m)).pieceTypeBB ∧
      (p.doMove m).pieceCount =
        ((p.removePiece (moveTo m)).movePiece (moveFrom m) (moveTo m)).pieceCount ∧
      (p.doMove m).psqScore =
        ((p.removePiece (moveTo m)).movePiece (moveFrom m) (moveTo m)).psqScore ∧
      (p.doMove m).turn = opposite p.turn ∧
      (p.doMove m).gamePly = p.gamePly + 1 ∧
      (p.doMove m).prevStates = updFn p.prevStates p.gamePly p.info ∧
      (p.doMove m).info.justCaptured = getPieceType (p.board (moveTo m)) := by
  unfold Position.doMove
  simp only [htype, hjc, show MT_NORMAL ≠ MT_EN_PASSANT by decide,
    show MT_NORMAL ≠ MT_PROMOTION by decide, show MT_NORMAL ≠ MT_CASTLING by decide,
    if_neg, if_false, ite_self, ne_eq, not_true_eq_false, not_false_eq_true,
    apply_ite Position.board, apply_ite Position.colorBB, apply_ite Position.pieceTypeBB,
    apply_ite Position.pieceCount,
    apply_ite Position.psqScore, apply_ite Position.turn, apply_ite Position.gamePly,
    apply_ite Position.prevStates, apply_ite Position.info,
    apply_ite PositionInfo.justCaptured,
    Position.movePiece, Position.removePiece, rcr_board, rcr_colorBB, rcr_pieceTypeBB,
    rcr_pieceCount, rcr_psqScore, rcr_turn, rcr_gamePly, rcr_prevStates, rcr_justCaptured]
  simp

lemma undoMove_capture_fields (q : Position) (m : Nat)
    (htype : moveType m = MT_NORMAL) (hjcq : q.info.justCaptured ≠ PT_NULL) :
    (q.undoMove m).board =
        ((q.movePiece (moveTo m) (moveFrom m)).putPiece (moveTo m)
          (opposite (opposite q.turn)) q.info.justCaptured).board ∧
      (q.undoMove m).colorBB =
        ((q.movePiece (moveTo m) (moveFrom m)).putPiece (moveTo m)
          (opposite (opposite q.turn)) q.info.justCaptured).colorBB ∧
      (q.undoMove m).pieceTypeBB =
        ((q.movePiece (moveTo m) (moveFrom m)).putPiece (moveTo m)
          (opposite (opposite q.turn)) q.info.justCaptured).pieceTypeBB ∧
      (q.undoMove m).pieceCount =
        ((q.movePiece (moveTo m) (moveFrom m)).putPiece (moveTo m)
          (opposite (opposite q.turn)) q.info.justCaptured).pieceCount ∧
      (q.undoMove m).psqScore =
        ((q.movePiece (moveTo m) (moveFrom m)).putPiece (moveTo m)
          (opposite (opposite q.turn)) q.info.justCaptured).psqScore ∧
      (q.undoMove m).turn = opposite q.turn ∧
      (q.undoMove m).gamePly = q.gamePly - 1 ∧
      (q.undoMove m).info = q.prevStates (q.gamePly - 1) := by
  unfold Position.undoMove
  simp only [htype, hjcq, show MT_NORMAL ≠ MT_EN_PASSANT by decide,
    show MT_NORMAL ≠ MT_PROMOTION by decide, show MT_NORMAL ≠ MT_CASTLING by decide,
    if_neg, if_false, ite_self, ne_eq, not_true_eq_false, not_false_eq_true,
    apply_ite Position.board, apply_ite Position.colorBB, apply_ite Position.pieceTypeBB,
    apply_ite Position.pieceCount,
    apply_ite Position.psqScore, apply_ite Position.turn, apply_ite Position.gamePly,
    apply_ite Position.prevStates, apply_ite Position.info,
    Position.movePiece, Position.putPiece]
  simp


lemma opposite_ne (t : Nat) (ht : t = WHITE ∨ t = BLACK) : opposite t ≠ t := by
  rcases ht with h | h <;> subst h <;> decide

lemma consistent_colorBit (p : Position) (hc : p.consistent) (sq : Nat) (h64 : sq < 64)
    (hocc : p.board sq ≠ PIECE_NULL) (hside : getPieceSide (p.board sq) < 2) :
    (p.colorBB (getPieceSide (p.board sq))).testBit sq = true := by
  obtain ⟨-, -, hcbb, -, -, -, -, -, -⟩ := hc
  rw [(hcbb _ (List.mem_range.mpr hside)).2 sq (List.mem_range.mpr h64)]
  simp [hocc]

lemma consistent_typeBit (p : Position) (hc : p.consistent) (sq : Nat) (h64 : sq < 64)
    (hocc : p.board sq ≠ PIECE_NULL) (h1 : 1 ≤ getPieceType (p.board sq))
    (h6 : getPieceType (p.board sq) ≤ 6) :
    (p.pieceTypeBB (getPieceType (p.board sq))).testBit sq = true := by
  obtain ⟨-, -, -, hptbb, -, -, -, -, -⟩ := hc
  rw [(hptbb _ (List.mem_range.mpr (by omega)) h1).2 sq (List.mem_range.mpr h64)]
  simp [hocc]

lemma consistent_allBit (p : Position) (hc : p.consistent) (sq : Nat) (h64 : sq < 64)
    (hocc : p.board sq ≠ PIECE_NULL) :
    (p.pieceTypeBB PT_ALL).testBit sq = true := by
  obtain ⟨-, -, -, -, hall, -, -, -, -⟩ := hc
  rw [hall.2 sq (List.mem_range.mpr h64)]
  simp [hocc]

lemma wrap16_wrap16_sub (x y : Int) : wrap16 (wrap16 x - y) = wrap16 (x - y) := by
  unfold wrap16; omega

lemma roundtrip_normal_capture (p : Position) (m : Nat) (hc : p.consistent)
    (htype : moveType m = MT_NORMAL) (hpl : p.isPseudoLegal m = true)
    (hbt : p.board (moveTo m) ≠ PIECE_NULL) :
    restoredFields p ((p.doMove m).undoMove m) := by
  obtain ⟨hturn, hwf, -, -, -, hcnt, hpsq, -, -⟩ := id hc
  obtain ⟨hsf, hst⟩ := isPseudoLegal_split p m hpl
  have hf64 : moveFrom m < 64 := moveFrom_lt m
  have ht64 : moveTo m < 64 := moveTo_lt m
  have hbf : p.board (moveFrom m) ≠ PIECE_NULL := by
    intro h; rw [h] at hsf; exact pieceNull_side p.turn hturn hsf
  have hwff : pieceWF (p.board (moveFrom m)) :=
    (hwf (moveFrom m) (List.mem_range.mpr hf64)).resolve_left hbf
  have hwft : pieceWF (p.board (moveTo m)) :=
    (hwf (moveTo m) (List.mem_range.mpr ht64)).resolve_left hbt
  have hne : moveFrom m ≠ moveTo m := by
    intro h; rw [← h] at hst; exact hst hsf
  have hjc : getPieceType (p.board (moveTo m)) ≠ PT_NULL := by
    have := hwft.2.1; unfold PT_NULL; omega
  have heside : getPieceSide (p.board (moveTo m)) = opposite p.turn :=
    enemy_side _ p.turn hwft.1 hturn hst
  have hptne : getPieceType (p.board (moveFrom m)) ≠ PT_ALL := by
    have := hwff.2.1; unfold PT_ALL; omega
  have hjcall : getPieceType (p.board (moveTo m)) ≠ PT_ALL := by
    have := hwft.2.1; unfold PT_ALL; omega
  have hsne : getPieceSide (p.board (moveTo m)) ≠ getPieceSide (p.board (moveFrom m)) := by
    rw [heside, hsf]; exact opposite_ne p.turn hturn
  have hcbit : (p.colorBB (getPieceSide (p.board (moveTo m)))).testBit (moveTo m) = true :=
    consistent_colorBit p hc (moveTo m) ht64 hbt hwft.1
  have htbit :
      (p.pieceTypeBB (getPieceType (p.board (moveTo m)))).testBit (moveTo m) = true :=
    consistent_typeBit p hc (moveTo m) ht64 hbt hwft.2.1 hwft.2.2.1
  have habit : (p.pieceTypeBB PT_ALL).testBit (moveTo m) = true :=
    consistent_allBit p hc (moveTo m) ht64 hbt
  have hcnts := hcnt (moveTo m) (List.mem_range.mpr ht64) hbt
  obtain ⟨do_b, do_c, do_t, do_n, do_p, do_tu, do_g, do_pv, do_jc⟩ :=
    doMove_normal_capture_fields p m htype hjc
  have hjcq : (p.doMove m).info.justCaptured ≠ PT_NULL := by rw [do_jc]; exact hjc
  obtain ⟨un_b, un_c, un_t, un_n, un_p, un_tu, un_g, un_i⟩ :=
    undoMove_capture_fields (p.doMove m) m htype hjcq
  -- the put-back side is the captured side
  have hput_side : opposite (opposite (p.doMove m).turn) = getPieceSide (p.board (moveTo m)) := by
    rw [do_tu, opposite_opposite _ (by rcases hturn with h | h <;> rw [h] <;> decide),
      heside]
  -- q reads
  have hq_t : (p.doMove m).board (moveTo m) = p.board (moveFrom m) := by
    rw [do_b]
    simp [Position.removePiece, Position.movePiece, updFn, hne, Ne.symm hne]
  refine ⟨?_, ?_, ?_, ?_, ?_, ?_, ?_, ?_⟩
  · -- board
    rw [un_b]
    simp only [Position.movePiece, Position.putPiece, hq_t, do_b, do_jc, hput_side]
    simp only [Position.removePiece, Position.movePiece]
    funext j
    unfold updFn
    by_cases h1 : j = moveTo m
    · subst h1
      simp [hne, Ne.symm hne, makePiece_decomp _ hwft]
    · by_cases h2 : j = moveFrom m <;> simp [h1, h2, hne, Ne.symm hne]
  · -- colorBB
    rw [un_c]
    simp only [Position.movePiece, Position.putPiece, hq_t, do_c, do_jc, hput_side]
    simp only [Position.removePiece, Position.movePiece]
    funext c
    try simp only [hq_t, do_b]
    try simp only [Position.removePiece, Position.movePiece]
    unfold updFn
    try simp only [show ((if moveFrom m = moveTo m then PIECE_NULL else p.board (moveFrom m))) =
      p.board (moveFrom m) from by simp [hne]]
    try simp only [show ((if moveTo m = moveFrom m then PIECE_NULL else p.board (moveTo m))) =
      p.board (moveTo m) from by simp [Ne.symm hne]]
    by_cases h1 : c = getPieceSide (p.board (moveTo m))
    · by_cases h2 : c = getPieceSide (p.board (moveFrom m))
      · exact absurd (h1.symm.trans h2) hsne
      · simp [h1, h2, hsne, Ne.symm hsne, xor_cancel_pair, xor_cancel_pair2,
          xor_or_cancel _ _ hcbit]
    · by_cases h2 : c = getPieceSide (p.board (moveFrom m)) <;>
        simp [h1, h2, hsne, Ne.symm hsne, xor_cancel_pair, xor_cancel_pair2]
  · -- pieceTypeBB
    rw [un_t]
    simp only [Position.movePiece, Position.putPiece, hq_t, do_t, do_jc, hput_side]
    simp only [Position.removePiece, Position.movePiece]
    funext v
    try simp only [hq_t, do_b]
    try simp only [Position.removePiece, Position.movePiece]
    unfold updFn
    try simp only [show ((if moveFrom m = moveTo m then PIECE_NULL else p.board (moveFrom m))) =
      p.board (moveFrom m) from by simp [hne]]
    try simp only [show ((if moveTo m = moveFrom m then PIECE_NULL else p.board (moveTo m))) =
      p.board (moveTo m) from by simp [Ne.symm hne]]
    by_cases h0 : v = PT_ALL
    · simp [h0, hptne, Ne.symm hptne, hjcall, Ne.symm hjcall, xor_cancel_pair,
        xor_cancel_pair2, xor_or_cancel _ _ habit]
    · by_cases hpe : getPieceType (p.board (moveTo m)) = getPieceType (p.board (moveFrom m))
      · rw [show getPieceType (p.board (moveFrom m)) = getPieceType (p.board (moveTo m))
          from hpe.symm]
        by_cases h1 : v = getPieceType (p.board (moveTo m)) <;>
          simp [h0, h1, hjcall, Ne.symm hjcall, hptne, Ne.symm hptne,
            xor_cancel_pair, xor_cancel_pair2, xor_or_cancel _ _ htbit]
      · by_cases h1 : v = getPieceType (p.board (moveTo m))
        · by_cases h2 : v = getPieceType (p.board (moveFrom m))
          · exact absurd (h1.symm.trans h2) hpe
          · simp [h0, h1, h2, hpe, Ne.symm hpe, hjcall, Ne.symm hjcall, hptne,
              Ne.symm hptne, xor_cancel_pair, xor_cancel_pair2,
              xor_or_cancel _ _ htbit]
        · by_cases h2 : v = getPieceType (p.board (moveFrom m)) <;>
            simp [h0, h1, h2, hpe, Ne.symm hpe, hjcall, Ne.symm hjcall, hptne,
              Ne.symm hptne, xor_cancel_pair, xor_cancel_pair2]
  · -- pieceCount
    rw [un_n]
    simp only [Position.movePiece, Position.putPiece, hq_t, do_n, do_jc, hput_side]
    simp only [Position.removePiece, Position.movePiece]
    funext c pt
    unfold updFn2
    by_cases h1 : c = getPieceSide (p.board (moveTo m)) ∧ pt = getPieceType (p.board (moveTo m))
    · simp [h1, hjc, hjcall, Ne.symm hjcall]
      omega
    · by_cases h2 : c = getPieceSide (p.board (moveTo m)) ∧ pt = PT_ALL <;>
        simp [h1, h2, hjc, hjcall, Ne.symm hjcall] <;> omega
  · -- psqScore
    rw [un_p]
    simp only [Position.movePiece, Position.putPiece, hq_t, do_p, do_jc, hput_side]
    simp only [Position.removePiece, Position.movePiece]
    try simp only [hq_t, do_b]
    try simp only [Position.removePiece, Position.movePiece]
    unfold updFn
    try simp only [show ((if moveFrom m = moveTo m then PIECE_NULL else p.board (moveFrom m))) =
      p.board (moveFrom m) from by simp [hne]]
    try simp only [show ((if moveTo m = moveFrom m then PIECE_NULL else p.board (moveTo m))) =
      p.board (moveTo m) from by simp [Ne.symm hne]]
    try rw [wrap16_wrap16_add]
    try rw [wrap16_wrap16_add]
    try rw [wrap16_wrap16_sub]
    rw [add_assoc, wrap16_wrap16_add]
    have harith : p.psqScore -
        psqTable (getPieceSide (p.board (moveTo m))) (getPieceType (p.board (moveTo m)))
          (moveTo m) +
        (psqTable (getPieceSide (p.board (moveFrom m))) (getPieceType (p.board (moveFrom m)))
            (moveTo m) -
          psqTable (getPieceSide (p.board (moveFrom m))) (getPieceType (p.board (moveFrom m)))
            (moveFrom m)) +
        ((psqTable (getPieceSide (p.board (moveFrom m))) (getPieceType (p.board (moveFrom m)))
            (moveFrom m) -
          psqTable (getPieceSide (p.board (moveFrom m))) (getPieceType (p.board (moveFrom m)))
            (moveTo m)) +
        psqTable (getPieceSide (p.board (moveTo m))) (getPieceType (p.board (moveTo m)))
          (moveTo m)) = p.psqScore := by ring
    rw [harith, wrap16_eq_self p.psqScore hpsq.1 hpsq.2]
  · -- gamePly
    rw [un_g, do_g]; omega
  · -- turn
    rw [un_tu, do_tu, opposite_opposite p.turn hturn]
  · -- info
    rw [un_i, do_g, do_pv]
    unfold updFn
    simp

/-- The imperative store scan coincides with the declarative replacement
policy on every bucket and record. -/
lemma ttStore_eq_spec (b : TTBucket) (key depth bound : Nat) (score : Int)
    (move age : Nat) :
    TTBucket.store b key depth bound score move age =
      ttStoreSpec b key depth bound score move age := by
  have hr3 : List.range TTBUCKET_ENTRIES = [0, 1, 2] := rfl
  unfold TTBucket.store ttStoreSpec ttFirstServiced ttVictim ttVictimBeats
  rw [hr3]
  by_cases e0 : (b.entries 0).depth = 0
  · rw [TTBucket.storeGo]; simp [e0]
  · by_cases k0 : (b.entries 0).key = key
    · rw [TTBucket.storeGo]; simp [e0, k0, ge_iff_le]
    · rw [TTBucket.storeGo]
      simp only [e0, k0, if_neg, if_pos, ite_self, if_true, if_false, or_self,
        not_false_eq_true]
      by_cases e1 : (b.entries 1).depth = 0
      · rw [TTBucket.storeGo]; simp [e0, k0, e1]
      · by_cases k1 : (b.entries 1).key = key
        · rw [TTBucket.storeGo]; simp [e0, k0, e1, k1, ge_iff_le]
        · rw [TTBucket.storeGo]
          simp only [e1, k1, if_neg, if_pos, if_true, if_false]
          by_cases e2 : (b.entries 2).depth = 0
          · rw [TTBucket.storeGo]; simp [e0, k0, e1, k1, e2]
          · by_cases k2 : (b.entries 2).key = key
            · rw [TTBucket.storeGo]; simp [e0, k0, e1, k1, e2, k2, ge_iff_le]
            · rw [TTBucket.storeGo]
              simp only [e2, k2, if_neg, if_pos, if_true, if_false]
              rw [TTBucket.storeGo]
              simp [e0, k0, e1, k1, e2, k2]

/-- When the replacement policy accepts a record of positive depth, the
probe right after the store finds exactly the written record. -/
lemma ttStoreWrites_probe (b : TTBucket) (key depth bound : Nat) (score : Int)
    (move age : Nat) (hd : 1 ≤ depth)
    (hw : ttStoreWrites b key depth bound age = true) :
    (TTBucket.store b key depth bound score move age).probe key =
      some (TTEntry.store key depth bound score move age) := by
  have hr3 : List.range TTBUCKET_ENTRIES = [0, 1, 2] := rfl
  have hdepth : ¬ depth = 0 := by omega
  rw [ttStore_eq_spec]
  unfold ttStoreSpec ttStoreWrites ttFirstServiced ttVictim at *
  by_cases e0 : (b.entries 0).depth = 0
  · simp only [e0, true_or, if_pos, if_true] at hw ⊢
    unfold TTBucket.probe
    rw [hr3]
    simp [TTBucket.probeGo, TTBucket.setEntry, TTEntry.store, hdepth]
  · by_cases k0 : (b.entries 0).key = key
    · simp only [e0, k0, false_or, or_true, if_true, if_neg, not_false_eq_true,
        ge_iff_le, decide_eq_true_eq] at hw ⊢
      rw [if_pos hw]
      unfold TTBucket.probe
      rw [hr3]
      simp [TTBucket.probeGo, TTBucket.setEntry, TTEntry.store, hdepth]
    · simp only [e0, k0, or_self, if_neg, not_false_eq_true, false_or] at hw ⊢
      by_cases e1 : (b.entries 1).depth = 0
      · simp only [e1, true_or, if_pos, if_true] at hw ⊢
        unfold TTBucket.probe
        rw [hr3]
        simp [TTBucket.probeGo, TTBucket.setEntry, TTEntry.store, hdepth, e0, k0]
      · by_cases k1 : (b.entries 1).key = key
        · simp only [e1, k1, false_or, or_true, if_true, if_neg, not_false_eq_true,
            ge_iff_le, decide_eq_true_eq] at hw ⊢
          rw [if_pos hw]
          unfold TTBucket.probe
          rw [hr3]
          simp [TTBucket.probeGo, TTBucket.setEntry, TTEntry.store, hdepth, e0, k0]
        · simp only [e1, k1, or_self, if_neg, not_false_eq_true, false_or] at hw ⊢
          by_cases e2 : (b.entries 2).depth = 0
          · simp only [e2, true_or, if_pos, if_true] at hw ⊢
            unfold TTBucket.probe
            rw [hr3]
            simp [TTBucket.probeGo, TTBucket.setEntry, TTEntry.store, hdepth,
              e0, k0, e1, k1]
          · by_cases k2 : (b.entries 2).key = key
            · simp only [e2, k2, false_or, or_true, if_true, if_neg, not_false_eq_true,
                ge_iff_le, decide_eq_true_eq] at hw ⊢
              rw [if_pos hw]
              unfold TTBucket.probe
              rw [hr3]
              simp [TTBucket.probeGo, TTBucket.setEntry, TTEntry.store, hdepth,
                e0, k0, e1, k1]
            · simp only [e2, k2, or_self, if_neg, not_false_eq_true,
                decide_eq_true_eq] at hw ⊢
              rw [if_pos hw]
              generalize hr : (if ttVictimBeats b 2 (if ttVictimBeats b 1 0 then 1 else 0)
                then 2 else if ttVictimBeats b 1 0 then 1 else 0) = r
              have hrmem : r = 0 ∨ r = 1 ∨ r = 2 := by
                rw [← hr]
                by_cases v1 : ttVictimBeats b 1 0
                · rw [if_pos v1]
                  by_cases v2 : ttVictimBeats b 2 1 <;> simp [v2]
                · rw [if_neg v1]
                  by_cases v2 : ttVictimBeats b 2 0 <;> simp [v2]
              unfold TTBucket.probe
              rw [hr3]
              rcases hrmem with h | h | h <;> subst h
              · simp [TTBucket.probeGo, TTBucket.setEntry, TTEntry.store, hdepth]
              · simp [TTBucket.probeGo, TTBucket.setEntry, TTEntry.store, hdepth, e0, k0]
              · simp [TTBucket.probeGo, TTBucket.setEntry, TTEntry.store, hdepth,
                  e0, k0, e1, k1]

/-- C4 counterexample: the claim gives absolute priority to rule 1 (write
into the first empty entry whenever one exists), but the scan services a
key-matching entry encountered earlier in index order.  Concretely, after
storing (key 7, depth 5) into an empty bucket, entry 1 is empty, yet a
second store of (key 7, depth 3) leaves the bucket unchanged instead of
writing the record into entry 1. -/
theorem tt_store_firstEmpty_counterexample :
    let b1 := TTBucket.empty.store 7 5 BOUND_LOWER 0 10 0
    (b1.entries 0).depth = 5 ∧ (b1.entries 1).depth = 0 ∧
      ((b1.store 7 3 BOUND_EXACT 11 22 0).entries 1).depth = 0 ∧
      ((b1.store 7 3 BOUND_EXACT 11 22 0).entries 0).depth = 5 := by
  decide

/-- C4 (amended): TTBucket::store scans the bucket in index order and
services the first entry that is empty or key-matching — an empty entry is
always written, a matching one iff the new depth is at least the stored
one; when no entry is empty or matching, the victim is the entry with the
smallest age (ties broken by smaller depth, then by earlier index), and it
is overwritten iff the incoming record has a newer age, or equal age with
greater depth, or equal age and depth with bound = EXACT. -/
theorem tt_store_follows_policy (b : TTBucket) (key depth bound : Nat) (score : Int)
    (move age : Nat) :
    TTBucket.store b key depth bound score move age =
      ttStoreSpec b key depth bound score move age :=
  ttStore_eq_spec b key depth bound score move age

/-- C5 counterexample: a store need not write.  After store(k = 7, d = 5,
LOWER, 44, 10) an immediately following store(k = 7, d = 3, EXACT, 55, 20)
is rejected by the depth test, and probe(7) returns the old entry: its
depth, bound, score and move differ from the just-stored values. -/
theorem tt_probe_after_store_counterexample :
    ((TranspositionTable.empty.store 7 5 BOUND_LOWER 44 10).store
        7 3 BOUND_EXACT 55 20).probe 7 =
      some ⟨5, BOUND_LOWER, 44, 0, 10, 7⟩ := by
  decide

/-- C5 (amended): whenever the bucket replacement policy accepts the record
(and the record has positive depth, as every search store does), a probe of
the same key with no intervening store returns a non-null entry whose key,
depth, bound, score and move equal the stored values. -/
theorem tt_store_probe_roundtrip (t : TranspositionTable) (key depth bound : Nat)
    (score : Int) (move : Nat) (hd : 1 ≤ depth)
    (hw : ttStoreWrites (t.table (key &&& TT_INDEX_MASK)) key depth bound t.age = true) :
    (t.store key depth bound score move).probe key =
      some (TTEntry.store key depth bound score move t.age) := by
  unfold TranspositionTable.store TranspositionTable.probe
  simp only [if_pos]
  exact ttStoreWrites_probe _ key depth bound score move t.age hd hw

/-- C5 witness: storing depth 4 at key 9 into the empty table writes (the
bucket has an empty slot), and the probe returns exactly the stored
record. -/
theorem tt_store_probe_roundtrip_witness :
    (TranspositionTable.empty.store 9 4 BOUND_EXACT 123 77).probe 9 =
      some (TTEntry.store 9 4 BOUND_EXACT 123 77 0) :=
  tt_store_probe_roundtrip TranspositionTable.empty 9 4 BOUND_EXACT 123 77
    (by decide) (by decide)

/-- C8: updateKillers is intended as an unshift-to-front, but the shift
loop copies upward in ascending index order, so every slot past the front
receives a copy of the old front killer.  Starting from a zeroed row,
updating with move 100 and then with a fresh move 200 yields the row
(200, 100, 100): the middle killer is duplicated into the last slot instead
of the previous second killer being kept there (the claimed unshift would
give (200, 100, 0)). -/
theorem updateKillers_duplicates_front :
    updateKillers (updateKillers (fun _ => 0) 100) 200 0 = 200 ∧
      updateKillers (updateKillers (fun _ => 0) 100) 200 1 = 100 ∧
      updateKillers (updateKillers (fun _ => 0) 100) 200 2 = 100 := by
  decide

/-- C9: scoreToTT adds searchPly to near-win scores (score > SCORE_WIN_MIN),
subtracts it from near-loss scores (score < SCORE_LOSE_MAX) and keeps all
other scores; scoreFromTT applies the inverse offsets, and the two compose
to the identity for every score in [SCORE_LOSE, SCORE_WIN] and every
searchPly in [0, MAX_SEARCH_PLY]. -/
theorem scoreToTT_fromTT_roundtrip (s ply : Int) (h1 : SCORE_LOSE ≤ s)
    (h2 : s ≤ SCORE_WIN) (h3 : 0 ≤ ply) (h4 : ply ≤ (MAX_SEARCH_PLY : Int)) :
    (scoreToTT ply s =
        (if s > SCORE_WIN_MIN then s + ply
          else if s < SCORE_LOSE_MAX then s - ply else s)) ∧
      scoreFromTT ply (scoreToTT ply s) = s := by
  unfold scoreToTT scoreFromTT wrap16 SCORE_WIN_MIN SCORE_LOSE_MAX SCORE_LOSE SCORE_WIN
    MAX_GAME_PLY MAX_SEARCH_PLY at *
  constructor
  · split_ifs <;> omega
  · split_ifs <;> omega

/-- C9 witness: a mate score 29500 at searchPly 3 is stored as 29503 and
read back as 29500; an ordinary score passes through unchanged. -/
theorem scoreToTT_fromTT_roundtrip_witness :
    scoreToTT 3 29500 = 29503 ∧ scoreFromTT 3 (scoreToTT 3 29500) = 29500 :=
  ⟨(scoreToTT_fromTT_roundtrip 29500 3 (by decide) (by decide) (by decide)
      (by decide)).1.trans (by decide),
    (scoreToTT_fromTT_roundtrip 29500 3 (by decide) (by decide) (by decide)
      (by decide)).2⟩

/-- Extracting the en-passant branch of isPseudoLegal: for a pawn move of
type EN_PASSANT the destination must be the recorded en-passant square. -/
lemma isPseudoLegal_ep_to (p : Position) (m : Nat)
    (htype : moveType m = MT_EN_PASSANT)
    (hpawn : getPieceType (p.board (moveFrom m)) = PAWN)
    (hpl : p.isPseudoLegal m = true) :
    moveTo m = p.info.epSquare := by
  unfold Position.isPseudoLegal at hpl
  by_cases hg : getPieceSide (p.board (moveFrom m)) ≠ p.turn ∨
      getPieceSide (p.board (moveTo m)) = p.turn ∨
      p.occupiedBB &&& bbBetween (moveFrom m) (moveTo m) ≠ 0
  · rw [if_pos hg] at hpl; exact absurd hpl (by simp)
  · rw [if_neg hg] at hpl
    simp only [htype, hpawn, show MT_EN_PASSANT ≠ MT_CASTLING by decide,
      if_false, eq_self_iff_true, if_true, Bool.and_eq_true, beq_iff_eq] at hpl
    exact hpl.1

lemma doMove_ep_fields (p : Position) (m : Nat)
    (htype : moveType m = MT_EN_PASSANT) :
    (p.doMove m).board =
        ((p.removePiece (if p.turn = WHITE then moveTo m - 8 else moveTo m + 8)).movePiece
          (moveFrom m) (moveTo m)).board ∧
      (p.doMove m).colorBB =
        ((p.removePiece (if p.turn = WHITE then moveTo m - 8 else moveTo m + 8)).movePiece
          (moveFrom m) (moveTo m)).colorBB ∧
      (p.doMove m).pieceTypeBB =
        ((p.removePiece (if p.turn = WHITE then moveTo m - 8 else moveTo m + 8)).movePiece
          (moveFrom m) (moveTo m)).pieceTypeBB ∧
      (p.doMove m).pieceCount =
        ((p.removePiece (if p.turn = WHITE then moveTo m - 8 else moveTo m + 8)).movePiece
          (moveFrom m) (moveTo m)).pieceCount ∧
      (p.doMove m).psqScore =
        ((p.removePiece (if p.turn = WHITE then moveTo m - 8 else moveTo m + 8)).movePiece
          (moveFrom m) (moveTo m)).psqScore ∧
      (p.doMove m).turn = opposite p.turn ∧
      (p.doMove m).gamePly = p.gamePly + 1 ∧
      (p.doMove m).prevStates = updFn p.prevStates p.gamePly p.info ∧
      (p.doMove m).info.justCaptured = PAWN := by
  unfold Position.doMove
  simp only [htype, show MT_EN_PASSANT ≠ MT_NORMAL by decide,
    show MT_EN_PASSANT ≠ MT_PROMOTION by decide, show MT_EN_PASSANT ≠ MT_CASTLING by decide,
    show PAWN ≠ PT_NULL by decide, eq_self_iff_true, if_true,
    if_neg, if_false, ite_self, ne_eq, not_true_eq_false, not_false_eq_true,
    apply_ite Position.board, apply_ite Position.colorBB, apply_ite Position.pieceTypeBB,
    apply_ite Position.pieceCount,
    apply_ite Position.psqScore, apply_ite Position.turn, apply_ite Position.gamePly,
    apply_ite Position.prevStates, apply_ite Position.info,
    apply_ite PositionInfo.justCaptured,
    Position.movePiece, Position.removePiece, rcr_board, rcr_colorBB, rcr_pieceTypeBB,
    rcr_pieceCount, rcr_psqScore, rcr_turn, rcr_gamePly, rcr_prevStates, rcr_justCaptured]
  simp

lemma undoMove_ep_fields (q : Position) (m : Nat)
    (htype : moveType m = MT_EN_PASSANT) (hjcq : q.info.justCaptured ≠ PT_NULL) :
    (q.undoMove m).board =
        ((q.movePiece (moveTo m) (moveFrom m)).putPiece
          (if opposite q.turn = WHITE then moveTo m - 8 else moveTo m + 8)
          (opposite (opposite q.turn)) q.info.justCaptured).board ∧
      (q.undoMove m).colorBB =
        ((q.movePiece (moveTo m) (moveFrom m)).putPiece
          (if opposite q.turn = WHITE then moveTo m - 8 else moveTo m + 8)
          (opposite (opposite q.turn)) q.info.justCaptured).colorBB ∧
      (q.undoMove m).pieceTypeBB =
        ((q.movePiece (moveTo m) (moveFrom m)).putPiece
          (if opposite q.turn = WHITE then moveTo m - 8 else moveTo m + 8)
          (opposite (opposite q.turn)) q.info.justCaptured).pieceTypeBB ∧
      (q.undoMove m).pieceCount =
        ((q.movePiece (moveTo m) (moveFrom m)).putPiece
          (if opposite q.turn = WHITE then moveTo m - 8 else moveTo m + 8)
          (opposite (opposite q.turn)) q.info.justCaptured).pieceCount ∧
      (q.undoMove m).psqScore =
        ((q.movePiece (moveTo m) (moveFrom m)).putPiece
          (if opposite q.turn = WHITE then moveTo m - 8 else moveTo m + 8)
          (opposite (opposite q.turn)) q.info.justCaptured).psqScore ∧
      (q.undoMove m).turn = opposite q.turn ∧
      (q.undoMove m).gamePly = q.gamePly - 1 ∧
      (q.undoMove m).info = q.prevStates (q.gamePly - 1) := by
  unfold Position.undoMove
  simp only [htype, hjcq, show MT_EN_PASSANT ≠ MT_NORMAL by decide,
    show MT_EN_PASSANT ≠ MT_PROMOTION by decide, show MT_EN_PASSANT ≠ MT_CASTLING by decide,
    eq_self_iff_true, if_true,
    if_neg, if_false, ite_self, ne_eq, not_true_eq_false, not_false_eq_true,
    apply_ite Position.board, apply_ite Position.colorBB, apply_ite Position.pieceTypeBB,
    apply_ite Position.pieceCount,
    apply_ite Position.psqScore, apply_ite Position.turn, apply_ite Position.gamePly,
    apply_ite Position.prevStates, apply_ite Position.info,
    Position.movePiece, Position.putPiece]
  simp

lemma wrap16_eq_of (x y : Int) (h : x = y) (h1 : -(2 ^ 15) ≤ y) (h2 : y < 2 ^ 15) :
    wrap16 x = y := by
  rw [h]; exact wrap16_eq_self y h1 h2

lemma roundtrip_ep (p : Position) (m : Nat) (hc : p.consistent)
    (htype : moveType m = MT_EN_PASSANT) (hpl : p.isPseudoLegal m = true)
    (hpawn : getPieceType (p.board (moveFrom m)) = PAWN) :
    restoredFields p ((p.doMove m).undoMove m) := by
  obtain ⟨hturn, hwf, -, -, -, hcnt, hpsq, hepc, -⟩ := id hc
  obtain ⟨hsf, hst⟩ := isPseudoLegal_split p m hpl
  have hf64 : moveFrom m < 64 := moveFrom_lt m
  have ht64 : moveTo m < 64 := moveTo_lt m
  have hbf : p.board (moveFrom m) ≠ PIECE_NULL := by
    intro h; rw [h] at hsf; exact pieceNull_side p.turn hturn hsf
  have hep : moveTo m = p.info.epSquare := isPseudoLegal_ep_to p m htype hpawn hpl
  have hepn : p.info.epSquare ≠ SQ_NONE := by rw [← hep]; unfold SQ_NONE; omega
  rcases hepc with h | hepc
  · exact absurd h hepn
  have hbt : p.board (moveTo m) = PIECE_NULL := by rw [hep]; exact hepc.2.1
  have hbcap : p.board (if p.turn = WHITE then moveTo m - 8 else moveTo m + 8) =
      makePiece (opposite p.turn) PAWN := by
    rcases hturn with h | h
    · rw [if_pos h, hep, h, show opposite WHITE = BLACK from rfl]
      exact (hepc.2.2.1 h).2
    · rw [if_neg (by rw [h]; decide), hep, h, show opposite BLACK = WHITE from rfl]
      exact (hepc.2.2.2 h).2
  have hcap64 : (if p.turn = WHITE then moveTo m - 8 else moveTo m + 8) < 64 := by
    rcases hturn with h | h
    · rw [if_pos h]; omega
    · rw [if_neg (by rw [h]; decide), hep]
      have := (hepc.2.2.2 h).1
      omega
  have hbcapne :
      p.board (if p.turn = WHITE then moveTo m - 8 else moveTo m + 8) ≠ PIECE_NULL := by
    rw [hbcap]; rcases hturn with h | h <;> rw [h] <;> decide
  have hcapside : getPieceSide (p.board (if p.turn = WHITE then moveTo m - 8
      else moveTo m + 8)) = opposite p.turn := by
    rw [hbcap]; rcases hturn with h | h <;> rw [h] <;> decide
  have hcaptype : getPieceType (p.board (if p.turn = WHITE then moveTo m - 8
      else moveTo m + 8)) = PAWN := by
    rw [hbcap]; rcases hturn with h | h <;> rw [h] <;> decide
  have hne : moveFrom m ≠ moveTo m := by
    intro h; rw [h] at hbf; exact hbf hbt
  have hfromcap : moveFrom m ≠ (if p.turn = WHITE then moveTo m - 8 else moveTo m + 8) := by
    intro h
    have h2 : getPieceSide (p.board (moveFrom m)) = opposite p.turn := by
      rw [h]; exact hcapside
    rw [hsf] at h2
    exact opposite_ne p.turn hturn h2.symm
  have htocap : moveTo m ≠ (if p.turn = WHITE then moveTo m - 8 else moveTo m + 8) := by
    intro h; rw [← h] at hbcapne; exact hbcapne hbt
  have hopp2 : opposite p.turn < 2 := by rcases hturn with h | h <;> rw [h] <;> decide
  have hcbitO : (p.colorBB (opposite p.turn)).testBit
      (if p.turn = WHITE then moveTo m - 8 else moveTo m + 8) = true := by
    rw [← hcapside]
    exact consistent_colorBit p hc _ hcap64 hbcapne (by rw [hcapside]; exact hopp2)
  have htbit : (p.pieceTypeBB PAWN).testBit
      (if p.turn = WHITE then moveTo m - 8 else moveTo m + 8) = true := by
    rw [← hcaptype]
    exact consistent_typeBit p hc _ hcap64 hbcapne (by rw [hcaptype]; decide)
      (by rw [hcaptype]; decide)
  have habit : (p.pieceTypeBB PT_ALL).testBit
      (if p.turn = WHITE then moveTo m - 8 else moveTo m + 8) = true :=
    consistent_allBit p hc _ hcap64 hbcapne
  have hcnts0 := hcnt _ (List.mem_range.mpr hcap64) hbcapne
  have hcnts : 1 ≤ p.pieceCount (opposite p.turn) PAWN ∧
      1 ≤ p.pieceCount (opposite p.turn) PT_ALL := by
    rw [← hcapside, ← hcaptype]; exact hcnts0
  have hsne : opposite p.turn ≠ getPieceSide (p.board (moveFrom m)) := by
    rw [hsf]; exact opposite_ne p.turn hturn
  have hpa : PAWN ≠ PT_ALL := by decide
  obtain ⟨do_b, do_c, do_t, do_n, do_p, do_tu, do_g, do_pv, do_jc⟩ :=
    doMove_ep_fields p m htype
  have hjcq : (p.doMove m).info.justCaptured ≠ PT_NULL := by rw [do_jc]; decide
  obtain ⟨un_b, un_c, un_t, un_n, un_p, un_tu, un_g, un_i⟩ :=
    undoMove_ep_fields (p.doMove m) m htype hjcq
  have hsq : (if opposite (p.doMove m).turn = WHITE then moveTo m - 8 else moveTo m + 8) =
      (if p.turn = WHITE then moveTo m - 8 else moveTo m + 8) := by
    rw [do_tu, opposite_opposite _ hturn]
  have hput_side : opposite (opposite (p.doMove m).turn) = opposite p.turn := by
    rw [do_tu, opposite_opposite _ hturn]
  rw [hsq] at un_b un_c un_t un_n un_p
  have hq_t : (p.doMove m).board (moveTo m) = p.board (moveFrom m) := by
    rw [do_b]
    simp [Position.removePiece, Position.movePiece, updFn, hne, Ne.symm hne, hfromcap]
  have hb1f : (if moveFrom m = (if p.turn = WHITE then moveTo m - 8 else moveTo m + 8)
      then PIECE_NULL
      else p.board (moveFrom m)) = p.board (moveFrom m) := by simp [hfromcap]
  refine ⟨?_, ?_, ?_, ?_, ?_, ?_, ?_, ?_⟩
  · -- board
    rw [un_b]
    simp only [Position.movePiece, Position.putPiece, hq_t, do_b, do_jc, hput_side]
    simp only [Position.removePiece, Position.movePiece]
    funext j
    unfold updFn
    by_cases h1 : j = (if p.turn = WHITE then moveTo m - 8 else moveTo m + 8)
    · rw [h1]
      simp [Ne.symm hfromcap, Ne.symm htocap, hbcap]
    · by_cases h2 : j = moveTo m
      · rw [h2]
        simp [hne, Ne.symm hne, htocap, hbt, h1, show moveTo m ≠ (if p.turn = WHITE
          then moveTo m - 8 else moveTo m + 8) from htocap]
      · by_cases h3 : j = moveFrom m <;>
          simp [h1, h2, h3, hne, Ne.symm hne, hfromcap, htocap, hb1f]
  · -- colorBB
    rw [un_c]
    simp only [Position.movePiece, Position.putPiece, hq_t, do_c, do_jc, hput_side]
    simp only [Position.removePiece, Position.movePiece]
    funext c
    try simp only [hq_t, do_b]
    try simp only [Position.removePiece, Position.movePiece]
    unfold updFn
    try simp only [hb1f]
    try simp only [hcapside]
    by_cases h1 : c = opposite p.turn
    · by_cases h2 : c = getPieceSide (p.board (moveFrom m))
      · exact absurd (h1.symm.trans h2) hsne
      · simp [h1, h2, hsne, Ne.symm hsne, xor_cancel_pair, xor_cancel_pair2,
          xor_or_cancel _ _ hcbitO]
    · by_cases h2 : c = getPieceSide (p.board (moveFrom m)) <;>
        simp [h1, h2, hsne, Ne.symm hsne, xor_cancel_pair, xor_cancel_pair2]
  · -- pieceTypeBB
    rw [un_t]
    simp only [Position.movePiece, Position.putPiece, hq_t, do_t, do_jc, hput_side]
    simp only [Position.removePiece, Position.movePiece]
    funext v
    try simp only [hq_t, do_b]
    try simp only [Position.removePiece, Position.movePiece]
    unfold updFn
    try simp only [hb1f]
    try simp only [hcapside, hcaptype, hpawn]
    by_cases h0 : v = PT_ALL
    · simp [h0, hpa, Ne.symm hpa, xor_cancel_pair, xor_cancel_pair2,
        xor_or_cancel _ _ habit]
    · by_cases h1 : v = PAWN
      · simp [h0, h1, hpa, Ne.symm hpa, xor_cancel_pair, xor_cancel_pair2,
          xor_or_cancel _ _ htbit]
      · simp [h0, h1, hpa, Ne.symm hpa]
  · -- pieceCount
    rw [un_n]
    simp only [Position.movePiece, Position.putPiece, hq_t, do_n, do_jc, hput_side]
    simp only [Position.removePiece, Position.movePiece]
    try simp only [hcapside, hcaptype]
    funext c pt
    unfold updFn2
    by_cases h1 : c = opposite p.turn ∧ pt = PAWN
    · simp [h1, hpa, Ne.symm hpa]
      omega
    · by_cases h2 : c = opposite p.turn ∧ pt = PT_ALL <;>
        simp [h1, h2, hpa, Ne.symm hpa] <;> omega
  · -- psqScore
    rw [un_p]
    simp only [Position.movePiece, Position.putPiece, hq_t, do_p, do_jc, hput_side]
    simp only [Position.removePiece, Position.movePiece]
    try simp only [hq_t, do_b]
    try simp only [Position.removePiece, Position.movePiece]
    unfold updFn
    try simp only [hb1f]
    try simp only [hcapside, hcaptype, hpawn]
    simp only [wrap16_wrap16_add, wrap16_wrap16_sub, add_assoc]
    exact wrap16_eq_of _ _ (by ring) hpsq.1 hpsq.2
  · -- gamePly
    rw [un_g, do_g]; omega
  · -- turn
    rw [un_tu, do_tu, opposite_opposite p.turn hturn]
  · -- info
    rw [un_i, do_g, do_pv]
    unfold updFn
    simp

lemma movePromotion_bounds (m : Nat) : 2 ≤ movePromotion m ∧ movePromotion m ≤ 5 := by
  unfold movePromotion
  have := Nat.and_le_right (n := m >>> 14) (m := 3)
  omega

lemma getPieceSide_makePiece (c pt : Nat) (hc : c < 2) (h1 : 1 ≤ pt) (h8 : pt ≤ 7) :
    getPieceSide (makePiece c pt) = c := by
  interval_cases c <;> interval_cases pt <;> decide

lemma getPieceType_makePiece (c pt : Nat) (hc : c < 2) (h8 : pt ≤ 7) :
    getPieceType (makePiece c pt) = pt := by
  interval_cases c <;> interval_cases pt <;> decide

lemma makePiece_ne_null (c pt : Nat) (hc : c < 2) (h1 : 1 ≤ pt) (h8 : pt ≤ 7) :
    makePiece c pt ≠ PIECE_NULL := by
  interval_cases c <;> interval_cases pt <;> decide

lemma consistent_colorBit_false (p : Position) (hc : p.consistent) (sq : Nat)
    (h64 : sq < 64) (c : Nat) (hc2 : c < 2)
    (hneq : ¬(p.board sq ≠ PIECE_NULL ∧ getPieceSide (p.board sq) = c)) :
    (p.colorBB c).testBit sq = false := by
  obtain ⟨-, -, hcbb, -, -, -, -, -, -⟩ := hc
  rw [(hcbb _ (List.mem_range.mpr hc2)).2 sq (List.mem_range.mpr h64)]
  by_cases h : p.board sq = PIECE_NULL
  · simp [h]
  · have h2 : getPieceSide (p.board sq) ≠ c := fun he => hneq ⟨h, he⟩
    simp [h, h2]

lemma consistent_typeBit_false (p : Position) (hc : p.consistent) (sq : Nat)
    (h64 : sq < 64) (pt : Nat) (h1 : 1 ≤ pt) (h6 : pt ≤ 6)
    (hneq : getPieceType (p.board sq) ≠ pt) :
    (p.pieceTypeBB pt).testBit sq = false := by
  obtain ⟨-, -, -, hptbb, -, -, -, -, -⟩ := hc
  rw [(hptbb _ (List.mem_range.mpr (by omega)) h1).2 sq (List.mem_range.mpr h64)]
  simp [hneq]

lemma consistent_allBit_false (p : Position) (hc : p.consistent) (sq : Nat)
    (h64 : sq < 64) (hempty : p.board sq = PIECE_NULL) :
    (p.pieceTypeBB PT_ALL).testBit sq = false := by
  obtain ⟨-, -, -, -, hall, -, -, -, -⟩ := hc
  rw [hall.2 sq (List.mem_range.mpr h64)]
  simp [hempty]

lemma doMove_promo_quiet_fields (p : Position) (m : Nat)
    (htype : moveType m = MT_PROMOTION)
    (hjc : getPieceType (p.board (moveTo m)) = PT_NULL) :
    (p.doMove m).board =
        ((p.putPiece (moveTo m) p.turn (movePromotion m)).removePiece (moveFrom m)).board ∧
      (p.doMove m).colorBB =
        ((p.putPiece (moveTo m) p.turn (movePromotion m)).removePiece (moveFrom m)).colorBB ∧
      (p.doMove m).pieceTypeBB =
        ((p.putPiece (moveTo m) p.turn (movePromotion m)).removePiece
          (moveFrom m)).pieceTypeBB ∧
      (p.doMove m).pieceCount =
        ((p.putPiece (moveTo m) p.turn (movePromotion m)).removePiece
          (moveFrom m)).pieceCount ∧
      (p.doMove m).psqScore =
        ((p.putPiece (moveTo m) p.turn (movePromotion m)).removePiece
          (moveFrom m)).psqScore ∧
      (p.doMove m).turn = opposite p.turn ∧
      (p.doMove m).gamePly = p.gamePly + 1 ∧
      (p.doMove m).prevStates = updFn p.prevStates p.gamePly p.info ∧
      (p.doMove m).info.justCaptured = PT_NULL := by
  unfold Position.doMove
  simp only [htype, hjc, show MT_PROMOTION ≠ MT_NORMAL by decide,
    show MT_PROMOTION ≠ MT_EN_PASSANT by decide, show MT_PROMOTION ≠ MT_CASTLING by decide,
    eq_self_iff_true, if_true,
    if_neg, if_false, ite_self, ne_eq, not_true_eq_false, not_false_eq_true,
    apply_ite Position.board, apply_ite Position.colorBB, apply_ite Position.pieceTypeBB,
    apply_ite Position.pieceCount,
    apply_ite Position.psqScore, apply_ite Position.turn, apply_ite Position.gamePly,
    apply_ite Position.prevStates, apply_ite Position.info,
    apply_ite PositionInfo.justCaptured,
    Position.movePiece, Position.putPiece, Position.removePiece,
    rcr_board, rcr_colorBB, rcr_pieceTypeBB,
    rcr_pieceCount, rcr_psqScore, rcr_turn, rcr_gamePly, rcr_prevStates, rcr_justCaptured]
  simp

lemma doMove_promo_capture_fields (p : Position) (m : Nat)
    (htype : moveType m = MT_PROMOTION)
    (hjc : getPieceType (p.board (moveTo m)) ≠ PT_NULL) :
    (p.doMove m).board =
        (((p.removePiece (moveTo m)).putPiece (moveTo m) p.turn
          (movePromotion m)).removePiece (moveFrom m)).board ∧
      (p.doMove m).colorBB =
        (((p.removePiece (moveTo m)).putPiece (moveTo m) p.turn
          (movePromotion m)).removePiece (moveFrom m)).colorBB ∧
      (p.doMove m).pieceTypeBB =
        (((p.removePiece (moveTo m)).putPiece (moveTo m) p.turn
          (movePromotion m)).removePiece (moveFrom m)).pieceTypeBB ∧
      (p.doMove m).pieceCount =
        (((p.removePiece (moveTo m)).putPiece (moveTo m) p.turn
          (movePromotion m)).removePiece (moveFrom m)).pieceCount ∧
      (p.doMove m).psqScore =
        (((p.removePiece (moveTo m)).putPiece (moveTo m) p.turn
          (movePromotion m)).removePiece (moveFrom m)).psqScore ∧
      (p.doMove m).turn = opposite p.turn ∧
      (p.doMove m).gamePly = p.gamePly + 1 ∧
      (p.doMove m).prevStates = updFn p.prevStates p.gamePly p.info ∧
      (p.doMove m).info.justCaptured = getPieceType (p.board (moveTo m)) := by
  unfold Position.doMove
  simp only [htype, hjc, show MT_PROMOTION ≠ MT_NORMAL by decide,
    show MT_PROMOTION ≠ MT_EN_PASSANT by decide, show MT_PROMOTION ≠ MT_CASTLING by decide,
    eq_self_iff_true, if_true,
    if_neg, if_false, ite_self, ne_eq, not_true_eq_false, not_false_eq_true,
    apply_ite Position.board, apply_ite Position.colorBB, apply_ite Position.pieceTypeBB,
    apply_ite Position.pieceCount,
    apply_ite Position.psqScore, apply_ite Position.turn, apply_ite Position.gamePly,
    apply_ite Position.prevStates, apply_ite Position.info,
    apply_ite PositionInfo.justCaptured,
    Position.movePiece, Position.putPiece, Position.removePiece,
    rcr_board, rcr_colorBB, rcr_pieceTypeBB,
    rcr_pieceCount, rcr_psqScore, rcr_turn, rcr_gamePly, rcr_prevStates, rcr_justCaptured]
  simp

lemma undoMove_promo_quiet_fields (q : Position) (m : Nat)
    (htype : moveType m = MT_PROMOTION) (hjcq : q.info.justCaptured = PT_NULL) :
    (q.undoMove m).board =
        ((q.putPiece (moveFrom m) (opposite q.turn) PAWN).removePiece (moveTo m)).board ∧
      (q.undoMove m).colorBB =
        ((q.putPiece (moveFrom m) (opposite q.turn) PAWN).removePiece (moveTo m)).colorBB ∧
      (q.undoMove m).pieceTypeBB =
        ((q.putPiece (moveFrom m) (opposite q.turn) PAWN).removePiece
          (moveTo m)).pieceTypeBB ∧
      (q.undoMove m).pieceCount =
        ((q.putPiece (moveFrom m) (opposite q.turn) PAWN).removePiece
          (moveTo m)).pieceCount ∧
      (q.undoMove m).psqScore =
        ((q.putPiece (moveFrom m) (opposite q.turn) PAWN).removePiece
          (moveTo m)).psqScore ∧
      (q.undoMove m).turn = opposite q.turn ∧
      (q.undoMove m).gamePly = q.gamePly - 1 ∧
      (q.undoMove m).info = q.prevStates (q.gamePly - 1) := by
  unfold Position.undoMove
  simp only [htype, hjcq, show MT_PROMOTION ≠ MT_NORMAL by decide,
    show MT_PROMOTION ≠ MT_EN_PASSANT by decide, show MT_PROMOTION ≠ MT_CASTLING by decide,
    eq_self_iff_true, if_true,
    if_neg, if_false, ite_self, ne_eq, not_true_eq_false, not_false_eq_true,
    apply_ite Position.board, apply_ite Position.colorBB, apply_ite Position.pieceTypeBB,
    apply_ite Position.pieceCount,
    apply_ite Position.psqScore, apply_ite Position.turn, apply_ite Position.gamePly,
    apply_ite Position.prevStates, apply_ite Position.info,
    Position.movePiece, Position.putPiece, Position.removePiece]
  simp

lemma undoMove_promo_capture_fields (q : Position) (m : Nat)
    (htype : moveType m = MT_PROMOTION) (hjcq : q.info.justCaptured ≠ PT_NULL) :
    (q.undoMove m).board =
        (((q.putPiece (moveFrom m) (opposite q.turn) PAWN).removePiece
          (moveTo m)).putPiece (moveTo m) (opposite (opposite q.turn))
          q.info.justCaptured).board ∧
      (q.undoMove m).colorBB =
        (((q.putPiece (moveFrom m) (opposite q.turn) PAWN).removePiece
          (moveTo m)).putPiece (moveTo m) (opposite (opposite q.turn))
          q.info.justCaptured).colorBB ∧
      (q.undoMove m).pieceTypeBB =
        (((q.putPiece (moveFrom m) (opposite q.turn) PAWN).removePiece
          (moveTo m)).putPiece (moveTo m) (opposite (opposite q.turn))
          q.info.justCaptured).pieceTypeBB ∧
      (q.undoMove m).pieceCount =
        (((q.putPiece (moveFrom m) (opposite q.turn) PAWN).removePiece
          (moveTo m)).putPiece (moveTo m) (opposite (opposite q.turn))
          q.info.justCaptured).pieceCount ∧
      (q.undoMove m).psqScore =
        (((q.putPiece (moveFrom m) (opposite q.turn) PAWN).removePiece
          (moveTo m)).putPiece (moveTo m) (opposite (opposite q.turn))
          q.info.justCaptured).psqScore ∧
      (q.undoMove m).turn = opposite q.turn ∧
      (q.undoMove m).gamePly = q.gamePly - 1 ∧
      (q.undoMove m).info = q.prevStates (q.gamePly - 1) := by
  unfold Position.undoMove
  simp only [htype, hjcq, show MT_PROMOTION ≠ MT_NORMAL by decide,
    show MT_PROMOTION ≠ MT_EN_PASSANT by decide, show MT_PROMOTION ≠ MT_CASTLING by decide,
    eq_self_iff_true, if_true,
    if_neg, if_false, ite_self, ne_eq, not_true_eq_false, not_false_eq_true,
    apply_ite Position.board, apply_ite Position.colorBB, apply_ite Position.pieceTypeBB,
    apply_ite Position.pieceCount,
    apply_ite Position.psqScore, apply_ite Position.turn, apply_ite Position.gamePly,
    apply_ite Position.prevStates, apply_ite Position.info,
    Position.movePiece, Position.putPiece, Position.removePiece]
  simp

lemma roundtrip_promo_quiet (p : Position) (m : Nat) (hc : p.consistent)
    (htype : moveType m = MT_PROMOTION) (hpl : p.isPseudoLegal m = true)
    (hpawn : getPieceType (p.board (moveFrom m)) = PAWN)
    (hbt : p.board (moveTo m) = PIECE_NULL) :
    restoredFields p ((p.doMove m).undoMove m) := by
  obtain ⟨hturn, hwf, -, -, -, hcnt, hpsq, -, -⟩ := id hc
  obtain ⟨hsf, hst⟩ := isPseudoLegal_split p m hpl
  have hf64 : moveFrom m < 64 := moveFrom_lt m
  have ht64 : moveTo m < 64 := moveTo_lt m
  have hbf : p.board (moveFrom m) ≠ PIECE_NULL := by
    intro h; rw [h] at hsf; exact pieceNull_side p.turn hturn hsf
  have hne : moveFrom m ≠ moveTo m := by
    intro h; rw [h] at hbf; exact hbf hbt
  have hwff : pieceWF (p.board (moveFrom m)) :=
    (hwf _ (List.mem_range.mpr hf64)).resolve_left hbf
  have hturn2 : p.turn < 2 := by rcases hturn with h | h <;> rw [h] <;> decide
  obtain ⟨hpb1, hpb2⟩ := movePromotion_bounds m
  have hbfrom : p.board (moveFrom m) = makePiece p.turn PAWN := by
    rw [← hsf, ← hpawn]; exact (makePiece_decomp _ hwff).symm
  have hSideMK : getPieceSide (makePiece p.turn (movePromotion m)) = p.turn :=
    getPieceSide_makePiece _ _ hturn2 (by omega) (by omega)
  have hTypeMK : getPieceType (makePiece p.turn (movePromotion m)) = movePromotion m :=
    getPieceType_makePiece _ _ hturn2 (by omega)
  have hprP : movePromotion m ≠ PAWN := by unfold PAWN; omega
  have hprA : movePromotion m ≠ PT_ALL := by unfold PT_ALL; omega
  have hpa : PAWN ≠ PT_ALL := by decide
  have hcbitF : (p.colorBB p.turn).testBit (moveFrom m) = true := by
    rw [← hsf]; exact consistent_colorBit p hc _ hf64 hbf (by rw [hsf]; exact hturn2)
  have htbitF : (p.pieceTypeBB PAWN).testBit (moveFrom m) = true := by
    rw [← hpawn]
    exact consistent_typeBit p hc _ hf64 hbf (by rw [hpawn]; decide) (by rw [hpawn]; decide)
  have habitF : (p.pieceTypeBB PT_ALL).testBit (moveFrom m) = true :=
    consistent_allBit p hc _ hf64 hbf
  have hcbitT0 : (p.colorBB p.turn).testBit (moveTo m) = false :=
    consistent_colorBit_false p hc _ ht64 _ hturn2 (fun h => h.1 hbt)
  have htbitP0 : (p.pieceTypeBB (movePromotion m)).testBit (moveTo m) = false :=
    consistent_typeBit_false p hc _ ht64 _ (by omega) (by omega)
      (by rw [hbt, show getPieceType PIECE_NULL = 0 from rfl]; omega)
  have habitT0 : (p.pieceTypeBB PT_ALL).testBit (moveTo m) = false :=
    consistent_allBit_false p hc _ ht64 hbt
  have hOrF : (p.colorBB p.turn ||| bbSquare (moveTo m)).testBit (moveFrom m) = true := by
    rw [Nat.testBit_or, hcbitF]; rfl
  have hOrFA :
      (p.pieceTypeBB PT_ALL ||| bbSquare (moveTo m)).testBit (moveFrom m) = true := by
    rw [Nat.testBit_or, habitF]; rfl
  have hcntF : 1 ≤ p.pieceCount p.turn PAWN ∧ 1 ≤ p.pieceCount p.turn PT_ALL := by
    have h := hcnt _ (List.mem_range.mpr hf64) hbf
    rw [hsf, hpawn] at h; exact h
  obtain ⟨do_b, do_c, do_t, do_n, do_p, do_tu, do_g, do_pv, do_jc⟩ :=
    doMove_promo_quiet_fields p m htype (by rw [hbt]; rfl)
  obtain ⟨un_b, un_c, un_t, un_n, un_p, un_tu, un_g, un_i⟩ :=
    undoMove_promo_quiet_fields (p.doMove m) m htype do_jc
  have hside_put : opposite (p.doMove m).turn = p.turn := by
    rw [do_tu, opposite_opposite _ hturn]
  rw [hside_put] at un_b un_c un_t un_n un_p
  have hq_t : (p.doMove m).board (moveTo m) = makePiece p.turn (movePromotion m) := by
    rw [do_b]
    simp [Position.putPiece, Position.removePiece, updFn, hne, Ne.symm hne]
  have hb1f : (if moveFrom m = moveTo m then makePiece p.turn (movePromotion m)
      else p.board (moveFrom m)) = p.board (moveFrom m) := by rw [if_neg hne]
  have hb2t : (if moveTo m = moveFrom m then makePiece p.turn PAWN
      else (p.doMove m).board (moveTo m)) = makePiece p.turn (movePromotion m) := by
    rw [if_neg (Ne.symm hne), hq_t]
  refine ⟨?_, ?_, ?_, ?_, ?_, ?_, ?_, ?_⟩
  · -- board
    rw [un_b]
    simp only [Position.putPiece, Position.removePiece, do_b]
    funext j
    unfold updFn
    by_cases h1 : j = moveTo m
    · simp [h1, hne, Ne.symm hne, hbt]
    · by_cases h2 : j = moveFrom m <;> simp [h1, h2, hne, Ne.symm hne, hbfrom]
  · -- colorBB
    rw [un_c]
    simp only [Position.putPiece, Position.removePiece, do_c, do_b]
    funext c
    unfold updFn
    try simp only [hb1f, hb2t, hsf, hSideMK]
    by_cases h1 : c = p.turn
    · simp [h1, hne, Ne.symm hne, hSideMK, hsf, xor_or_cancel _ _ hOrF,
        or_xor_cancel _ _ hcbitT0]
    · simp [h1, hne, Ne.symm hne, hSideMK, hsf]
  · -- pieceTypeBB
    rw [un_t]
    simp only [Position.putPiece, Position.removePiece, do_t, do_b]
    funext v
    unfold updFn
    try simp only [hb1f, hb2t, hpawn, hTypeMK]
    by_cases h0 : v = PT_ALL
    · simp [h0, hpa, Ne.symm hpa, hprA, Ne.symm hprA, hne, Ne.symm hne, hTypeMK, hpawn,
        xor_or_cancel _ _ hOrFA, or_xor_cancel _ _ habitT0]
    · by_cases h1 : v = movePromotion m
      · simp [h0, h1, hprP, Ne.symm hprP, hprA, Ne.symm hprA, hne, Ne.symm hne,
          hTypeMK, hpawn, or_xor_cancel _ _ htbitP0]
      · by_cases h2 : v = PAWN
        · simp [h0, h1, h2, hprP, Ne.symm hprP, hpa, Ne.symm hpa, hne, Ne.symm hne,
            hTypeMK, hpawn, xor_or_cancel _ _ htbitF]
        · simp [h0, h1, h2, hne, Ne.symm hne, hTypeMK, hpawn]
  · -- pieceCount
    rw [un_n]
    simp only [Position.putPiece, Position.removePiece, do_n, do_b]
    unfold updFn
    simp only [if_neg hne, if_neg (Ne.symm hne), eq_self_iff_true, if_true,
      hsf, hpawn, hSideMK, hTypeMK]
    funext c pt
    unfold updFn2
    by_cases h1 : c = p.turn ∧ pt = movePromotion m
    · simp [h1, hprP, Ne.symm hprP, hprA, Ne.symm hprA, hne, Ne.symm hne, hSideMK,
        hTypeMK, hsf, hpawn]
      try omega
    · by_cases h2 : c = p.turn ∧ pt = PAWN
      · simp [h1, h2, hprP, Ne.symm hprP, hpa, Ne.symm hpa, hne, Ne.symm hne, hSideMK,
          hTypeMK, hsf, hpawn]
        try omega
      · by_cases h3 : c = p.turn ∧ pt = PT_ALL <;>
          simp [h1, h2, h3, hprP, Ne.symm hprP, hprA, Ne.symm hprA, hpa, Ne.symm hpa,
            hne, Ne.symm hne, hSideMK, hTypeMK, hsf, hpawn] <;>
          try omega
  · -- psqScore
    rw [un_p]
    simp only [Position.putPiece, Position.removePiece, do_p, do_b]
    unfold updFn
    try simp only [hb1f, hb2t, hsf, hpawn, hSideMK, hTypeMK]
    try simp only [if_neg hne, if_neg (Ne.symm hne), hq_t, hsf, hpawn, hSideMK, hTypeMK]
    simp only [sub_eq_add_neg, wrap16_wrap16_add, add_assoc]
    refine wrap16_eq_of _ _ ?_ hpsq.1 hpsq.2
    simp only [if_true, eq_self_iff_true, hSideMK, hTypeMK, hsf, hpawn]
    ring
  · -- gamePly
    rw [un_g, do_g]; omega
  · -- turn
    rw [un_tu, do_tu, opposite_opposite p.turn hturn]
  · -- info
    rw [un_i, do_g, do_pv]
    unfold updFn
    simp

lemma roundtrip_promo_capture (p : Position) (m : Nat) (hc : p.consistent)
    (htype : moveType m = MT_PROMOTION) (hpl : p.isPseudoLegal m = true)
    (hpawn : getPieceType (p.board (moveFrom m)) = PAWN)
    (hbtne : p.board (moveTo m) ≠ PIECE_NULL) :
    restoredFields p ((p.doMove m).undoMove m) := by
  obtain ⟨hturn, hwf, -, -, -, hcnt, hpsq, -, -⟩ := id hc
  obtain ⟨hsf, hst⟩ := isPseudoLegal_split p m hpl
  have hf64 : moveFrom m < 64 := moveFrom_lt m
  have ht64 : moveTo m < 64 := moveTo_lt m
  have hbf : p.board (moveFrom m) ≠ PIECE_NULL := by
    intro h; rw [h] at hsf; exact pieceNull_side p.turn hturn hsf
  have hwff : pieceWF (p.board (moveFrom m)) :=
    (hwf _ (List.mem_range.mpr hf64)).resolve_left hbf
  have hwft : pieceWF (p.board (moveTo m)) :=
    (hwf _ (List.mem_range.mpr ht64)).resolve_left hbtne
  have hne : moveFrom m ≠ moveTo m := by
    intro h; rw [← h] at hst; exact hst hsf
  have heside : getPieceSide (p.board (moveTo m)) = opposite p.turn :=
    enemy_side _ p.turn hwft.1 hturn hst
  have hjcne : getPieceType (p.board (moveTo m)) ≠ PT_NULL := by
    have := hwft.2.1; unfold PT_NULL; omega
  have hjcall : getPieceType (p.board (moveTo m)) ≠ PT_ALL := by
    have := hwft.2.1; unfold PT_ALL; omega
  have hturn2 : p.turn < 2 := by rcases hturn with h | h <;> rw [h] <;> decide
  obtain ⟨hpb1, hpb2⟩ := movePromotion_bounds m
  have hbfrom : p.board (moveFrom m) = makePiece p.turn PAWN := by
    rw [← hsf, ← hpawn]; exact (makePiece_decomp _ hwff).symm
  have hbto : makePiece (opposite p.turn) (getPieceType (p.board (moveTo m))) =
      p.board (moveTo m) := by
    rw [← heside]; exact makePiece_decomp _ hwft
  have hSideMK : getPieceSide (makePiece p.turn (movePromotion m)) = p.turn :=
    getPieceSide_makePiece _ _ hturn2 (by omega) (by omega)
  have hTypeMK : getPieceType (makePiece p.turn (movePromotion m)) = movePromotion m :=
    getPieceType_makePiece _ _ hturn2 (by omega)
  have hprP : movePromotion m ≠ PAWN := by unfold PAWN; omega
  have hprA : movePromotion m ≠ PT_ALL := by unfold PT_ALL; omega
  have hpa : PAWN ≠ PT_ALL := by decide
  have hoppne : opposite p.turn ≠ p.turn := opposite_ne p.turn hturn
  have hcbitF : (p.colorBB p.turn).testBit (moveFrom m) = true := by
    rw [← hsf]; exact consistent_colorBit p hc _ hf64 hbf (by rw [hsf]; exact hturn2)
  have htbitF : (p.pieceTypeBB PAWN).testBit (moveFrom m) = true := by
    rw [← hpawn]
    exact consistent_typeBit p hc _ hf64 hbf (by rw [hpawn]; decide) (by rw [hpawn]; decide)
  have habitF : (p.pieceTypeBB PT_ALL).testBit (moveFrom m) = true :=
    consistent_allBit p hc _ hf64 hbf
  have hcbitTO : (p.colorBB (opposite p.turn)).testBit (moveTo m) = true := by
    rw [← heside]
    exact consistent_colorBit p hc _ ht64 hbtne hwft.1
  have htbitJ :
      (p.pieceTypeBB (getPieceType (p.board (moveTo m)))).testBit (moveTo m) = true :=
    consistent_typeBit p hc _ ht64 hbtne hwft.2.1 hwft.2.2.1
  have habitT : (p.pieceTypeBB PT_ALL).testBit (moveTo m) = true :=
    consistent_allBit p hc _ ht64 hbtne
  have hcbitT0turn : (p.colorBB p.turn).testBit (moveTo m) = false :=
    consistent_colorBit_false p hc _ ht64 _ hturn2 (fun h => hst h.2)
  have hOrF : (p.colorBB p.turn ||| bbSquare (moveTo m)).testBit (moveFrom m) = true := by
    rw [Nat.testBit_or, hcbitF]; rfl
  have hOrFA :
      (p.pieceTypeBB PT_ALL ||| bbSquare (moveTo m)).testBit (moveFrom m) = true := by
    rw [Nat.testBit_or, habitF]; rfl
  have hcntF : 1 ≤ p.pieceCount p.turn PAWN ∧ 1 ≤ p.pieceCount p.turn PT_ALL := by
    have h := hcnt _ (List.mem_range.mpr hf64) hbf
    rw [hsf, hpawn] at h; exact h
  have hcntT : 1 ≤ p.pieceCount (opposite p.turn) (getPieceType (p.board (moveTo m))) ∧
      1 ≤ p.pieceCount (opposite p.turn) PT_ALL := by
    have h := hcnt _ (List.mem_range.mpr ht64) hbtne
    rw [heside] at h; exact h
  obtain ⟨do_b, do_c, do_t, do_n, do_p, do_tu, do_g, do_pv, do_jc⟩ :=
    doMove_promo_capture_fields p m htype hjcne
  have hjcq : (p.doMove m).info.justCaptured ≠ PT_NULL := by rw [do_jc]; exact hjcne
  obtain ⟨un_b, un_c, un_t, un_n, un_p, un_tu, un_g, un_i⟩ :=
    undoMove_promo_capture_fields (p.doMove m) m htype hjcq
  have hside_put : opposite (p.doMove m).turn = p.turn := by
    rw [do_tu, opposite_opposite _ hturn]
  rw [hside_put, do_jc] at un_b un_c un_t un_n un_p
  have hq_t : (p.doMove m).board (moveTo m) = makePiece p.turn (movePromotion m) := by
    rw [do_b]
    simp [Position.putPiece, Position.removePiece, updFn, hne, Ne.symm hne]
  have hb2t : (if moveTo m = moveFrom m then makePiece p.turn PAWN
      else (p.doMove m).board (moveTo m)) = makePiece p.turn (movePromotion m) := by
    rw [if_neg (Ne.symm hne), hq_t]
  refine ⟨?_, ?_, ?_, ?_, ?_, ?_, ?_, ?_⟩
  · -- board
    rw [un_b]
    simp only [Position.putPiece, Position.removePiece, do_b]
    funext j
    unfold updFn
    by_cases h1 : j = moveTo m
    · simp [h1, hne, Ne.symm hne, hbto]
    · by_cases h2 : j = moveFrom m <;> simp [h1, h2, hne, Ne.symm hne, hbfrom]
  · -- colorBB
    rw [un_c]
    simp only [Position.putPiece, Position.removePiece, do_c, do_b]
    funext c
    unfold updFn
    simp only [if_neg hne, if_neg (Ne.symm hne), eq_self_iff_true, if_true,
      heside, hsf, hSideMK]
    by_cases h1 : c = opposite p.turn
    · have h2 : c ≠ p.turn := by rw [h1]; exact hoppne
      simp [h1, h2, hoppne, Ne.symm hoppne, xor_or_cancel _ _ hcbitTO]
    · by_cases h2 : c = p.turn
      · simp [h1, h2, hoppne, Ne.symm hoppne, xor_or_cancel _ _ hOrF,
          or_xor_cancel _ _ hcbitT0turn]
      · simp [h1, h2]
  · -- pieceTypeBB
    rw [un_t]
    simp only [Position.putPiece, Position.removePiece, do_t, do_b]
    funext v
    unfold updFn
    simp only [if_neg hne, if_neg (Ne.symm hne), eq_self_iff_true, if_true,
      hpawn, hTypeMK]
    by_cases h0 : v = PT_ALL
    · simp [h0, hpa, Ne.symm hpa, hprA, Ne.symm hprA, hjcall, Ne.symm hjcall,
        xor_or_cancel _ _ habitT, xor_or_cancel _ _ habitF, xor_or_cancel _ _ hOrFA]
    · by_cases hjp : getPieceType (p.board (moveTo m)) = movePromotion m
      · have hbitTP : (p.pieceTypeBB (movePromotion m)).testBit (moveTo m) = true := by
          rw [← hjp]; exact htbitJ
        by_cases h1 : v = movePromotion m
        · simp [hjp, h0, h1, hprP, Ne.symm hprP, hprA, Ne.symm hprA, hpa, Ne.symm hpa,
            xor_or_cancel _ _ hbitTP, xor_or_cancel _ _ htbitF]
        · by_cases h2 : v = PAWN
          · simp [hjp, h0, h1, h2, hprP, Ne.symm hprP, hpa, Ne.symm hpa, hprA,
              Ne.symm hprA, xor_or_cancel _ _ htbitF, xor_or_cancel _ _ hbitTP]
          · simp [hjp, h0, h1, h2, hprP, Ne.symm hprP, hpa, Ne.symm hpa, hprA,
              Ne.symm hprA]
      · have hP0 : (p.pieceTypeBB (movePromotion m)).testBit (moveTo m) = false :=
          consistent_typeBit_false p hc _ ht64 _ (by omega) (by omega) hjp
        by_cases hjpw : getPieceType (p.board (moveTo m)) = PAWN
        · have hbitTPw : (p.pieceTypeBB PAWN).testBit (moveTo m) = true := by
            rw [← hjpw]; exact htbitJ
          have hXT : ((p.pieceTypeBB PAWN ^^^ bbSquare (moveTo m))).testBit
              (moveFrom m) = true := by
            rw [Nat.testBit_xor, htbitF, bbSquare_testBit]
            simp [hne]
          by_cases h1 : v = PAWN
          · simp [hjpw, h0, h1, hprP, Ne.symm hprP, hpa, Ne.symm hpa, hprA,
              Ne.symm hprA, xor_or_cancel _ _ hXT, xor_or_cancel _ _ hbitTPw]
          · by_cases h2 : v = movePromotion m
            · simp [hjpw, h0, h1, h2, hprP, Ne.symm hprP, hprA, Ne.symm hprA, hpa,
                Ne.symm hpa, or_xor_cancel _ _ hP0]
            · simp [hjpw, h0, h1, h2, hprP, Ne.symm hprP, hprA, Ne.symm hprA, hpa,
                Ne.symm hpa]
        · by_cases h1 : v = getPieceType (p.board (moveTo m))
          · have h2 : v ≠ movePromotion m := by rw [h1]; exact hjp
            have h3 : v ≠ PAWN := by rw [h1]; exact hjpw
            simp [h0, h1, h2, h3, hjp, hjpw, Ne.symm hjp, Ne.symm hjpw, hjcall,
              Ne.symm hjcall, hprP, Ne.symm hprP, hprA, Ne.symm hprA, hpa,
              Ne.symm hpa, xor_or_cancel _ _ htbitJ]
          · by_cases h2 : v = movePromotion m
            · simp [h0, h1, h2, hjp, Ne.symm hjp, hjpw, Ne.symm hjpw, hjcall,
                Ne.symm hjcall, hprP, Ne.symm hprP, hprA, Ne.symm hprA, hpa,
                Ne.symm hpa, or_xor_cancel _ _ hP0]
            · by_cases h3 : v = PAWN
              · simp [h0, h1, h2, h3, hjp, Ne.symm hjp, hjpw, Ne.symm hjpw, hjcall,
                  Ne.symm hjcall, hprP, Ne.symm hprP, hprA, Ne.symm hprA, hpa,
                  Ne.symm hpa, xor_or_cancel _ _ htbitF]
              · simp [h0, h1, h2, h3, hjp, Ne.symm hjp, hjpw, Ne.symm hjpw, hjcall,
                  Ne.symm hjcall, hprP, Ne.symm hprP, hprA, Ne.symm hprA, hpa,
                  Ne.symm hpa]
  · -- pieceCount
    rw [un_n]
    simp only [Position.putPiece, Position.removePiece, do_n, do_b]
    unfold updFn
    simp only [if_neg hne, if_neg (Ne.symm hne), eq_self_iff_true, if_true,
      heside, hsf, hpawn, hSideMK, hTypeMK]
    funext c pt
    unfold updFn2
    by_cases hco : c = opposite p.turn
    · have hct : c ≠ p.turn := by rw [hco]; exact hoppne
      by_cases hp1 : pt = getPieceType (p.board (moveTo m))
      · have hp2 : pt ≠ PT_ALL := by rw [hp1]; exact hjcall
        simp [hco, hct, hp1, hp2, hjcall, Ne.symm hjcall, hoppne, Ne.symm hoppne]
        try omega
      · by_cases hp2 : pt = PT_ALL
        · simp [hco, hct, hp1, hp2, hjcall, Ne.symm hjcall, hoppne, Ne.symm hoppne]
          try omega
        · simp [hco, hct, hp1, hp2, hjcall, Ne.symm hjcall, hoppne, Ne.symm hoppne]
          try omega
    · by_cases hct : c = p.turn
      · have hco2 : c ≠ opposite p.turn := by rw [hct]; exact Ne.symm hoppne
        by_cases hp1 : pt = movePromotion m
        · simp [hco, hco2, hct, hp1, hprP, Ne.symm hprP, hprA, Ne.symm hprA, hpa,
            Ne.symm hpa, hoppne, Ne.symm hoppne]
          try omega
        · by_cases hp2 : pt = PAWN
          · simp [hco, hco2, hct, hp1, hp2, hprP, Ne.symm hprP, hpa, Ne.symm hpa,
              hprA, Ne.symm hprA, hoppne, Ne.symm hoppne]
            try omega
          · by_cases hp3 : pt = PT_ALL <;>
              simp [hco, hco2, hct, hp1, hp2, hp3, hprP, Ne.symm hprP, hprA,
                Ne.symm hprA, hpa, Ne.symm hpa, hoppne, Ne.symm hoppne] <;>
              try omega
      · simp [hco, hct]
  · -- psqScore
    rw [un_p]
    simp only [Position.putPiece, Position.removePiece, do_p, do_b]
    unfold updFn
    simp only [if_neg hne, if_neg (Ne.symm hne), eq_self_iff_true, if_true,
      heside, hsf, hpawn, hSideMK, hTypeMK]
    simp only [sub_eq_add_neg, wrap16_wrap16_add, add_assoc]
    refine wrap16_eq_of _ _ ?_ hpsq.1 hpsq.2
    try simp only [if_true, eq_self_iff_true, hSideMK, hTypeMK, hsf, hpawn, heside]
    ring
  · -- gamePly
    rw [un_g, do_g]; omega
  · -- turn
    rw [un_tu, do_tu, opposite_opposite p.turn hturn]
  · -- info
    rw [un_i, do_g, do_pv]
    unfold updFn
    simp

lemma xor_cancel_pair_mid (x a b c : Nat) :
    x ^^^ (a ^^^ b) ^^^ c ^^^ (b ^^^ a) = x ^^^ c := by
  apply Nat.eq_of_testBit_eq
  intro j
  simp only [Nat.testBit_xor]
  cases x.testBit j <;> cases a.testBit j <;> cases b.testBit j <;> cases c.testBit j <;>
    rfl

lemma and_zero_testBit (a b : Nat) (h : a &&& b = 0) (j : Nat)
    (hb : b.testBit j = true) : a.testBit j = false := by
  have h2 := congrArg (fun x => x.testBit j) h
  simp only [Nat.testBit_and, Nat.zero_testBit] at h2
  rw [hb] at h2
  simpa using h2

lemma board_empty_of_allBit (p : Position) (hc : p.consistent) (sq : Nat) (h64 : sq < 64)
    (h0 : (p.pieceTypeBB PT_ALL).testBit sq = false) : p.board sq = PIECE_NULL := by
  by_contra h
  have h1 := consistent_allBit p hc sq h64 h
  rw [h0] at h1
  exact absurd h1 (by decide)

/-- Extracting the castling branch of isPseudoLegal: the king stands on the
relative E1 square, the corresponding castling right is present and the
inner squares are free. -/
lemma isPseudoLegal_castling (p : Position) (m : Nat)
    (htype : moveType m = MT_CASTLING) (hpl : p.isPseudoLegal m = true) :
    moveFrom m = relSquare 4 p.turn ∧
      p.info.castlingRight &&& makeCastling p.turn (moveCastlingSide m) ≠ 0 ∧
      p.occupiedBB &&& bbCastlingInner p.turn (moveCastlingSide m) = 0 := by
  unfold Position.isPseudoLegal at hpl
  by_cases hg : getPieceSide (p.board (moveFrom m)) ≠ p.turn ∨
      getPieceSide (p.board (moveTo m)) = p.turn ∨
      p.occupiedBB &&& bbBetween (moveFrom m) (moveTo m) ≠ 0
  · rw [if_pos hg] at hpl; exact absurd hpl (by simp)
  · rw [if_neg hg] at hpl
    simp only [htype, eq_self_iff_true, if_true] at hpl
    by_cases hcs : moveCastlingSide m = OO
    · rw [if_pos hcs] at hpl
      rw [hcs]
      simp only [Bool.and_eq_true, beq_iff_eq, bne_iff_ne, ne_eq] at hpl
      exact ⟨hpl.1.1.1.1.2, hpl.1.1.1.1.1, hpl.1.1.1.2⟩
    · have hcs2 : moveCastlingSide m = OOO := by
        unfold moveCastlingSide at hcs ⊢
        by_cases h : sqFile (moveTo m) = 2
        · rw [if_pos h]
        · rw [if_neg h] at hcs; exact absurd rfl hcs
      rw [if_neg hcs] at hpl
      rw [hcs2]
      simp only [Bool.and_eq_true, beq_iff_eq, bne_iff_ne, ne_eq] at hpl
      exact ⟨hpl.1.1.1.1.2, hpl.1.1.1.1.1, hpl.1.1.1.2⟩

lemma doMove_castling_fields (p : Position) (m : Nat)
    (htype : moveType m = MT_CASTLING)
    (hjc : getPieceType (p.board (moveTo m)) = PT_NULL) :
    (p.doMove m).board =
        ((p.movePiece (moveFrom m) (moveTo m)).movePiece
          (mkSquare (if p.turn = WHITE then 0 else 7)
            (if moveFrom m < moveTo m then 7 else 0))
          (mkSquare (if p.turn = WHITE then 0 else 7)
            (if moveFrom m < moveTo m then 5 else 3))).board ∧
      (p.doMove m).colorBB =
        ((p.movePiece (moveFrom m) (moveTo m)).movePiece
          (mkSquare (if p.turn = WHITE then 0 else 7)
            (if moveFrom m < moveTo m then 7 else 0))
          (mkSquare (if p.turn = WHITE then 0 else 7)
            (if moveFrom m < moveTo m then 5 else 3))).colorBB ∧
      (p.doMove m).pieceTypeBB =
        ((p.movePiece (moveFrom m) (moveTo m)).movePiece
          (mkSquare (if p.turn = WHITE then 0 else 7)
            (if moveFrom m < moveTo m then 7 else 0))
          (mkSquare (if p.turn = WHITE then 0 else 7)
            (if moveFrom m < moveTo m then 5 else 3))).pieceTypeBB ∧
      (p.doMove m).pieceCount =
        ((p.movePiece (moveFrom m) (moveTo m)).movePiece
          (mkSquare (if p.turn = WHITE then 0 else 7)
            (if moveFrom m < moveTo m then 7 else 0))
          (mkSquare (if p.turn = WHITE then 0 else 7)
            (if moveFrom m < moveTo m then 5 else 3))).pieceCount ∧
      (p.doMove m).psqScore =
        ((p.movePiece (moveFrom m) (moveTo m)).movePiece
          (mkSquare (if p.turn = WHITE then 0 else 7)
            (if moveFrom m < moveTo m then 7 else 0))
          (mkSquare (if p.turn = WHITE then 0 else 7)
            (if moveFrom m < moveTo m then 5 else 3))).psqScore ∧
      (p.doMove m).turn = opposite p.turn ∧
      (p.doMove m).gamePly = p.gamePly + 1 ∧
      (p.doMove m).prevStates = updFn p.prevStates p.gamePly p.info ∧
      (p.doMove m).info.justCaptured = PT_NULL := by
  unfold Position.doMove
  simp only [htype, hjc, show MT_CASTLING ≠ MT_NORMAL by decide,
    show MT_CASTLING ≠ MT_EN_PASSANT by decide, show MT_CASTLING ≠ MT_PROMOTION by decide,
    eq_self_iff_true, if_true,
    if_neg, if_false, ite_self, ne_eq, not_true_eq_false, not_false_eq_true,
    apply_ite Position.board, apply_ite Position.colorBB, apply_ite Position.pieceTypeBB,
    apply_ite Position.pieceCount,
    apply_ite Position.psqScore, apply_ite Position.turn, apply_ite Position.gamePly,
    apply_ite Position.prevStates, apply_ite Position.info,
    apply_ite PositionInfo.justCaptured,
    Position.movePiece,
    rcr_board, rcr_colorBB, rcr_pieceTypeBB,
    rcr_pieceCount, rcr_psqScore, rcr_turn, rcr_gamePly, rcr_prevStates, rcr_justCaptured]
  simp

lemma undoMove_castling_fields (q : Position) (m : Nat)
    (htype : moveType m = MT_CASTLING) (hjcq : q.info.justCaptured = PT_NULL) :
    (q.undoMove m).board =
        ((q.movePiece (moveTo m) (moveFrom m)).movePiece
          (mkSquare (if opposite q.turn = WHITE then 0 else 7)
            (if moveFrom m < moveTo m then 5 else 3))
          (mkSquare (if opposite q.turn = WHITE then 0 else 7)
            (if moveFrom m < moveTo m then 7 else 0))).board ∧
      (q.undoMove m).colorBB =
        ((q.movePiece (moveTo m) (moveFrom m)).movePiece
          (mkSquare (if opposite q.turn = WHITE then 0 else 7)
            (if moveFrom m < moveTo m then 5 else 3))
          (mkSquare (if opposite q.turn = WHITE then 0 else 7)
            (if moveFrom m < moveTo m then 7 else 0))).colorBB ∧
      (q.undoMove m).pieceTypeBB =
        ((q.movePiece (moveTo m) (moveFrom m)).movePiece
          (mkSquare (if opposite q.turn = WHITE then 0 else 7)
            (if moveFrom m < moveTo m then 5 else 3))
          (mkSquare (if opposite q.turn = WHITE then 0 else 7)
            (if moveFrom m < moveTo m then 7 else 0))).pieceTypeBB ∧
      (q.undoMove m).pieceCount =
        ((q.movePiece (moveTo m) (moveFrom m)).movePiece
          (mkSquare (if opposite q.turn = WHITE then 0 else 7)
            (if moveFrom m < moveTo m then 5 else 3))
          (mkSquare (if opposite q.turn = WHITE then 0 else 7)
            (if moveFrom m < moveTo m then 7 else 0))).pieceCount ∧
      (q.undoMove m).psqScore =
        ((q.movePiece (moveTo m) (moveFrom m)).movePiece
          (mkSquare (if opposite q.turn = WHITE then 0 else 7)
            (if moveFrom m < moveTo m then 5 else 3))
          (mkSquare (if opposite q.turn = WHITE then 0 else 7)
            (if moveFrom m < moveTo m then 7 else 0))).psqScore ∧
      (q.undoMove m).turn = opposite q.turn ∧
      (q.undoMove m).gamePly = q.gamePly - 1 ∧
      (q.undoMove m).info = q.prevStates (q.gamePly - 1) := by
  unfold Position.undoMove
  simp only [htype, hjcq, show MT_CASTLING ≠ MT_NORMAL by decide,
    show MT_CASTLING ≠ MT_EN_PASSANT by decide, show MT_CASTLING ≠ MT_PROMOTION by decide,
    eq_self_iff_true, if_true,
    if_neg, if_false, ite_self, ne_eq, not_true_eq_false, not_false_eq_true,
    apply_ite Position.board, apply_ite Position.colorBB, apply_ite Position.pieceTypeBB,
    apply_ite Position.pieceCount,
    apply_ite Position.psqScore, apply_ite Position.turn, apply_ite Position.gamePly,
    apply_ite Position.prevStates, apply_ite Position.info,
    Position.movePiece]
  simp

lemma roundtrip_castling_core (p : Position) (m : Nat) (hc : p.consistent)
    (htype : moveType m = MT_CASTLING)
    (f t rf rt : Nat)
    (hfm : moveFrom m = f) (htm : moveTo m = t)
    (hRF : mkSquare (if p.turn = WHITE then 0 else 7)
      (if moveFrom m < moveTo m then 7 else 0) = rf)
    (hRT : mkSquare (if p.turn = WHITE then 0 else 7)
      (if moveFrom m < moveTo m then 5 else 3) = rt)
    (hft : f ≠ t) (hfrf : f ≠ rf) (hfrt : f ≠ rt) (htrf : t ≠ rf) (htrt : t ≠ rt)
    (hrfrt : rf ≠ rt)
    (hf64 : f < 64) (hrf64 : rf < 64)
    (hbf : p.board f ≠ PIECE_NULL) (hbrf : p.board rf ≠ PIECE_NULL)
    (hbt : p.board t = PIECE_NULL) (hbrt : p.board rt = PIECE_NULL)
    (hsfv : getPieceSide (p.board f) = p.turn)
    (hsrf : getPieceSide (p.board rf) = p.turn) :
    restoredFields p ((p.doMove m).undoMove m) := by
  obtain ⟨hturn, hwf, -, -, -, -, hpsq, -, -⟩ := id hc
  have hwff : pieceWF (p.board f) := (hwf _ (List.mem_range.mpr hf64)).resolve_left hbf
  have hwfrf : pieceWF (p.board rf) := (hwf _ (List.mem_range.mpr hrf64)).resolve_left hbrf
  have htfA : getPieceType (p.board f) ≠ PT_ALL := by
    have := hwff.2.1; unfold PT_ALL; omega
  have htrfA : getPieceType (p.board rf) ≠ PT_ALL := by
    have := hwfrf.2.1; unfold PT_ALL; omega
  have hjc : getPieceType (p.board (moveTo m)) = PT_NULL := by rw [htm, hbt]; rfl
  obtain ⟨do_b, do_c, do_t, do_n, do_p, do_tu, do_g, do_pv, do_jc⟩ :=
    doMove_castling_fields p m htype hjc
  rw [hRF, hRT, hfm, htm] at do_b do_c do_t do_n do_p
  obtain ⟨un_b, un_c, un_t, un_n, un_p, un_tu, un_g, un_i⟩ :=
    undoMove_castling_fields (p.doMove m) m htype do_jc
  have hside_put : opposite (p.doMove m).turn = p.turn := by
    rw [do_tu, opposite_opposite _ hturn]
  rw [hside_put, hRF, hRT, hfm, htm] at un_b un_c un_t un_n un_p
  refine ⟨?_, ?_, ?_, ?_, ?_, ?_, ?_, ?_⟩
  · -- board
    rw [un_b]
    simp only [Position.movePiece, do_b]
    funext j
    unfold updFn
    by_cases h1 : j = rf
    · simp [h1, hft, Ne.symm hft, hfrf, Ne.symm hfrf, hfrt, Ne.symm hfrt, htrf,
        Ne.symm htrf, htrt, Ne.symm htrt, hrfrt, Ne.symm hrfrt]
    · by_cases h2 : j = rt
      · simp [h1, h2, hft, Ne.symm hft, hfrf, Ne.symm hfrf, hfrt, Ne.symm hfrt, htrf,
          Ne.symm htrf, htrt, Ne.symm htrt, hrfrt, Ne.symm hrfrt, hbrt]
      · by_cases h3 : j = t
        · simp [h1, h2, h3, hft, Ne.symm hft, hfrf, Ne.symm hfrf, hfrt, Ne.symm hfrt,
            htrf, Ne.symm htrf, htrt, Ne.symm htrt, hrfrt, Ne.symm hrfrt, hbt]
        · by_cases h4 : j = f <;>
            simp [h1, h2, h3, h4, hft, Ne.symm hft, hfrf, Ne.symm hfrf, hfrt,
              Ne.symm hfrt, htrf, Ne.symm htrf, htrt, Ne.symm htrt, hrfrt, Ne.symm hrfrt]
  · -- colorBB
    rw [un_c]
    simp only [Position.movePiece, do_c, do_b]
    funext c
    unfold updFn
    by_cases h1 : c = p.turn <;>
      simp [h1, hft, Ne.symm hft, hfrf, Ne.symm hfrf, hfrt, Ne.symm hfrt, htrf,
        Ne.symm htrf, htrt, Ne.symm htrt, hrfrt, Ne.symm hrfrt, hsfv, hsrf,
        xor_cancel_pair_mid, xor_cancel_pair]
  · -- pieceTypeBB
    rw [un_t]
    simp only [Position.movePiece, do_t, do_b]
    funext v
    unfold updFn
    by_cases hteq : getPieceType (p.board rf) = getPieceType (p.board f)
    · by_cases h0 : v = PT_ALL <;> by_cases h1 : v = getPieceType (p.board f) <;>
        simp [hteq, h0, h1, htfA, Ne.symm htfA, hft, Ne.symm hft, hfrf, Ne.symm hfrf,
          hfrt, Ne.symm hfrt, htrf, Ne.symm htrf, htrt, Ne.symm htrt, hrfrt,
          Ne.symm hrfrt, xor_cancel_pair_mid, xor_cancel_pair]
    · by_cases h0 : v = PT_ALL
      · simp [h0, hteq, htfA, Ne.symm htfA, htrfA, Ne.symm htrfA, hft, Ne.symm hft,
          hfrf, Ne.symm hfrf, hfrt, Ne.symm hfrt, htrf, Ne.symm htrf, htrt,
          Ne.symm htrt, hrfrt, Ne.symm hrfrt, xor_cancel_pair_mid, xor_cancel_pair]
      · by_cases h1 : v = getPieceType (p.board f)
        · simp [h0, h1, hteq, Ne.symm hteq, htfA, Ne.symm htfA, htrfA, Ne.symm htrfA,
            hft, Ne.symm hft, hfrf, Ne.symm hfrf, hfrt, Ne.symm hfrt, htrf,
            Ne.symm htrf, htrt, Ne.symm htrt, hrfrt, Ne.symm hrfrt, xor_cancel_pair]
        · by_cases h2 : v = getPieceType (p.board rf) <;>
            simp [h0, h1, h2, hteq, Ne.symm hteq, htfA, Ne.symm htfA, htrfA,
              Ne.symm htrfA, hft, Ne.symm hft, hfrf, Ne.symm hfrf, hfrt, Ne.symm hfrt,
              htrf, Ne.symm htrf, htrt, Ne.symm htrt, hrfrt, Ne.symm hrfrt,
              xor_cancel_pair]
  · -- pieceCount
    rw [un_n]
    simp only [Position.movePiece]
    rw [do_n]
    simp only [Position.movePiece]
  · -- psqScore
    rw [un_p]
    simp only [Position.movePiece, do_p, do_b]
    unfold updFn
    simp only [if_neg hft, if_neg (Ne.symm hft), if_neg hfrf, if_neg (Ne.symm hfrf),
      if_neg hfrt, if_neg (Ne.symm hfrt), if_neg htrf, if_neg (Ne.symm htrf),
      if_neg htrt, if_neg (Ne.symm htrt), if_neg hrfrt, if_neg (Ne.symm hrfrt),
      eq_self_iff_true, if_true, hsfv, hsrf]
    simp only [sub_eq_add_neg, wrap16_wrap16_add, add_assoc]
    refine wrap16_eq_of _ _ ?_ hpsq.1 hpsq.2
    try simp only [if_true, eq_self_iff_true, hsfv, hsrf]
    ring
  · -- gamePly
    rw [un_g, do_g]; omega
  · -- turn
    rw [un_tu, do_tu, opposite_opposite p.turn hturn]
  · -- info
    rw [un_i, do_g, do_pv]
    unfold updFn
    simp

lemma roundtrip_castling (p : Position) (m : Nat) (hc : p.consistent)
    (htype : moveType m = MT_CASTLING) (hpl : p.isPseudoLegal m = true)
    (hshape : moveTo m = relSquare 6 p.turn ∨ moveTo m = relSquare 2 p.turn) :
    restoredFields p ((p.doMove m).undoMove m) := by
  obtain ⟨hturn, -, -, -, -, -, -, -, hcr⟩ := id hc
  obtain ⟨hsf, -⟩ := isPseudoLegal_split p m hpl
  obtain ⟨hfrom, hcrbit, hinner⟩ := isPseudoLegal_castling p m htype hpl
  rcases hturn with hW | hB
  · rcases hshape with h6 | h2
    · -- white king side
      have hfm : moveFrom m = 4 := by rw [hfrom, hW]; decide
      have htm : moveTo m = 6 := by rw [h6, hW]; decide
      have hcs : moveCastlingSide m = OO := by unfold moveCastlingSide; rw [htm]; decide
      rw [hcs, hW] at hcrbit hinner
      have hrook : p.board 7 = makePiece WHITE ROOK := by
        have h := (hcr WHITE (by decide)).1 hcrbit
        rw [show relSquare 7 WHITE = 7 from rfl] at h
        exact h
      have h5 : (p.pieceTypeBB PT_ALL).testBit 5 = false :=
        and_zero_testBit _ _ hinner 5 (by decide)
      have h6b : (p.pieceTypeBB PT_ALL).testBit 6 = false :=
        and_zero_testBit _ _ hinner 6 (by decide)
      exact roundtrip_castling_core p m hc htype 4 6 7 5 hfm htm
        (by rw [hW, hfm, htm]; decide) (by rw [hW, hfm, htm]; decide)
        (by decide) (by decide) (by decide) (by decide) (by decide) (by decide)
        (by decide) (by decide)
        (by rw [← hfm]; intro h; rw [h] at hsf; exact pieceNull_side p.turn (Or.inl hW) hsf)
        (by rw [hrook]; decide)
        (board_empty_of_allBit p hc 6 (by decide) h6b)
        (board_empty_of_allBit p hc 5 (by decide) h5)
        (by rw [← hfm]; exact hsf)
        (by rw [hrook, hW]; decide)
    · -- white queen side
      have hfm : moveFrom m = 4 := by rw [hfrom, hW]; decide
      have htm : moveTo m = 2 := by rw [h2, hW]; decide
      have hcs : moveCastlingSide m = OOO := by unfold moveCastlingSide; rw [htm]; decide
      rw [hcs, hW] at hcrbit hinner
      have hrook : p.board 0 = makePiece WHITE ROOK := by
        have h := (hcr WHITE (by decide)).2 hcrbit
        rw [show relSquare 0 WHITE = 0 from rfl] at h
        exact h
      have h3 : (p.pieceTypeBB PT_ALL).testBit 3 = false :=
        and_zero_testBit _ _ hinner 3 (by decide)
      have h2b : (p.pieceTypeBB PT_ALL).testBit 2 = false :=
        and_zero_testBit _ _ hinner 2 (by decide)
      exact roundtrip_castling_core p m hc htype 4 2 0 3 hfm htm
        (by rw [hW, hfm, htm]; decide) (by rw [hW, hfm, htm]; decide)
        (by decide) (by decide) (by decide) (by decide) (by decide) (by decide)
        (by decide) (by decide)
        (by rw [← hfm]; intro h; rw [h] at hsf; exact pieceNull_side p.turn (Or.inl hW) hsf)
        (by rw [hrook]; decide)
        (board_empty_of_allBit p hc 2 (by decide) h2b)
        (board_empty_of_allBit p hc 3 (by decide) h3)
        (by rw [← hfm]; exact hsf)
        (by rw [hrook, hW]; decide)
  · rcases hshape with h6 | h2
    · -- black king side
      have hfm : moveFrom m = 60 := by rw [hfrom, hB]; decide
      have htm : moveTo m = 62 := by rw [h6, hB]; decide
      have hcs : moveCastlingSide m = OO := by unfold moveCastlingSide; rw [htm]; decide
      rw [hcs, hB] at hcrbit hinner
      have hrook : p.board 63 = makePiece BLACK ROOK := by
        have h := (hcr BLACK (by decide)).1 hcrbit
        rw [show relSquare 7 BLACK = 63 from by decide] at h
        exact h
      have h61 : (p.pieceTypeBB PT_ALL).testBit 61 = false :=
        and_zero_testBit _ _ hinner 61 (by decide)
      have h62 : (p.pieceTypeBB PT_ALL).testBit 62 = false :=
        and_zero_testBit _ _ hinner 62 (by decide)
      exact roundtrip_castling_core p m hc htype 60 62 63 61 hfm htm
        (by rw [hB, hfm, htm]; decide) (by rw [hB, hfm, htm]; decide)
        (by decide) (by decide) (by decide) (by decide) (by decide) (by decide)
        (by decide) (by decide)
        (by rw [← hfm]; intro h; rw [h] at hsf; exact pieceNull_side p.turn (Or.inr hB) hsf)
        (by rw [hrook]; decide)
        (board_empty_of_allBit p hc 62 (by decide) h62)
        (board_empty_of_allBit p hc 61 (by decide) h61)
        (by rw [← hfm]; exact hsf)
        (by rw [hrook, hB]; decide)
    · -- black queen side
      have hfm : moveFrom m = 60 := by rw [hfrom, hB]; decide
      have htm : moveTo m = 58 := by rw [h2, hB]; decide
      have hcs : moveCastlingSide m = OOO := by unfold moveCastlingSide; rw [htm]; decide
      rw [hcs, hB] at hcrbit hinner
      have hrook : p.board 56 = makePiece BLACK ROOK := by
        have h := (hcr BLACK (by decide)).2 hcrbit
        rw [show relSquare 0 BLACK = 56 from by decide] at h
        exact h
      have h59 : (p.pieceTypeBB PT_ALL).testBit 59 = false :=
        and_zero_testBit _ _ hinner 59 (by decide)
      have h58 : (p.pieceTypeBB PT_ALL).testBit 58 = false :=
        and_zero_testBit _ _ hinner 58 (by decide)
      exact roundtrip_castling_core p m hc htype 60 58 56 59 hfm htm
        (by rw [hB, hfm, htm]; decide) (by rw [hB, hfm, htm]; decide)
        (by decide) (by decide) (by decide) (by decide) (by decide) (by decide)
        (by decide) (by decide)
        (by rw [← hfm]; intro h; rw [h] at hsf; exact pieceNull_side p.turn (Or.inr hB) hsf)
        (by rw [hrook]; decide)
        (board_empty_of_allBit p hc 58 (by decide) h58)
        (board_empty_of_allBit p hc 59 (by decide) h59)
        (by rw [← hfm]; exact hsf)
        (by rw [hrook, hB]; decide)

lemma moveType_cases (m : Nat) : moveType m = MT_NORMAL ∨ moveType m = MT_CASTLING ∨
    moveType m = MT_PROMOTION ∨ moveType m = MT_EN_PASSANT := by
  unfold moveType
  have := Nat.and_le_right (n := m >>> 12) (m := 3)
  unfold MT_NORMAL MT_CASTLING MT_PROMOTION MT_EN_PASSANT
  omega

lemma roundtrip_restores (p : Position) (m : Nat) (hc : p.consistent)
    (hpl : p.isPseudoLegal m = true) (hshape : moveShapeOk p m) :
    restoredFields p ((p.doMove m).undoMove m) := by
  obtain ⟨hprom, hep, hcast⟩ := hshape
  rcases moveType_cases m with h | h | h | h
  · by_cases hbt : p.board (moveTo m) = PIECE_NULL
    · exact roundtrip_normal_quiet p m hc h hpl hbt
    · exact roundtrip_normal_capture p m hc h hpl hbt
  · exact roundtrip_castling p m hc h hpl (hcast h)
  · by_cases hbt : p.board (moveTo m) = PIECE_NULL
    · exact roundtrip_promo_quiet p m hc h hpl (hprom h) hbt
    · exact roundtrip_promo_capture p m hc h hpl (hprom h) hbt
  · exact roundtrip_ep p m hc h hpl (hep h)

/-- C1 (amended): on a consistent position, for a pseudo-legal move of a
generated shape, doMove followed by undoMove restores the board array, the
color and piece-type bitboards, the piece counts, psqScore, gamePly, the
side to move and the whole PositionInfo (hence the Zobrist key) to their
pre-make values.  The piece-list arrays pieceSq and index are excluded: the
swap-with-last removal in Position::removePiece permutes them, so they are
not restored bit-identically (see the counterexample). -/
theorem make_unmake_restores_state (p : Position) (m : Nat) (hc : p.consistent)
    (hpl : p.isPseudoLegal m = true) (hshape : moveShapeOk p m) :
    restoredFields p ((p.doMove m).undoMove m) :=
  roundtrip_restores p m hc hpl hshape


set_option maxRecDepth 8000 in
/-- C1 witness: on the standard starting position (Position::reset), the
quiet pawn move e2-e4 satisfies the hypotheses and the make/unmake pair
restores all the listed fields. -/
theorem make_unmake_restores_state_witness :
    Position.initial.reset.consistent ∧
      Position.initial.reset.isPseudoLegal (mkMove 12 28) = true ∧
      restoredFields Position.initial.reset
        ((Position.initial.reset.doMove (mkMove 12 28)).undoMove (mkMove 12 28)) :=
  ⟨by decide, by decide,
    make_unmake_restores_state Position.initial.reset (mkMove 12 28)
      (by decide) (by decide) (by decide)⟩

set_option maxRecDepth 8000 in
/-- C1 counterexample to bit-identical restoration of the piece lists: from
the start position play e2-e4, d7-d5, then make and unmake the capture
e4xd5.  Removing the d5 pawn swaps it with the last black pawn in the
pieceSq list and undoMove re-appends it, so pieceSq[BLACK][PAWN][3] changes
from 35 (d5) to 55 (h7) and index[55] changes from 7 to 3: the position is
consistent and the move pseudo-legal, yet pieceSq and index differ from
their pre-make snapshot. -/
theorem make_unmake_pieceSq_counterexample :
    ((Position.initial.reset.doMove (mkMove 12 28)).doMove
        (mkMove 51 35)).isPseudoLegal (mkMove 28 35) = true ∧
      ((Position.initial.reset.doMove (mkMove 12 28)).doMove
        (mkMove 51 35)).consistent ∧
      ((Position.initial.reset.doMove (mkMove 12 28)).doMove
        (mkMove 51 35)).pieceSq BLACK PAWN 3 = 35 ∧
      ((Position.initial.reset.doMove (mkMove 12 28)).doMove
        (mkMove 51 35)).index 55 = 7 ∧
      (((((Position.initial.reset.doMove (mkMove 12 28)).doMove
        (mkMove 51 35)).doMove (mkMove 28 35)).undoMove
        (mkMove 28 35))).pieceSq BLACK PAWN 3 = 55 ∧
      (((((Position.initial.reset.doMove (mkMove 12 28)).doMove
        (mkMove 51 35)).doMove (mkMove 28 35)).undoMove
        (mkMove 28 35))).index 55 = 3 := by
  decide

/-- C10: isPseudoLegal rejects the reserved encodings MOVE_NONE (a1 to a1)
and MOVE_NULL (h8 to h8) in every position: with from = to, either the
source square does not hold a piece of the side to move (first guard
clause) or the destination holds a piece of the side to move (second guard
clause).  Consequently the TT_MOVE phase of MoveManager::next never yields
a reserved move. -/
theorem isPseudoLegal_rejects_reserved (p : Position) :
    p.isPseudoLegal MOVE_NONE = false ∧ p.isPseudoLegal MOVE_NULL = false ∧
      ttMovePhaseYield p MOVE_NONE = none ∧ ttMovePhaseYield p MOVE_NULL = none := by
  have h1 : p.isPseudoLegal MOVE_NONE = false := by
    unfold Position.isPseudoLegal
    by_cases h : getPieceSide (p.board (moveTo MOVE_NONE)) = p.turn
    · rw [if_pos (Or.inr (Or.inl h))]
    · rw [if_pos (Or.inl
        (show getPieceSide (p.board (moveFrom MOVE_NONE)) ≠ p.turn from h))]
  have h2 : p.isPseudoLegal MOVE_NULL = false := by
    unfold Position.isPseudoLegal
    by_cases h : getPieceSide (p.board (moveTo MOVE_NULL)) = p.turn
    · rw [if_pos (Or.inr (Or.inl h))]
    · rw [if_pos (Or.inl
        (show getPieceSide (p.board (moveFrom MOVE_NULL)) ≠ p.turn from h))]
  refine ⟨h1, h2, ?_, ?_⟩ <;> simp [ttMovePhaseYield, h1, h2]

/-- C10 witness: on the starting position isPseudoLegal rejects both
reserved moves and the TT_MOVE phase yields nothing for them. -/
theorem isPseudoLegal_rejects_reserved_witness :
    Position.initial.reset.isPseudoLegal MOVE_NONE = false ∧
      Position.initial.reset.isPseudoLegal MOVE_NULL = false ∧
      ttMovePhaseYield Position.initial.reset MOVE_NONE = none ∧
      ttMovePhaseYield Position.initial.reset MOVE_NULL = none :=
  isPseudoLegal_rejects_reserved Position.initial.reset

set_option maxRecDepth 8000 in
set_option maxHeartbeats 1000000 in
/-- C6: Position::loadPosition does not parse the standard FEN en-passant
field.  It reads the rank with formatted int input, so the en-passant
square e3 of the well-formed position FEN "4k3/8/8/8/4P3/8/8/4K3 b - e3
0 1" (white just played the double pawn push e2-e4) arrives as the
integer 3, and the guard only accepts 2 or 5 (the 0-based rank indices the
author intended), so the input is rejected with a ParseError; the Square
constructor call even swaps rank and file for the inputs it accepts.
Likewise the halfmove clock is read as a single uint8 character, so a
clock of 30 stores the ASCII code 51 and is rejected by the 50-cap check.
The same FEN with "-" in those fields parses fine, isolating the bugs. -/
theorem loadPosition_rejects_wellformed_fen :
    parseError (Position.initial.loadPosition
      ("4k3/8/8/8/4P3/8/8/4K3 b - e3 0 1".toList) false) =
      some "Invalid en-passant square e4" ∧
    parseError (Position.initial.loadPosition
      ("4k3/8/8/8/4P3/8/8/4K3 b - - 30 1".toList) false) =
      some "Rule-50 halfmove counter51 is invalid " ∧
    parseError (Position.initial.loadPosition
      ("4k3/8/8/8/4P3/8/8/4K3 b - - 0 1".toList) false) =
      none := by
  decide

set_option maxRecDepth 8000 in
set_option maxHeartbeats 1000000 in
/-- C7: Position::writePosition does not emit standard FEN.  On the
standard starting position it outputs "//8/16/24/32/32/ w KQkq - \x00 0":
the piece letter cur_ch is computed but never streamed, the
consecutive-empty counter is never reset at a rank end (so the empty ranks
print 8, 16, 24, 32 and the stale 32 is printed again when the first white
pawn is met), the halfmove clock is streamed as a raw uint8 character, and
the fullmove field is gamePly / 2, which is 0 for the start position
instead of 1. -/
theorem writePosition_not_standard_fen :
    Position.initial.reset.writePosition false =
      ("//8/16/24/32/32/ w KQkq - ".toList ++ [Char.ofNat 0] ++ " 0".toList) ∧
    Position.initial.reset.writePosition false ≠
      ("rnbqkbnr/pppppppp/8/8/8/8/PPPPPPPP/RNBQKBNR w KQkq - 0 1".toList) := by
  decide


lemma xor_shuffle1 (r a b : Nat) : b ^^^ r = (a ^^^ r) ^^^ a ^^^ b := by
  apply Nat.eq_of_testBit_eq
  intro j
  simp only [Nat.testBit_xor]
  cases r.testBit j <;> cases a.testBit j <;> cases b.testBit j <;> rfl

lemma xor_shuffle2 (a r c d : Nat) : a ^^^ (r ^^^ c ^^^ d) = (a ^^^ r) ^^^ c ^^^ d := by
  apply Nat.eq_of_testBit_eq
  intro j
  simp only [Nat.testBit_xor]
  cases a.testBit j <;> cases r.testBit j <;> cases c.testBit j <;> cases d.testBit j <;>
    rfl

lemma xor_shift3 (x c e s z1 z2 : Nat) :
    (x ^^^ c ^^^ e ^^^ s) ^^^ (z1 ^^^ z2) = (x ^^^ z1 ^^^ z2) ^^^ c ^^^ e ^^^ s := by
  apply Nat.eq_of_testBit_eq
  intro j
  simp only [Nat.testBit_xor]
  cases x.testBit j <;> cases c.testBit j <;> cases e.testBit j <;> cases s.testBit j <;>
    cases z1.testBit j <;> cases z2.testBit j <;> rfl

lemma xor_swap_third (x c z s w : Nat) :
    (x ^^^ c ^^^ z ^^^ s) ^^^ (z ^^^ w) = x ^^^ c ^^^ w ^^^ s := by
  apply Nat.eq_of_testBit_eq
  intro j
  simp only [Nat.testBit_xor]
  cases x.testBit j <;> cases c.testBit j <;> cases z.testBit j <;> cases s.testBit j <;>
    cases w.testBit j <;> rfl

lemma xor_swap_second (x z w e s : Nat) :
    (x ^^^ z ^^^ e ^^^ s) ^^^ (z ^^^ w) = x ^^^ w ^^^ e ^^^ s := by
  apply Nat.eq_of_testBit_eq
  intro j
  simp only [Nat.testBit_xor]
  cases x.testBit j <;> cases z.testBit j <;> cases w.testBit j <;> cases e.testBit j <;>
    cases s.testBit j <;> rfl

lemma xor_swap_fourth (x c e z w : Nat) :
    (x ^^^ c ^^^ e ^^^ z) ^^^ (z ^^^ w) = x ^^^ c ^^^ e ^^^ w := by
  apply Nat.eq_of_testBit_eq
  intro j
  simp only [Nat.testBit_xor]
  cases x.testBit j <;> cases c.testBit j <;> cases e.testBit j <;> cases z.testBit j <;>
    cases w.testBit j <;> rfl

lemma sqKeyContrib_empty (b : Nat → Nat) (sq : Nat) (h : b sq = PIECE_NULL) :
    sqKeyContrib b sq = 0 := by
  unfold sqKeyContrib; simp [h]

lemma sqKeyContrib_occ (b : Nat → Nat) (sq : Nat) (h : b sq ≠ PIECE_NULL) :
    sqKeyContrib b sq = ZobristPSQ (getPieceSide (b sq)) (getPieceType (b sq)) sq := by
  unfold sqKeyContrib; rw [if_pos h]

lemma boardKeyList_congr (b1 b2 : Nat → Nat) (l : List Nat) (h : ∀ j ∈ l, b1 j = b2 j) :
    boardKeyList b1 l = boardKeyList b2 l := by
  induction l with
  | nil => rfl
  | cons x rest ih =>
    unfold boardKeyList
    rw [show sqKeyContrib b1 x = sqKeyContrib b2 x from by
        unfold sqKeyContrib; rw [h x (List.mem_cons_self x rest)],
      ih (fun j hj => h j (List.mem_cons_of_mem x hj))]

/-- Effect of a one-point board update on the XOR of piece key components:
the old contribution of the square leaves and the new one enters. -/
lemma boardKeyList_update (b : Nat → Nat) (sq v : Nat) (l : List Nat) (hnd : l.Nodup)
    (hm : sq ∈ l) :
    boardKeyList (updFn b sq v) l =
      boardKeyList b l ^^^ sqKeyContrib b sq ^^^ sqKeyContrib (updFn b sq v) sq := by
  induction l with
  | nil => cases hm
  | cons x rest ih =>
    rcases List.mem_cons.mp hm with h | h
    · subst h
      have hnr : sq ∉ rest := (List.nodup_cons.mp hnd).1
      unfold boardKeyList
      rw [boardKeyList_congr (updFn b sq v) b rest (fun j hj => by
        unfold updFn
        rw [if_neg (by rintro rfl; exact hnr hj)])]
      exact xor_shuffle1 _ _ _
    · have hx : x ≠ sq := by rintro rfl; exact (List.nodup_cons.mp hnd).1 h
      unfold boardKeyList
      rw [ih (List.nodup_cons.mp hnd).2 h,
        show sqKeyContrib (updFn b sq v) x = sqKeyContrib b x from by
          unfold sqKeyContrib updFn; rw [if_neg hx]]
      exact xor_shuffle2 _ _ _ _

/-- putPiece preserves the Zobrist invariant when it puts a real piece on
an empty square (the way every call site uses it). -/
lemma keyInv_putPiece (p : Position) (sq c pt : Nat) (h64 : sq < 64)
    (hemp : p.board sq = PIECE_NULL) (hc2 : c < 2) (h1 : 1 ≤ pt) (h6 : pt ≤ 6)
    (hk : p.keyInv) : (p.putPiece sq c pt).keyInv := by
  unfold Position.keyInv zobristRecompute at *
  unfold Position.putPiece
  simp only []
  rw [boardKeyList_update p.board sq (makePiece c pt) (List.range 64) (List.nodup_range 64)
      (List.mem_range.mpr h64),
    sqKeyContrib_empty p.board sq hemp,
    sqKeyContrib_occ _ sq (by
      unfold updFn
      rw [if_pos rfl]
      exact makePiece_ne_null c pt hc2 h1 (by omega))]
  unfold updFn
  rw [if_pos rfl, getPieceSide_makePiece c pt hc2 h1 (by omega),
    getPieceType_makePiece c pt hc2 (by omega), hk]
  apply Nat.eq_of_testBit_eq
  intro j
  simp only [Nat.testBit_xor, Nat.zero_testBit]
  cases (boardKeyList p.board (List.range 64)).testBit j <;>
    cases (crKey p.info.castlingRight).testBit j <;>
    cases ((if p.info.epSquare ≠ SQ_NONE then ZobristEP (sqFile p.info.epSquare)
      else 0)).testBit j <;>
    cases ((if p.turn = BLACK then ZobristBlackSide else 0)).testBit j <;>
    cases ((ZobristPSQ c pt sq)).testBit j <;> rfl

/-- removePiece preserves the Zobrist invariant when the square is
occupied. -/
lemma keyInv_removePiece (p : Position) (sq : Nat) (h64 : sq < 64)
    (hocc : p.board sq ≠ PIECE_NULL) (hk : p.keyInv) : (p.removePiece sq).keyInv := by
  unfold Position.keyInv zobristRecompute at *
  unfold Position.removePiece
  simp only []
  rw [boardKeyList_update p.board sq PIECE_NULL (List.range 64) (List.nodup_range 64)
      (List.mem_range.mpr h64),
    sqKeyContrib_occ p.board sq hocc,
    sqKeyContrib_empty _ sq (by unfold updFn; rw [if_pos rfl]), hk]
  apply Nat.eq_of_testBit_eq
  intro j
  simp only [Nat.testBit_xor, Nat.zero_testBit]
  cases (boardKeyList p.board (List.range 64)).testBit j <;>
    cases (crKey p.info.castlingRight).testBit j <;>
    cases ((if p.info.epSquare ≠ SQ_NONE then ZobristEP (sqFile p.info.epSquare)
      else 0)).testBit j <;>
    cases ((if p.turn = BLACK then ZobristBlackSide else 0)).testBit j <;>
    cases ((ZobristPSQ (getPieceSide (p.board sq)) (getPieceType (p.board sq))
      sq)).testBit j <;> rfl

/-- movePiece preserves the Zobrist invariant when it moves a piece to an
empty square. -/
lemma keyInv_movePiece (p : Position) (f t : Nat) (hf64 : f < 64) (ht64 : t < 64)
    (hocc : p.board f ≠ PIECE_NULL) (hemp : p.board t = PIECE_NULL) (hne : f ≠ t)
    (hk : p.keyInv) : (p.movePiece f t).keyInv := by
  unfold Position.keyInv zobristRecompute at *
  unfold Position.movePiece
  simp only []
  rw [show updFn (updFn p.board t (p.board f)) f PIECE_NULL =
      updFn (updFn p.board f PIECE_NULL) t (p.board f) from by
    funext j
    unfold updFn
    by_cases h1 : j = f
    · subst h1; rw [if_pos rfl, if_neg hne, if_pos rfl]
    · by_cases h2 : j = t <;> simp [h1, h2, hne, Ne.symm hne]]
  rw [boardKeyList_update _ t (p.board f) (List.range 64) (List.nodup_range 64) (List.mem_range.mpr ht64),
    boardKeyList_update p.board f PIECE_NULL (List.range 64) (List.nodup_range 64) (List.mem_range.mpr hf64),
    sqKeyContrib_occ p.board f hocc,
    sqKeyContrib_empty _ f (by unfold updFn; rw [if_pos rfl]),
    sqKeyContrib_empty _ t (by unfold updFn; rw [if_neg (Ne.symm hne)]; exact hemp),
    sqKeyContrib_occ _ t (by unfold updFn; rw [if_pos rfl]; exact hocc)]
  unfold updFn
  rw [if_pos rfl, hk]
  apply Nat.eq_of_testBit_eq
  intro j
  simp only [Nat.testBit_xor, Nat.zero_testBit]
  cases (boardKeyList p.board (List.range 64)).testBit j <;>
    cases (crKey p.info.castlingRight).testBit j <;>
    cases ((if p.info.epSquare ≠ SQ_NONE then ZobristEP (sqFile p.info.epSquare)
      else 0)).testBit j <;>
    cases ((if p.turn = BLACK then ZobristBlackSide else 0)).testBit j <;>
    cases ((ZobristPSQ (getPieceSide (p.board f)) (getPieceType (p.board f)) f)).testBit
      j <;>
    cases ((ZobristPSQ (getPieceSide (p.board f)) (getPieceType (p.board f)) t)).testBit
      j <;>
    rfl

/-- Removing a single castling-right bit keeps crKey consistent. -/
lemma crKey_remove (cr b : Nat)
    (hb : b = CR_WHITE_OO ∨ b = CR_WHITE_OOO ∨ b = CR_BLACK_OO ∨ b = CR_BLACK_OOO)
    (hset : cr &&& b ≠ 0) :
    crKey (cr &&& (255 ^^^ b)) = crKey cr ^^^ ZobristCR b := by
  have key : ∀ x y : Nat, cr &&& x &&& y = cr &&& (x &&& y) :=
    fun x y => Nat.and_assoc cr x y
  rcases hb with rfl | rfl | rfl | rfl
  · unfold crKey CR_WHITE_OO CR_WHITE_OOO CR_BLACK_OO CR_BLACK_OOO
    unfold CR_WHITE_OO at hset
    simp only [key, show (255 ^^^ 1) &&& 1 = 0 from by decide,
      show (255 ^^^ 1) &&& 2 = 2 from by decide, show (255 ^^^ 1) &&& 4 = 4 from by decide,
      show (255 ^^^ 1) &&& 8 = 8 from by decide, Nat.and_zero, ne_eq,
      not_true_eq_false, if_false]
    rw [if_pos hset]
    apply Nat.eq_of_testBit_eq
    intro j
    simp only [Nat.testBit_xor, Nat.zero_testBit]
    cases ((if cr &&& 2 ≠ 0 then ZobristCR 2 else 0)).testBit j <;>
      cases ((if cr &&& 4 ≠ 0 then ZobristCR 4 else 0)).testBit j <;>
      cases ((if cr &&& 8 ≠ 0 then ZobristCR 8 else 0)).testBit j <;>
      cases (ZobristCR 1).testBit j <;> rfl
  · unfold crKey CR_WHITE_OO CR_WHITE_OOO CR_BLACK_OO CR_BLACK_OOO
    unfold CR_WHITE_OOO at hset
    simp only [key, show (255 ^^^ 2) &&& 1 = 1 from by decide,
      show (255 ^^^ 2) &&& 2 = 0 from by decide, show (255 ^^^ 2) &&& 4 = 4 from by decide,
      show (255 ^^^ 2) &&& 8 = 8 from by decide, Nat.and_zero, ne_eq,
      not_true_eq_false, if_false]
    rw [if_pos hset]
    apply Nat.eq_of_testBit_eq
    intro j
    simp only [Nat.testBit_xor, Nat.zero_testBit]
    cases ((if cr &&& 1 ≠ 0 then ZobristCR 1 else 0)).testBit j <;>
      cases ((if cr &&& 4 ≠ 0 then ZobristCR 4 else 0)).testBit j <;>
      cases ((if cr &&& 8 ≠ 0 then ZobristCR 8 else 0)).testBit j <;>
      cases (ZobristCR 2).testBit j <;> rfl
  · unfold crKey CR_WHITE_OO CR_WHITE_OOO CR_BLACK_OO CR_BLACK_OOO
    unfold CR_BLACK_OO at hset
    simp only [key, show (255 ^^^ 4) &&& 1 = 1 from by decide,
      show (255 ^^^ 4) &&& 2 = 2 from by decide, show (255 ^^^ 4) &&& 4 = 0 from by decide,
      show (255 ^^^ 4) &&& 8 = 8 from by decide, Nat.and_zero, ne_eq,
      not_true_eq_false, if_false]
    rw [if_pos hset]
    apply Nat.eq_of_testBit_eq
    intro j
    simp only [Nat.testBit_xor, Nat.zero_testBit]
    cases ((if cr &&& 1 ≠ 0 then ZobristCR 1 else 0)).testBit j <;>
      cases ((if cr &&& 2 ≠ 0 then ZobristCR 2 else 0)).testBit j <;>
      cases ((if cr &&& 8 ≠ 0 then ZobristCR 8 else 0)).testBit j <;>
      cases (ZobristCR 4).testBit j <;> rfl
  · unfold crKey CR_WHITE_OO CR_WHITE_OOO CR_BLACK_OO CR_BLACK_OOO
    unfold CR_BLACK_OOO at hset
    simp only [key, show (255 ^^^ 8) &&& 1 = 1 from by decide,
      show (255 ^^^ 8) &&& 2 = 2 from by decide, show (255 ^^^ 8) &&& 4 = 4 from by decide,
      show (255 ^^^ 8) &&& 8 = 0 from by decide, Nat.and_zero, ne_eq,
      not_true_eq_false, if_false]
    rw [if_pos hset]
    apply Nat.eq_of_testBit_eq
    intro j
    simp only [Nat.testBit_xor, Nat.zero_testBit]
    cases ((if cr &&& 1 ≠ 0 then ZobristCR 1 else 0)).testBit j <;>
      cases ((if cr &&& 2 ≠ 0 then ZobristCR 2 else 0)).testBit j <;>
      cases ((if cr &&& 4 ≠ 0 then ZobristCR 4 else 0)).testBit j <;>
      cases (ZobristCR 8).testBit j <;> rfl

lemma xor_into_second (x c e s z : Nat) :
    (x ^^^ c ^^^ e ^^^ s) ^^^ z = x ^^^ (c ^^^ z) ^^^ e ^^^ s := by
  apply Nat.eq_of_testBit_eq
  intro j
  simp only [Nat.testBit_xor]
  cases x.testBit j <;> cases c.testBit j <;> cases e.testBit j <;> cases s.testBit j <;>
    cases z.testBit j <;> rfl

lemma xor_drop_third (x c z s : Nat) :
    (x ^^^ c ^^^ z ^^^ s) ^^^ z = x ^^^ c ^^^ 0 ^^^ s := by
  apply Nat.eq_of_testBit_eq
  intro j
  simp only [Nat.testBit_xor, Nat.zero_testBit]
  cases x.testBit j <;> cases c.testBit j <;> cases z.testBit j <;> cases s.testBit j <;>
    rfl

lemma xor_add_third (x c s z : Nat) :
    (x ^^^ c ^^^ 0 ^^^ s) ^^^ z = x ^^^ c ^^^ z ^^^ s := by
  apply Nat.eq_of_testBit_eq
  intro j
  simp only [Nat.testBit_xor, Nat.zero_testBit]
  cases x.testBit j <;> cases c.testBit j <;> cases s.testBit j <;> cases z.testBit j <;>
    rfl

lemma xor_add_fourth (x c e z : Nat) :
    (x ^^^ c ^^^ e ^^^ 0) ^^^ z = x ^^^ c ^^^ e ^^^ z := by
  apply Nat.eq_of_testBit_eq
  intro j
  simp only [Nat.testBit_xor, Nat.zero_testBit]
  cases x.testBit j <;> cases c.testBit j <;> cases e.testBit j <;> cases z.testBit j <;>
    rfl

lemma xor_drop_fourth (x c e z : Nat) :
    (x ^^^ c ^^^ e ^^^ z) ^^^ z = x ^^^ c ^^^ e ^^^ 0 := by
  apply Nat.eq_of_testBit_eq
  intro j
  simp only [Nat.testBit_xor, Nat.zero_testBit]
  cases x.testBit j <;> cases c.testBit j <;> cases e.testBit j <;> cases z.testBit j <;>
    rfl

/-- removeCastlingRight preserves the Zobrist invariant for a singular
right bit. -/
lemma keyInv_rcr (p : Position) (b : Nat)
    (hb : b = CR_WHITE_OO ∨ b = CR_WHITE_OOO ∨ b = CR_BLACK_OO ∨ b = CR_BLACK_OOO)
    (hk : p.keyInv) : (p.removeCastlingRight b).keyInv := by
  unfold Position.removeCastlingRight
  split
  · next h =>
    unfold Position.keyInv zobristRecompute at *
    simp only []
    rw [crKey_remove p.info.castlingRight b hb h, hk]
    exact xor_into_second _ _ _ _ _
  · exact hk

/-- The en-passant reset step of doMove preserves the Zobrist invariant. -/
lemma keyInv_epReset (p : Position) (hep : p.info.epSquare ≠ SQ_NONE) (hk : p.keyInv) :
    Position.keyInv { p with info := { p.info with
      keyZobrist := p.info.keyZobrist ^^^ ZobristEP (sqFile p.info.epSquare)
      epSquare := SQ_NONE } } := by
  unfold Position.keyInv zobristRecompute at *
  simp only []
  rw [hk, if_pos hep]
  simp only [ne_eq, not_true_eq_false, if_false, eq_self_iff_true]
  exact xor_drop_third _ _ _ _

/-- The en-passant set step of a double pawn push preserves the Zobrist
invariant when no en-passant square was recorded before. -/
lemma keyInv_epSet (p : Position) (ep : Nat) (hold : p.info.epSquare = SQ_NONE)
    (hnew : ep ≠ SQ_NONE) (hk : p.keyInv) :
    Position.keyInv { p with info := { p.info with
      epSquare := ep
      keyZobrist := p.info.keyZobrist ^^^ ZobristEP (sqFile ep) } } := by
  unfold Position.keyInv zobristRecompute at *
  simp only []
  rw [hk, hold, if_pos hnew]
  simp only [ne_eq, not_true_eq_false, if_false, eq_self_iff_true]
  exact xor_add_third _ _ _ _

/-- The final side-to-move flip of doMove preserves the Zobrist
invariant. -/
lemma keyInv_sideFlip (p : Position) (g t0 : Nat) (ht0 : p.turn = t0)
    (ht : t0 = WHITE ∨ t0 = BLACK) (hk : p.keyInv) :
    Position.keyInv (Position.mk p.board p.pieceSq p.pieceCount p.index p.colorBB
      p.pieceTypeBB
      (PositionInfo.mk p.info.justCaptured p.info.rule50 p.info.epSquare
        p.info.castlingRight (p.info.keyZobrist ^^^ ZobristBlackSide))
      p.prevStates p.psqScore g (opposite t0)) := by
  unfold Position.keyInv zobristRecompute at *
  simp only []
  rw [hk, ht0]
  rcases ht with h | h
  · rw [h, show opposite WHITE = BLACK from rfl, if_neg (by decide : ¬(WHITE = BLACK)),
      if_pos rfl]
    exact xor_add_fourth _ _ _ _
  · rw [h, show opposite BLACK = WHITE from rfl, if_pos rfl,
      if_neg (by decide : ¬(WHITE = BLACK))]
    exact xor_drop_fourth _ _ _ _


lemma movePiece_turn (p : Position) (f t : Nat) : (p.movePiece f t).turn = p.turn := rfl

lemma makeCastling_mem (c cs : Nat) (hc : c = WHITE ∨ c = BLACK)
    (hcs : cs = OO ∨ cs = OOO) :
    makeCastling c cs = CR_WHITE_OO ∨ makeCastling c cs = CR_WHITE_OOO ∨
      makeCastling c cs = CR_BLACK_OO ∨ makeCastling c cs = CR_BLACK_OOO := by
  rcases hc with rfl | rfl <;> rcases hcs with rfl | rfl <;> decide

/-- Zobrist-invariant variant of the en-passant reset step, absorbing the
independent prevStates, justCaptured and rule50 writes interleaved with it
inside doMove. -/
lemma keyInv_epReset2 (p : Position) (pv : Nat → PositionInfo) (jc r50v t0 : Nat)
    (ht0 : p.turn = t0)
    (hep : p.info.epSquare ≠ SQ_NONE) (hk : p.keyInv) :
    Position.keyInv (Position.mk p.board p.pieceSq p.pieceCount p.index p.colorBB
      p.pieceTypeBB
      (PositionInfo.mk jc r50v SQ_NONE p.info.castlingRight
        (p.info.keyZobrist ^^^ ZobristEP (sqFile p.info.epSquare)))
      pv p.psqScore p.gamePly t0) := by
  subst ht0
  unfold Position.keyInv zobristRecompute at *
  simp only []
  rw [hk, if_pos hep]
  simp only [ne_eq, not_true_eq_false, if_false, eq_self_iff_true]
  exact xor_drop_third _ _ _ _

/-- Zobrist-invariant variant of the no-reset path with the same absorbed
independent writes. -/
lemma keyInv_params (p : Position) (pv : Nat → PositionInfo) (jc r50v t0 : Nat)
    (ht0 : p.turn = t0) (hk : p.keyInv) :
    Position.keyInv (Position.mk p.board p.pieceSq p.pieceCount p.index p.colorBB
      p.pieceTypeBB
      (PositionInfo.mk jc r50v p.info.epSquare p.info.castlingRight p.info.keyZobrist)
      pv p.psqScore p.gamePly t0) := by
  subst ht0
  unfold Position.keyInv zobristRecompute at *
  simp only []
  exact hk

lemma keyInv_ite (c : Prop) [inst : Decidable c] (q1 q2 : Position)
    (h1 : c → q1.keyInv) (h2 : ¬c → q2.keyInv) :
    Position.keyInv (if c then q1 else q2) := by
  split
  · next h => exact h1 h
  · next h => exact h2 h

/-- Setting the en-passant square when none was recorded preserves the
Zobrist invariant, with the independent justCaptured, rule50 and prevStates
writes of doMove absorbed. -/
lemma keyInv_epSet2 (p : Position) (pv : Nat → PositionInfo) (jc r50v ep : Nat)
    (hold : p.info.epSquare = SQ_NONE) (hnew : ep ≠ SQ_NONE) (hk : p.keyInv) :
    Position.keyInv (Position.mk p.board p.pieceSq p.pieceCount p.index p.colorBB
      p.pieceTypeBB
      (PositionInfo.mk jc r50v ep p.info.castlingRight
        (p.info.keyZobrist ^^^ ZobristEP (sqFile ep)))
      pv p.psqScore p.gamePly p.turn) := by
  unfold Position.keyInv zobristRecompute at *
  simp only []
  rw [hk, if_neg (fun h => h hold), if_pos hnew]
  apply Nat.eq_of_testBit_eq
  intro j
  simp only [Nat.testBit_xor, Nat.zero_testBit]
  cases (boardKeyList p.board (List.range 64)).testBit j <;>
    cases (crKey p.info.castlingRight).testBit j <;>
    cases ((if p.turn = BLACK then ZobristBlackSide else 0)).testBit j <;>
    cases ((ZobristEP (sqFile ep))).testBit j <;> rfl

/-- Resetting a recorded en-passant square and then setting a new one in
the same doMove preserves the Zobrist invariant, with the independent
writes absorbed. -/
lemma keyInv_epResetSet (p : Position) (pv : Nat → PositionInfo) (jc r50v ep : Nat)
    (hold : p.info.epSquare ≠ SQ_NONE) (hnew : ep ≠ SQ_NONE) (hk : p.keyInv) :
    Position.keyInv (Position.mk p.board p.pieceSq p.pieceCount p.index p.colorBB
      p.pieceTypeBB
      (PositionInfo.mk jc r50v ep p.info.castlingRight
        (p.info.keyZobrist ^^^ ZobristEP (sqFile p.info.epSquare) ^^^
          ZobristEP (sqFile ep)))
      pv p.psqScore p.gamePly p.turn) := by
  unfold Position.keyInv zobristRecompute at *
  simp only []
  rw [hk, if_pos hold, if_pos hnew]
  apply Nat.eq_of_testBit_eq
  intro j
  simp only [Nat.testBit_xor, Nat.zero_testBit]
  cases (boardKeyList p.board (List.range 64)).testBit j <;>
    cases (crKey p.info.castlingRight).testBit j <;>
    cases ((if p.turn = BLACK then ZobristBlackSide else 0)).testBit j <;>
    cases ((ZobristEP (sqFile p.info.epSquare))).testBit j <;>
    cases ((ZobristEP (sqFile ep))).testBit j <;> rfl

lemma epMid_ne_none (f t : Nat) (hf : f < 64) (ht : t < 64) :
    (f + t) >>> 1 ≠ SQ_NONE := by
  unfold SQ_NONE
  rw [Nat.shiftRight_eq_div_pow, pow_one]
  omega

lemma keyInv_doMove_castling_core (p : Position) (m : Nat)
    (htype : moveType m = MT_CASTLING)
    (hturn : p.turn = WHITE ∨ p.turn = BLACK)
    (f t rf rt : Nat)
    (hfm : moveFrom m = f) (htm : moveTo m = t)
    (hRF : mkSquare (if p.turn = WHITE then 0 else 7) (if f < t then 7 else 0) = rf)
    (hRT : mkSquare (if p.turn = WHITE then 0 else 7) (if f < t then 5 else 3) = rt)
    (hf64 : f < 64) (ht64 : t < 64) (hrf64 : rf < 64) (hrt64 : rt < 64)
    (hft : f ≠ t) (hrfrt : rf ≠ rt) (hfrf : f ≠ rf) (hfrt : f ≠ rt)
    (htrf : t ≠ rf) (htrt : t ≠ rt)
    (hbf : p.board f ≠ PIECE_NULL) (hbrf : p.board rf ≠ PIECE_NULL)
    (hbt : p.board t = PIECE_NULL) (hbrt : p.board rt = PIECE_NULL)
    (hnot16 : ¬(((t : Int) - (f : Int)).natAbs = 16))
    (hk : p.keyInv) : (p.doMove m).keyInv := by
  have hjcPT : getPieceType (p.board t) = PT_NULL := by rw [hbt]; rfl
  by_cases hep : p.info.epSquare = SQ_NONE
  · by_cases hPawn : getPieceType (p.board f) = PAWN
    · unfold Position.doMove
      simp only [htype, hjcPT, hfm, htm, hep, hPawn, hnot16,
        show MT_CASTLING ≠ MT_EN_PASSANT by decide,
        show MT_CASTLING ≠ MT_PROMOTION by decide,
        show (PAWN = KING) = False by decide,
        show (PAWN = ROOK) = False by decide,
        eq_self_iff_true, if_true, if_false, ite_self, ne_eq, not_true_eq_false,
        not_false_eq_true, movePiece_turn, apply_ite Position.turn,
        apply_ite Position.board, rcr_turn, rcr_board]
      rw [hRF, hRT]
      apply keyInv_sideFlip _ _ _ ?ct1 hturn
      case ct1 => simp only [movePiece_turn, rcr_turn, apply_ite Position.turn, ite_self]
      apply keyInv_movePiece _ rf rt hrf64 hrt64 ?cto1 ?cte1 hrfrt
      case cto1 =>
        simp only [Position.movePiece, apply_ite Position.board, rcr_board, ite_self]
        unfold updFn
        rw [if_neg (Ne.symm hfrf), if_neg (Ne.symm htrf)]
        exact hbrf
      case cte1 =>
        simp only [Position.movePiece, apply_ite Position.board, rcr_board, ite_self]
        unfold updFn
        rw [if_neg (Ne.symm hfrt), if_neg (Ne.symm htrt)]
        exact hbrt
      apply keyInv_movePiece _ f t hf64 ht64 ?ctfo1 ?ctfe1 hft
      case ctfo1 =>
        simp only [apply_ite Position.board, rcr_board, ite_self]
        exact hbf
      case ctfe1 =>
        simp only [apply_ite Position.board, rcr_board, ite_self]
        exact hbt
      rw [← hep]
      exact keyInv_params p _ _ _ _ rfl hk
    · unfold Position.doMove
      simp only [htype, hjcPT, hfm, htm, hep, hPawn, hnot16,
        show MT_CASTLING ≠ MT_EN_PASSANT by decide,
        show MT_CASTLING ≠ MT_PROMOTION by decide,
        show (PAWN = KING) = False by decide,
        show (PAWN = ROOK) = False by decide,
        eq_self_iff_true, if_true, if_false, ite_self, ne_eq, not_true_eq_false,
        not_false_eq_true, movePiece_turn, apply_ite Position.turn,
        apply_ite Position.board, rcr_turn, rcr_board]
      rw [hRF, hRT]
      apply keyInv_sideFlip _ _ _ ?ct2 hturn
      case ct2 => simp only [movePiece_turn, rcr_turn, apply_ite Position.turn, ite_self]
      apply keyInv_movePiece _ rf rt hrf64 hrt64 ?cto2 ?cte2 hrfrt
      case cto2 =>
        simp only [Position.movePiece, apply_ite Position.board, rcr_board, ite_self]
        unfold updFn
        rw [if_neg (Ne.symm hfrf), if_neg (Ne.symm htrf)]
        exact hbrf
      case cte2 =>
        simp only [Position.movePiece, apply_ite Position.board, rcr_board, ite_self]
        unfold updFn
        rw [if_neg (Ne.symm hfrt), if_neg (Ne.symm htrt)]
        exact hbrt
      apply keyInv_movePiece _ f t hf64 ht64 ?ctfo2 ?ctfe2 hft
      case ctfo2 =>
        simp only [apply_ite Position.board, rcr_board, ite_self]
        exact hbf
      case ctfe2 =>
        simp only [apply_ite Position.board, rcr_board, ite_self]
        exact hbt
      apply keyInv_ite
      · intro hK
        apply keyInv_rcr _ _ (makeCastling_mem _ _ hturn (Or.inr rfl))
        apply keyInv_rcr _ _ (makeCastling_mem _ _ hturn (Or.inl rfl))
        rw [← hep]
        exact keyInv_params p _ _ _ _ rfl hk
      · intro hK
        apply keyInv_ite
        · intro hR
          apply keyInv_ite
          · intro hc0
            apply keyInv_rcr _ _ (makeCastling_mem _ _ hturn (Or.inr rfl))
            rw [← hep]
            exact keyInv_params p _ _ _ _ rfl hk
          · intro hc0
            apply keyInv_ite
            · intro hc7
              apply keyInv_rcr _ _ (makeCastling_mem _ _ hturn (Or.inl rfl))
              rw [← hep]
              exact keyInv_params p _ _ _ _ rfl hk
            · intro hc7
              rw [← hep]
              exact keyInv_params p _ _ _ _ rfl hk
        · intro hR
          rw [← hep]
          exact keyInv_params p _ _ _ _ rfl hk
  · by_cases hPawn : getPieceType (p.board f) = PAWN
    · unfold Position.doMove
      simp only [htype, hjcPT, hfm, htm, hep, hPawn, hnot16,
        show MT_CASTLING ≠ MT_EN_PASSANT by decide,
        show MT_CASTLING ≠ MT_PROMOTION by decide,
        show (PAWN = KING) = False by decide,
        show (PAWN = ROOK) = False by decide,
        eq_self_iff_true, if_true, if_false, ite_self, ne_eq, not_true_eq_false,
        not_false_eq_true, movePiece_turn, apply_ite Position.turn,
        apply_ite Position.board, rcr_turn, rcr_board]
      rw [hRF, hRT]
      apply keyInv_sideFlip _ _ _ ?ct3 hturn
      case ct3 => simp only [movePiece_turn, rcr_turn, apply_ite Position.turn, ite_self]
      apply keyInv_movePiece _ rf rt hrf64 hrt64 ?cto3 ?cte3 hrfrt
      case cto3 =>
        simp only [Position.movePiece, apply_ite Position.board, rcr_board, ite_self]
        unfold updFn
        rw [if_neg (Ne.symm hfrf), if_neg (Ne.symm htrf)]
        exact hbrf
      case cte3 =>
        simp only [Position.movePiece, apply_ite Position.board, rcr_board, ite_self]
        unfold updFn
        rw [if_neg (Ne.symm hfrt), if_neg (Ne.symm htrt)]
        exact hbrt
      apply keyInv_movePiece _ f t hf64 ht64 ?ctfo3 ?ctfe3 hft
      case ctfo3 =>
        simp only [apply_ite Position.board, rcr_board, ite_self]
        exact hbf
      case ctfe3 =>
        simp only [apply_ite Position.board, rcr_board, ite_self]
        exact hbt
      exact keyInv_epReset2 p _ _ _ _ rfl hep hk
    · unfold Position.doMove
      simp only [htype, hjcPT, hfm, htm, hep, hPawn, hnot16,
        show MT_CASTLING ≠ MT_EN_PASSANT by decide,
        show MT_CASTLING ≠ MT_PROMOTION by decide,
        show (PAWN = KING) = False by decide,
        show (PAWN = ROOK) = False by decide,
        eq_self_iff_true, if_true, if_false, ite_self, ne_eq, not_true_eq_false,
        not_false_eq_true, movePiece_turn, apply_ite Position.turn,
        apply_ite Position.board, rcr_turn, rcr_board]
      rw [hRF, hRT]
      apply keyInv_sideFlip _ _ _ ?ct4 hturn
      case ct4 => simp only [movePiece_turn, rcr_turn, apply_ite Position.turn, ite_self]
      apply keyInv_movePiece _ rf rt hrf64 hrt64 ?cto4 ?cte4 hrfrt
      case cto4 =>
        simp only [Position.movePiece, apply_ite Position.board, rcr_board, ite_self]
        unfold updFn
        rw [if_neg (Ne.symm hfrf), if_neg (Ne.symm htrf)]
        exact hbrf
      case cte4 =>
        simp only [Position.movePiece, apply_ite Position.board, rcr_board, ite_self]
        unfold updFn
        rw [if_neg (Ne.symm hfrt), if_neg (Ne.symm htrt)]
        exact hbrt
      apply keyInv_movePiece _ f t hf64 ht64 ?ctfo4 ?ctfe4 hft
      case ctfo4 =>
        simp only [apply_ite Position.board, rcr_board, ite_self]
        exact hbf
      case ctfe4 =>
        simp only [apply_ite Position.board, rcr_board, ite_self]
        exact hbt
      apply keyInv_ite
      · intro hK
        apply keyInv_rcr _ _ (makeCastling_mem _ _ hturn (Or.inr rfl))
        apply keyInv_rcr _ _ (makeCastling_mem _ _ hturn (Or.inl rfl))
        exact keyInv_epReset2 p _ _ _ _ rfl hep hk
      · intro hK
        apply keyInv_ite
        · intro hR
          apply keyInv_ite
          · intro hc0
            apply keyInv_rcr _ _ (makeCastling_mem _ _ hturn (Or.inr rfl))
            exact keyInv_epReset2 p _ _ _ _ rfl hep hk
          · intro hc0
            apply keyInv_ite
            · intro hc7
              apply keyInv_rcr _ _ (makeCastling_mem _ _ hturn (Or.inl rfl))
              exact keyInv_epReset2 p _ _ _ _ rfl hep hk
            · intro hc7
              exact keyInv_epReset2 p _ _ _ _ rfl hep hk
        · intro hR
          exact keyInv_epReset2 p _ _ _ _ rfl hep hk
lemma keyInv_doMove_normal_quiet_core (p : Position) (m : Nat)
    (htype : moveType m = MT_NORMAL)
    (hturn : p.turn = WHITE ∨ p.turn = BLACK)
    (f t : Nat) (hfm : moveFrom m = f) (htm : moveTo m = t)
    (hf64 : f < 64) (ht64 : t < 64) (hft : f ≠ t)
    (hbf : p.board f ≠ PIECE_NULL) (hbt : p.board t = PIECE_NULL)
    (hk : p.keyInv) : (p.doMove m).keyInv := by
  have hjcPT : getPieceType (p.board t) = PT_NULL := by rw [hbt]; rfl
  by_cases hep : p.info.epSquare = SQ_NONE
  · by_cases hPawn : getPieceType (p.board f) = PAWN
    · by_cases h16 : ((t : Int) - (f : Int)).natAbs = 16
      · unfold Position.doMove
        simp only [htype, hjcPT, hfm, htm, hPawn, hep, h16,
          show MT_NORMAL ≠ MT_EN_PASSANT by decide,
          show MT_NORMAL ≠ MT_PROMOTION by decide,
          show MT_NORMAL ≠ MT_CASTLING by decide,
          show (PAWN = KING) = False by decide,
          show (PAWN = ROOK) = False by decide,
          eq_self_iff_true, if_true, if_false, ite_self, ne_eq, not_true_eq_false,
          not_false_eq_true,
          movePiece_turn, apply_ite Position.turn, apply_ite Position.board,
          rcr_turn, rcr_board]
        apply keyInv_sideFlip _ _ _ ?nq1 hturn
        case nq1 => simp only [movePiece_turn, rcr_turn]
        apply keyInv_movePiece _ f t hf64 ht64 ?nqo1 ?nqe1 hft
        case nqo1 => exact hbf
        case nqe1 => exact hbt
        exact keyInv_epSet2 p _ _ _ _ hep (epMid_ne_none f t hf64 ht64) hk
      · unfold Position.doMove
        simp only [htype, hjcPT, hfm, htm, hPawn, hep, h16,
          show MT_NORMAL ≠ MT_EN_PASSANT by decide,
          show MT_NORMAL ≠ MT_PROMOTION by decide,
          show MT_NORMAL ≠ MT_CASTLING by decide,
          show (PAWN = KING) = False by decide,
          show (PAWN = ROOK) = False by decide,
          eq_self_iff_true, if_true, if_false, ite_self, ne_eq, not_true_eq_false,
          not_false_eq_true,
          movePiece_turn, apply_ite Position.turn, apply_ite Position.board,
          rcr_turn, rcr_board]
        apply keyInv_sideFlip _ _ _ ?nq2 hturn
        case nq2 => simp only [movePiece_turn, rcr_turn]
        apply keyInv_movePiece _ f t hf64 ht64 ?nqo2 ?nqe2 hft
        case nqo2 => exact hbf
        case nqe2 => exact hbt
        rw [← hep]
        exact keyInv_params p _ _ _ _ rfl hk
    · unfold Position.doMove
      simp only [htype, hjcPT, hfm, htm, hPawn, hep,
        show MT_NORMAL ≠ MT_EN_PASSANT by decide,
        show MT_NORMAL ≠ MT_PROMOTION by decide,
        show MT_NORMAL ≠ MT_CASTLING by decide,
        eq_self_iff_true, if_true, if_false, ite_self, ne_eq, not_true_eq_false,
        not_false_eq_true,
        movePiece_turn, apply_ite Position.turn, apply_ite Position.board,
        rcr_turn, rcr_board]
      apply keyInv_sideFlip _ _ _ ?nq3 hturn
      case nq3 => simp only [movePiece_turn, rcr_turn, apply_ite Position.turn, ite_self]
      apply keyInv_movePiece _ f t hf64 ht64 ?nqo3 ?nqe3 hft
      case nqo3 =>
        simp only [apply_ite Position.board, rcr_board, ite_self]
        exact hbf
      case nqe3 =>
        simp only [apply_ite Position.board, rcr_board, ite_self]
        exact hbt
      apply keyInv_ite
      · intro hK
        apply keyInv_rcr _ _ (makeCastling_mem _ _ hturn (Or.inr rfl))
        apply keyInv_rcr _ _ (makeCastling_mem _ _ hturn (Or.inl rfl))
        rw [← hep]
        exact keyInv_params p _ _ _ _ rfl hk
      · intro hK
        apply keyInv_ite
        · intro hR
          apply keyInv_ite
          · intro hc0
            apply keyInv_rcr _ _ (makeCastling_mem _ _ hturn (Or.inr rfl))
            rw [← hep]
            exact keyInv_params p _ _ _ _ rfl hk
          · intro hc0
            apply keyInv_ite
            · intro hc7
              apply keyInv_rcr _ _ (makeCastling_mem _ _ hturn (Or.inl rfl))
              rw [← hep]
              exact keyInv_params p _ _ _ _ rfl hk
            · intro hc7
              rw [← hep]
              exact keyInv_params p _ _ _ _ rfl hk
        · intro hR
          rw [← hep]
          exact keyInv_params p _ _ _ _ rfl hk
  · by_cases hPawn : getPieceType (p.board f) = PAWN
    · by_cases h16 : ((t : Int) - (f : Int)).natAbs = 16
      · unfold Position.doMove
        simp only [htype, hjcPT, hfm, htm, hPawn, hep, h16,
          show MT_NORMAL ≠ MT_EN_PASSANT by decide,
          show MT_NORMAL ≠ MT_PROMOTION by decide,
          show MT_NORMAL ≠ MT_CASTLING by decide,
          show (PAWN = KING) = False by decide,
          show (PAWN = ROOK) = False by decide,
          eq_self_iff_true, if_true, if_false, ite_self, ne_eq, not_true_eq_false,
          not_false_eq_true,
          movePiece_turn, apply_ite Position.turn, apply_ite Position.board,
          rcr_turn, rcr_board]
        apply keyInv_sideFlip _ _ _ ?nq4 hturn
        case nq4 => simp only [movePiece_turn, rcr_turn]
        apply keyInv_movePiece _ f t hf64 ht64 ?nqo4 ?nqe4 hft
        case nqo4 => exact hbf
        case nqe4 => exact hbt
        exact keyInv_epResetSet p _ _ _ _ hep (epMid_ne_none f t hf64 ht64) hk
      · unfold Position.doMove
        simp only [htype, hjcPT, hfm, htm, hPawn, hep, h16,
          show MT_NORMAL ≠ MT_EN_PASSANT by decide,
          show MT_NORMAL ≠ MT_PROMOTION by decide,
          show MT_NORMAL ≠ MT_CASTLING by decide,
          show (PAWN = KING) = False by decide,
          show (PAWN = ROOK) = False by decide,
          eq_self_iff_true, if_true, if_false, ite_self, ne_eq, not_true_eq_false,
          not_false_eq_true,
          movePiece_turn, apply_ite Position.turn, apply_ite Position.board,
          rcr_turn, rcr_board]
        apply keyInv_sideFlip _ _ _ ?nq5 hturn
        case nq5 => simp only [movePiece_turn, rcr_turn]
        apply keyInv_movePiece _ f t hf64 ht64 ?nqo5 ?nqe5 hft
        case nqo5 => exact hbf
        case nqe5 => exact hbt
        exact keyInv_epReset2 p _ _ _ _ rfl hep hk
    · unfold Position.doMove
      simp only [htype, hjcPT, hfm, htm, hPawn, hep,
        show MT_NORMAL ≠ MT_EN_PASSANT by decide,
        show MT_NORMAL ≠ MT_PROMOTION by decide,
        show MT_NORMAL ≠ MT_CASTLING by decide,
        eq_self_iff_true, if_true, if_false, ite_self, ne_eq, not_true_eq_false,
        not_false_eq_true,
        movePiece_turn, apply_ite Position.turn, apply_ite Position.board,
        rcr_turn, rcr_board]
      apply keyInv_sideFlip _ _ _ ?nq6 hturn
      case nq6 => simp only [movePiece_turn, rcr_turn, apply_ite Position.turn, ite_self]
      apply keyInv_movePiece _ f t hf64 ht64 ?nqo6 ?nqe6 hft
      case nqo6 =>
        simp only [apply_ite Position.board, rcr_board, ite_self]
        exact hbf
      case nqe6 =>
        simp only [apply_ite Position.board, rcr_board, ite_self]
        exact hbt
      apply keyInv_ite
      · intro hK
        apply keyInv_rcr _ _ (makeCastling_mem _ _ hturn (Or.inr rfl))
        apply keyInv_rcr _ _ (makeCastling_mem _ _ hturn (Or.inl rfl))
        exact keyInv_epReset2 p _ _ _ _ rfl hep hk
      · intro hK
        apply keyInv_ite
        · intro hR
          apply keyInv_ite
          · intro hc0
            apply keyInv_rcr _ _ (makeCastling_mem _ _ hturn (Or.inr rfl))
            exact keyInv_epReset2 p _ _ _ _ rfl hep hk
          · intro hc0
            apply keyInv_ite
            · intro hc7
              apply keyInv_rcr _ _ (makeCastling_mem _ _ hturn (Or.inl rfl))
              exact keyInv_epReset2 p _ _ _ _ rfl hep hk
            · intro hc7
              exact keyInv_epReset2 p _ _ _ _ rfl hep hk
        · intro hR
          exact keyInv_epReset2 p _ _ _ _ rfl hep hk

lemma removePiece_turn (p : Position) (sq : Nat) : (p.removePiece sq).turn = p.turn := rfl

lemma removePiece_board (p : Position) (sq : Nat) :
    (p.removePiece sq).board = updFn p.board sq PIECE_NULL := rfl

lemma opposite_cases (c : Nat) (h : c = WHITE ∨ c = BLACK) :
    opposite c = WHITE ∨ opposite c = BLACK := by
  rcases h with rfl | rfl <;> decide

lemma keyInv_doMove_normal_capture_core (p : Position) (m : Nat)
    (htype : moveType m = MT_NORMAL)
    (hturn : p.turn = WHITE ∨ p.turn = BLACK)
    (f t : Nat) (hfm : moveFrom m = f) (htm : moveTo m = t)
    (hf64 : f < 64) (ht64 : t < 64) (hft : f ≠ t)
    (hbf : p.board f ≠ PIECE_NULL) (hbt : p.board t ≠ PIECE_NULL)
    (hjcn : getPieceType (p.board t) ≠ PT_NULL)
    (hk : p.keyInv) : (p.doMove m).keyInv := by
  by_cases hep : p.info.epSquare = SQ_NONE
  · unfold Position.doMove
    simp only [htype, hfm, htm, hjcn, hep,
      show MT_NORMAL ≠ MT_EN_PASSANT by decide,
      show MT_NORMAL ≠ MT_PROMOTION by decide,
      show MT_NORMAL ≠ MT_CASTLING by decide,
      eq_self_iff_true, if_true, if_false, ite_self, ne_eq, not_true_eq_false,
      not_false_eq_true, movePiece_turn, removePiece_turn, apply_ite Position.turn,
      apply_ite Position.board, rcr_turn, rcr_board]
    apply keyInv_sideFlip _ _ _ ?c1 hturn
    case c1 =>
      simp only [movePiece_turn, removePiece_turn, rcr_turn, apply_ite Position.turn,
        ite_self]
    apply keyInv_movePiece _ f t hf64 ht64 ?co1 ?ce1 hft
    case co1 =>
      simp only [removePiece_board, apply_ite Position.board, rcr_board, ite_self]
      unfold updFn
      rw [if_neg hft]
      exact hbf
    case ce1 =>
      simp only [removePiece_board, apply_ite Position.board, rcr_board, ite_self]
      unfold updFn
      rw [if_pos rfl]
    apply keyInv_ite
    · intro hK
      apply keyInv_rcr _ _ (makeCastling_mem _ _ hturn (Or.inr rfl))
      apply keyInv_rcr _ _ (makeCastling_mem _ _ hturn (Or.inl rfl))
      apply keyInv_params _ _ _ _ _ ?tu1
      case tu1 =>
        simp only [removePiece_turn, apply_ite Position.turn, rcr_turn, ite_self]
      apply keyInv_removePiece _ t ht64 ?ro1
      case ro1 =>
        simp only [apply_ite Position.board, rcr_board, ite_self]
        exact hbt
      apply keyInv_ite
      · intro hcR
        apply keyInv_ite
        · intro hr0
          apply keyInv_rcr _ _ (makeCastling_mem _ _ (opposite_cases _ hturn) (Or.inr rfl))
          rw [← hep]
          exact keyInv_params p _ _ _ _ rfl hk
        · intro hr0
          apply keyInv_ite
          · intro hr7
            apply keyInv_rcr _ _ (makeCastling_mem _ _ (opposite_cases _ hturn) (Or.inl rfl))
            rw [← hep]
            exact keyInv_params p _ _ _ _ rfl hk
          · intro hr7
            rw [← hep]
            exact keyInv_params p _ _ _ _ rfl hk
      · intro hcR
        rw [← hep]
        exact keyInv_params p _ _ _ _ rfl hk
    · intro hK
      apply keyInv_ite
      · intro hR
        apply keyInv_ite
        · intro hf0
          apply keyInv_rcr _ _ (makeCastling_mem _ _ hturn (Or.inr rfl))
          apply keyInv_params _ _ _ _ _ ?tu2
          case tu2 =>
            simp only [removePiece_turn, apply_ite Position.turn, rcr_turn, ite_self]
          apply keyInv_removePiece _ t ht64 ?ro2
          case ro2 =>
            simp only [apply_ite Position.board, rcr_board, ite_self]
            exact hbt
          apply keyInv_ite
          · intro hcR
            apply keyInv_ite
            · intro hr0
              apply keyInv_rcr _ _ (makeCastling_mem _ _ (opposite_cases _ hturn) (Or.inr rfl))
              rw [← hep]
              exact keyInv_params p _ _ _ _ rfl hk
            · intro hr0
              apply keyInv_ite
              · intro hr7
                apply keyInv_rcr _ _ (makeCastling_mem _ _ (opposite_cases _ hturn) (Or.inl rfl))
                rw [← hep]
                exact keyInv_params p _ _ _ _ rfl hk
              · intro hr7
                rw [← hep]
                exact keyInv_params p _ _ _ _ rfl hk
          · intro hcR
            rw [← hep]
            exact keyInv_params p _ _ _ _ rfl hk
        · intro hf0
          apply keyInv_ite
          · intro hf7
            apply keyInv_rcr _ _ (makeCastling_mem _ _ hturn (Or.inl rfl))
            apply keyInv_params _ _ _ _ _ ?tu3
            case tu3 =>
              simp only [removePiece_turn, apply_ite Position.turn, rcr_turn, ite_self]
            apply keyInv_removePiece _ t ht64 ?ro3
            case ro3 =>
              simp only [apply_ite Position.board, rcr_board, ite_self]
              exact hbt
            apply keyInv_ite
            · intro hcR
              apply keyInv_ite
              · intro hr0
                apply keyInv_rcr _ _ (makeCastling_mem _ _ (opposite_cases _ hturn) (Or.inr rfl))
                rw [← hep]
                exact keyInv_params p _ _ _ _ rfl hk
              · intro hr0
                apply keyInv_ite
                · intro hr7
                  apply keyInv_rcr _ _ (makeCastling_mem _ _ (opposite_cases _ hturn) (Or.inl rfl))
                  rw [← hep]
                  exact keyInv_params p _ _ _ _ rfl hk
                · intro hr7
                  rw [← hep]
                  exact keyInv_params p _ _ _ _ rfl hk
            · intro hcR
              rw [← hep]
              exact keyInv_params p _ _ _ _ rfl hk
          · intro hf7
            apply keyInv_params _ _ _ _ _ ?tu4
            case tu4 =>
              simp only [removePiece_turn, apply_ite Position.turn, rcr_turn, ite_self]
            apply keyInv_removePiece _ t ht64 ?ro4
            case ro4 =>
              simp only [apply_ite Position.board, rcr_board, ite_self]
              exact hbt
            apply keyInv_ite
            · intro hcR
              apply keyInv_ite
              · intro hr0
                apply keyInv_rcr _ _ (makeCastling_mem _ _ (opposite_cases _ hturn) (Or.inr rfl))
                rw [← hep]
                exact keyInv_params p _ _ _ _ rfl hk
              · intro hr0
                apply keyInv_ite
                · intro hr7
                  apply keyInv_rcr _ _ (makeCastling_mem _ _ (opposite_cases _ hturn) (Or.inl rfl))
                  rw [← hep]
                  exact keyInv_params p _ _ _ _ rfl hk
                · intro hr7
                  rw [← hep]
                  exact keyInv_params p _ _ _ _ rfl hk
            · intro hcR
              rw [← hep]
              exact keyInv_params p _ _ _ _ rfl hk
      · intro hR
        apply keyInv_params _ _ _ _ _ ?tu5
        case tu5 =>
          simp only [removePiece_turn, apply_ite Position.turn, rcr_turn, ite_self]
        apply keyInv_removePiece _ t ht64 ?ro5
        case ro5 =>
          simp only [apply_ite Position.board, rcr_board, ite_self]
          exact hbt
        apply keyInv_ite
        · intro hcR
          apply keyInv_ite
          · intro hr0
            apply keyInv_rcr _ _ (makeCastling_mem _ _ (opposite_cases _ hturn) (Or.inr rfl))
            rw [← hep]
            exact keyInv_params p _ _ _ _ rfl hk
          · intro hr0
            apply keyInv_ite
            · intro hr7
              apply keyInv_rcr _ _ (makeCastling_mem _ _ (opposite_cases _ hturn) (Or.inl rfl))
              rw [← hep]
              exact keyInv_params p _ _ _ _ rfl hk
            · intro hr7
              rw [← hep]
              exact keyInv_params p _ _ _ _ rfl hk
        · intro hcR
          rw [← hep]
          exact keyInv_params p _ _ _ _ rfl hk
  · unfold Position.doMove
    simp only [htype, hfm, htm, hjcn, hep,
      show MT_NORMAL ≠ MT_EN_PASSANT by decide,
      show MT_NORMAL ≠ MT_PROMOTION by decide,
      show MT_NORMAL ≠ MT_CASTLING by decide,
      eq_self_iff_true, if_true, if_false, ite_self, ne_eq, not_true_eq_false,
      not_false_eq_true, movePiece_turn, removePiece_turn, apply_ite Position.turn,
      apply_ite Position.board, rcr_turn, rcr_board]
    apply keyInv_sideFlip _ _ _ ?c2 hturn
    case c2 =>
      simp only [movePiece_turn, removePiece_turn, rcr_turn, apply_ite Position.turn,
        ite_self]
    apply keyInv_movePiece _ f t hf64 ht64 ?co2 ?ce2 hft
    case co2 =>
      simp only [removePiece_board, apply_ite Position.board, rcr_board, ite_self]
      unfold updFn
      rw [if_neg hft]
      exact hbf
    case ce2 =>
      simp only [removePiece_board, apply_ite Position.board, rcr_board, ite_self]
      unfold updFn
      rw [if_pos rfl]
    apply keyInv_ite
    · intro hK
      apply keyInv_rcr _ _ (makeCastling_mem _ _ hturn (Or.inr rfl))
      apply keyInv_rcr _ _ (makeCastling_mem _ _ hturn (Or.inl rfl))
      apply keyInv_params _ _ _ _ _ ?tu6
      case tu6 =>
        simp only [removePiece_turn, apply_ite Position.turn, rcr_turn, ite_self]
      apply keyInv_removePiece _ t ht64 ?ro6
      case ro6 =>
        simp only [apply_ite Position.board, rcr_board, ite_self]
        exact hbt
      apply keyInv_ite
      · intro hcR
        apply keyInv_ite
        · intro hr0
          apply keyInv_rcr _ _ (makeCastling_mem _ _ (opposite_cases _ hturn) (Or.inr rfl))
          exact keyInv_epReset2 p _ _ _ _ rfl hep hk
        · intro hr0
          apply keyInv_ite
          · intro hr7
            apply keyInv_rcr _ _ (makeCastling_mem _ _ (opposite_cases _ hturn) (Or.inl rfl))
            exact keyInv_epReset2 p _ _ _ _ rfl hep hk
          · intro hr7
            exact keyInv_epReset2 p _ _ _ _ rfl hep hk
      · intro hcR
        exact keyInv_epReset2 p _ _ _ _ rfl hep hk
    · intro hK
      apply keyInv_ite
      · intro hR
        apply keyInv_ite
        · intro hf0
          apply keyInv_rcr _ _ (makeCastling_mem _ _ hturn (Or.inr rfl))
          apply keyInv_params _ _ _ _ _ ?tu7
          case tu7 =>
            simp only [removePiece_turn, apply_ite Position.turn, rcr_turn, ite_self]
          apply keyInv_removePiece _ t ht64 ?ro7
          case ro7 =>
            simp only [apply_ite Position.board, rcr_board, ite_self]
            exact hbt
          apply keyInv_ite
          · intro hcR
            apply keyInv_ite
            · intro hr0
              apply keyInv_rcr _ _ (makeCastling_mem _ _ (opposite_cases _ hturn) (Or.inr rfl))
              exact keyInv_epReset2 p _ _ _ _ rfl hep hk
            · intro hr0
              apply keyInv_ite
              · intro hr7
                apply keyInv_rcr _ _ (makeCastling_mem _ _ (opposite_cases _ hturn) (Or.inl rfl))
                exact keyInv_epReset2 p _ _ _ _ rfl hep hk
              · intro hr7
                exact keyInv_epReset2 p _ _ _ _ rfl hep hk
          · intro hcR
            exact keyInv_epReset2 p _ _ _ _ rfl hep hk
        · intro hf0
          apply keyInv_ite
          · intro hf7
            apply keyInv_rcr _ _ (makeCastling_mem _ _ hturn (Or.inl rfl))
            apply keyInv_params _ _ _ _ _ ?tu8
            case tu8 =>
              simp only [removePiece_turn, apply_ite Position.turn, rcr_turn, ite_self]
            apply keyInv_removePiece _ t ht64 ?ro8
            case ro8 =>
              simp only [apply_ite Position.board, rcr_board, ite_self]
              exact hbt
            apply keyInv_ite
            · intro hcR
              apply keyInv_ite
              · intro hr0
                apply keyInv_rcr _ _ (makeCastling_mem _ _ (opposite_cases _ hturn) (Or.inr rfl))
                exact keyInv_epReset2 p _ _ _ _ rfl hep hk
              · intro hr0
                apply keyInv_ite
                · intro hr7
                  apply keyInv_rcr _ _ (makeCastling_mem _ _ (opposite_cases _ hturn) (Or.inl rfl))
                  exact keyInv_epReset2 p _ _ _ _ rfl hep hk
                · intro hr7
                  exact keyInv_epReset2 p _ _ _ _ rfl hep hk
            · intro hcR
              exact keyInv_epReset2 p _ _ _ _ rfl hep hk
          · intro hf7
            apply keyInv_params _ _ _ _ _ ?tu9
            case tu9 =>
              simp only [removePiece_turn, apply_ite Position.turn, rcr_turn, ite_self]
            apply keyInv_removePiece _ t ht64 ?ro9
            case ro9 =>
              simp only [apply_ite Position.board, rcr_board, ite_self]
              exact hbt
            apply keyInv_ite
            · intro hcR
              apply keyInv_ite
              · intro hr0
                apply keyInv_rcr _ _ (makeCastling_mem _ _ (opposite_cases _ hturn) (Or.inr rfl))
                exact keyInv_epReset2 p _ _ _ _ rfl hep hk
              · intro hr0
                apply keyInv_ite
                · intro hr7
                  apply keyInv_rcr _ _ (makeCastling_mem _ _ (opposite_cases _ hturn) (Or.inl rfl))
                  exact keyInv_epReset2 p _ _ _ _ rfl hep hk
                · intro hr7
                  exact keyInv_epReset2 p _ _ _ _ rfl hep hk
            · intro hcR
              exact keyInv_epReset2 p _ _ _ _ rfl hep hk
      · intro hR
        apply keyInv_params _ _ _ _ _ ?tu10
        case tu10 =>
          simp only [removePiece_turn, apply_ite Position.turn, rcr_turn, ite_self]
        apply keyInv_removePiece _ t ht64 ?ro10
        case ro10 =>
          simp only [apply_ite Position.board, rcr_board, ite_self]
          exact hbt
        apply keyInv_ite
        · intro hcR
          apply keyInv_ite
          · intro hr0
            apply keyInv_rcr _ _ (makeCastling_mem _ _ (opposite_cases _ hturn) (Or.inr rfl))
            exact keyInv_epReset2 p _ _ _ _ rfl hep hk
          · intro hr0
            apply keyInv_ite
            · intro hr7
              apply keyInv_rcr _ _ (makeCastling_mem _ _ (opposite_cases _ hturn) (Or.inl rfl))
              exact keyInv_epReset2 p _ _ _ _ rfl hep hk
            · intro hr7
              exact keyInv_epReset2 p _ _ _ _ rfl hep hk
        · intro hcR
          exact keyInv_epReset2 p _ _ _ _ rfl hep hk

lemma putPiece_turn (p : Position) (sq c pt : Nat) : (p.putPiece sq c pt).turn = p.turn := rfl

lemma putPiece_board (p : Position) (sq c pt : Nat) :
    (p.putPiece sq c pt).board = updFn p.board sq (makePiece c pt) := rfl

lemma movePromotion_range (m : Nat) : 1 ≤ movePromotion m ∧ movePromotion m ≤ 6 := by
  unfold movePromotion
  have := Nat.and_le_right (n := m >>> 14) (m := 3)
  omega

lemma turn_lt_two (c : Nat) (h : c = WHITE ∨ c = BLACK) : c < 2 := by
  rcases h with rfl | rfl <;> decide

lemma keyInv_doMove_ep_core (p : Position) (m : Nat)
    (htype : moveType m = MT_EN_PASSANT)
    (hturn : p.turn = WHITE ∨ p.turn = BLACK)
    (f t cap : Nat) (hfm : moveFrom m = f) (htm : moveTo m = t)
    (hcapif : (if p.turn = WHITE then t - 8 else t + 8) = cap)
    (hf64 : f < 64) (ht64 : t < 64) (hcap64 : cap < 64)
    (hft : f ≠ t) (hfcap : f ≠ cap) (htcap : t ≠ cap)
    (hfpt : getPieceType (p.board f) = PAWN)
    (hbf : p.board f ≠ PIECE_NULL) (hbt : p.board t = PIECE_NULL)
    (hbcap : p.board cap ≠ PIECE_NULL)
    (hk : p.keyInv) : (p.doMove m).keyInv := by
  by_cases hep : p.info.epSquare = SQ_NONE
  · unfold Position.doMove
    simp only [htype, hfm, htm, hfpt, hep,
      show MT_EN_PASSANT ≠ MT_PROMOTION by decide,
      show MT_EN_PASSANT ≠ MT_CASTLING by decide,
      show (PAWN = PT_NULL) = False by decide,
      show (PAWN = KING) = False by decide,
      show (PAWN = ROOK) = False by decide,
      eq_self_iff_true, if_true, if_false, ite_self, ne_eq, not_true_eq_false,
      not_false_eq_true, movePiece_turn, removePiece_turn, apply_ite Position.turn,
      rcr_turn]
    rw [hcapif]
    apply keyInv_sideFlip _ _ _ ?ept1 hturn
    case ept1 => simp only [movePiece_turn, removePiece_turn]
    apply keyInv_movePiece _ f t hf64 ht64 ?epo1 ?epe1 hft
    case epo1 =>
      simp only [removePiece_board]
      unfold updFn
      rw [if_neg hfcap]
      exact hbf
    case epe1 =>
      simp only [removePiece_board]
      unfold updFn
      rw [if_neg htcap]
      exact hbt
    apply keyInv_params _ _ _ _ _ ?eptu1
    case eptu1 => simp only [removePiece_turn]
    apply keyInv_removePiece _ cap hcap64 ?epr1
    case epr1 => exact hbcap
    rw [← hep]
    exact keyInv_params p _ _ _ _ rfl hk
  · unfold Position.doMove
    simp only [htype, hfm, htm, hfpt, hep,
      show MT_EN_PASSANT ≠ MT_PROMOTION by decide,
      show MT_EN_PASSANT ≠ MT_CASTLING by decide,
      show (PAWN = PT_NULL) = False by decide,
      show (PAWN = KING) = False by decide,
      show (PAWN = ROOK) = False by decide,
      eq_self_iff_true, if_true, if_false, ite_self, ne_eq, not_true_eq_false,
      not_false_eq_true, movePiece_turn, removePiece_turn, apply_ite Position.turn,
      rcr_turn]
    rw [hcapif]
    apply keyInv_sideFlip _ _ _ ?ept2 hturn
    case ept2 => simp only [movePiece_turn, removePiece_turn]
    apply keyInv_movePiece _ f t hf64 ht64 ?epo2 ?epe2 hft
    case epo2 =>
      simp only [removePiece_board]
      unfold updFn
      rw [if_neg hfcap]
      exact hbf
    case epe2 =>
      simp only [removePiece_board]
      unfold updFn
      rw [if_neg htcap]
      exact hbt
    apply keyInv_params _ _ _ _ _ ?eptu2
    case eptu2 => simp only [removePiece_turn]
    apply keyInv_removePiece _ cap hcap64 ?epr2
    case epr2 => exact hbcap
    exact keyInv_epReset2 p _ _ _ _ rfl hep hk

lemma keyInv_doMove_promo_quiet_core (p : Position) (m : Nat)
    (htype : moveType m = MT_PROMOTION)
    (hturn : p.turn = WHITE ∨ p.turn = BLACK)
    (f t : Nat) (hfm : moveFrom m = f) (htm : moveTo m = t)
    (hf64 : f < 64) (ht64 : t < 64) (hft : f ≠ t)
    (hfpt : getPieceType (p.board f) = PAWN)
    (hbf : p.board f ≠ PIECE_NULL) (hbt : p.board t = PIECE_NULL)
    (hk : p.keyInv) : (p.doMove m).keyInv := by
  have hjcPT : getPieceType (p.board t) = PT_NULL := by rw [hbt]; rfl
  by_cases hep : p.info.epSquare = SQ_NONE
  · by_cases h16 : ((t : Int) - (f : Int)).natAbs = 16
    · unfold Position.doMove
      simp only [htype, hjcPT, hfm, htm, hfpt, hep, h16,
        show MT_PROMOTION ≠ MT_EN_PASSANT by decide,
      show MT_PROMOTION ≠ MT_CASTLING by decide,
      show (PAWN = PT_NULL) = False by decide,
      show (PAWN = KING) = False by decide,
      show (PAWN = ROOK) = False by decide,
      eq_self_iff_true, if_true, if_false, ite_self, ne_eq, not_true_eq_false,
      not_false_eq_true, movePiece_turn, removePiece_turn, putPiece_turn,
      apply_ite Position.turn, rcr_turn]
      apply keyInv_sideFlip _ _ _ ?pqt1 hturn
      case pqt1 => simp only [removePiece_turn, putPiece_turn]
      apply keyInv_removePiece _ f hf64 ?pqo1
      case pqo1 =>
        simp only [putPiece_board]
        unfold updFn
        rw [if_neg hft]
        exact hbf
      apply keyInv_putPiece _ t _ _ ht64 ?pqe1 (turn_lt_two _ hturn)
        (movePromotion_range m).1 (movePromotion_range m).2
      case pqe1 => exact hbt
      exact keyInv_epSet2 p _ _ _ _ hep (epMid_ne_none f t hf64 ht64) hk
    · unfold Position.doMove
      simp only [htype, hjcPT, hfm, htm, hfpt, hep, h16,
        show MT_PROMOTION ≠ MT_EN_PASSANT by decide,
      show MT_PROMOTION ≠ MT_CASTLING by decide,
      show (PAWN = PT_NULL) = False by decide,
      show (PAWN = KING) = False by decide,
      show (PAWN = ROOK) = False by decide,
      eq_self_iff_true, if_true, if_false, ite_self, ne_eq, not_true_eq_false,
      not_false_eq_true, movePiece_turn, removePiece_turn, putPiece_turn,
      apply_ite Position.turn, rcr_turn]
      apply keyInv_sideFlip _ _ _ ?pqt2 hturn
      case pqt2 => simp only [removePiece_turn, putPiece_turn]
      apply keyInv_removePiece _ f hf64 ?pqo2
      case pqo2 =>
        simp only [putPiece_board]
        unfold updFn
        rw [if_neg hft]
        exact hbf
      apply keyInv_putPiece _ t _ _ ht64 ?pqe2 (turn_lt_two _ hturn)
        (movePromotion_range m).1 (movePromotion_range m).2
      case pqe2 => exact hbt
      rw [← hep]
      exact keyInv_params p _ _ _ _ rfl hk
  · by_cases h16 : ((t : Int) - (f : Int)).natAbs = 16
    · unfold Position.doMove
      simp only [htype, hjcPT, hfm, htm, hfpt, hep, h16,
        show MT_PROMOTION ≠ MT_EN_PASSANT by decide,
      show MT_PROMOTION ≠ MT_CASTLING by decide,
      show (PAWN = PT_NULL) = False by decide,
      show (PAWN = KING) = False by decide,
      show (PAWN = ROOK) = False by decide,
      eq_self_iff_true, if_true, if_false, ite_self, ne_eq, not_true_eq_false,
      not_false_eq_true, movePiece_turn, removePiece_turn, putPiece_turn,
      apply_ite Position.turn, rcr_turn]
      apply keyInv_sideFlip _ _ _ ?pqt3 hturn
      case pqt3 => simp only [removePiece_turn, putPiece_turn]
      apply keyInv_removePiece _ f hf64 ?pqo3
      case pqo3 =>
        simp only [putPiece_board]
        unfold updFn
        rw [if_neg hft]
        exact hbf
      apply keyInv_putPiece _ t _ _ ht64 ?pqe3 (turn_lt_two _ hturn)
        (movePromotion_range m).1 (movePromotion_range m).2
      case pqe3 => exact hbt
      exact keyInv_epResetSet p _ _ _ _ hep (epMid_ne_none f t hf64 ht64) hk
    · unfold Position.doMove
      simp only [htype, hjcPT, hfm, htm, hfpt, hep, h16,
        show MT_PROMOTION ≠ MT_EN_PASSANT by decide,
      show MT_PROMOTION ≠ MT_CASTLING by decide,
      show (PAWN = PT_NULL) = False by decide,
      show (PAWN = KING) = False by decide,
      show (PAWN = ROOK) = False by decide,
      eq_self_iff_true, if_true, if_false, ite_self, ne_eq, not_true_eq_false,
      not_false_eq_true, movePiece_turn, removePiece_turn, putPiece_turn,
      apply_ite Position.turn, rcr_turn]
      apply keyInv_sideFlip _ _ _ ?pqt4 hturn
      case pqt4 => simp only [removePiece_turn, putPiece_turn]
      apply keyInv_removePiece _ f hf64 ?pqo4
      case pqo4 =>
        simp only [putPiece_board]
        unfold updFn
        rw [if_neg hft]
        exact hbf
      apply keyInv_putPiece _ t _ _ ht64 ?pqe4 (turn_lt_two _ hturn)
        (movePromotion_range m).1 (movePromotion_range m).2
      case pqe4 => exact hbt
      exact keyInv_epReset2 p _ _ _ _ rfl hep hk

lemma keyInv_doMove_promo_capture_core (p : Position) (m : Nat)
    (htype : moveType m = MT_PROMOTION)
    (hturn : p.turn = WHITE ∨ p.turn = BLACK)
    (f t : Nat) (hfm : moveFrom m = f) (htm : moveTo m = t)
    (hf64 : f < 64) (ht64 : t < 64) (hft : f ≠ t)
    (hfpt : getPieceType (p.board f) = PAWN)
    (hbf : p.board f ≠ PIECE_NULL) (hbt : p.board t ≠ PIECE_NULL)
    (hjcn : getPieceType (p.board t) ≠ PT_NULL)
    (hk : p.keyInv) : (p.doMove m).keyInv := by
  by_cases hep : p.info.epSquare = SQ_NONE
  · unfold Position.doMove
    simp only [htype, hfm, htm, hfpt, hjcn, hep,
      show MT_PROMOTION ≠ MT_EN_PASSANT by decide,
      show MT_PROMOTION ≠ MT_CASTLING by decide,
      show (PAWN = PT_NULL) = False by decide,
      show (PAWN = KING) = False by decide,
      show (PAWN = ROOK) = False by decide,
      eq_self_iff_true, if_true, if_false, ite_self, ne_eq, not_true_eq_false,
      not_false_eq_true, movePiece_turn, removePiece_turn, putPiece_turn,
      apply_ite Position.turn, rcr_turn]
    apply keyInv_sideFlip _ _ _ ?pct1 hturn
    case pct1 =>
      simp only [removePiece_turn, putPiece_turn, apply_ite Position.turn, rcr_turn,
        ite_self]
    apply keyInv_removePiece _ f hf64 ?pco1
    case pco1 =>
      simp only [putPiece_board, removePiece_board, apply_ite Position.board,
        rcr_board, ite_self]
      unfold updFn
      rw [if_neg hft, if_neg hft]
      exact hbf
    apply keyInv_putPiece _ t _ _ ht64 ?pce1 (turn_lt_two _ hturn)
      (movePromotion_range m).1 (movePromotion_range m).2
    case pce1 =>
      simp only [removePiece_board, apply_ite Position.board, rcr_board, ite_self]
      unfold updFn
      rw [if_pos rfl]
    apply keyInv_params _ _ _ _ _ ?pctu1
    case pctu1 =>
      simp only [removePiece_turn, apply_ite Position.turn, rcr_turn, ite_self]
    apply keyInv_removePiece _ t ht64 ?pcr1
    case pcr1 =>
      simp only [apply_ite Position.board, rcr_board, ite_self]
      exact hbt
    apply keyInv_ite
    · intro hcR
      apply keyInv_ite
      · intro hr0
        apply keyInv_rcr _ _ (makeCastling_mem _ _ (opposite_cases _ hturn) (Or.inr rfl))
        rw [← hep]
        exact keyInv_params p _ _ _ _ rfl hk
      · intro hr0
        apply keyInv_ite
        · intro hr7
          apply keyInv_rcr _ _ (makeCastling_mem _ _ (opposite_cases _ hturn) (Or.inl rfl))
          rw [← hep]
          exact keyInv_params p _ _ _ _ rfl hk
        · intro hr7
          rw [← hep]
          exact keyInv_params p _ _ _ _ rfl hk
    · intro hcR
      rw [← hep]
      exact keyInv_params p _ _ _ _ rfl hk
  · unfold Position.doMove
    simp only [htype, hfm, htm, hfpt, hjcn, hep,
      show MT_PROMOTION ≠ MT_EN_PASSANT by decide,
      show MT_PROMOTION ≠ MT_CASTLING by decide,
      show (PAWN = PT_NULL) = False by decide,
      show (PAWN = KING) = False by decide,
      show (PAWN = ROOK) = False by decide,
      eq_self_iff_true, if_true, if_false, ite_self, ne_eq, not_true_eq_false,
      not_false_eq_true, movePiece_turn, removePiece_turn, putPiece_turn,
      apply_ite Position.turn, rcr_turn]
    apply keyInv_sideFlip _ _ _ ?pct2 hturn
    case pct2 =>
      simp only [removePiece_turn, putPiece_turn, apply_ite Position.turn, rcr_turn,
        ite_self]
    apply keyInv_removePiece _ f hf64 ?pco2
    case pco2 =>
      simp only [putPiece_board, removePiece_board, apply_ite Position.board,
        rcr_board, ite_self]
      unfold updFn
      rw [if_neg hft, if_neg hft]
      exact hbf
    apply keyInv_putPiece _ t _ _ ht64 ?pce2 (turn_lt_two _ hturn)
      (movePromotion_range m).1 (movePromotion_range m).2
    case pce2 =>
      simp only [removePiece_board, apply_ite Position.board, rcr_board, ite_self]
      unfold updFn
      rw [if_pos rfl]
    apply keyInv_params _ _ _ _ _ ?pctu2
    case pctu2 =>
      simp only [removePiece_turn, apply_ite Position.turn, rcr_turn, ite_self]
    apply keyInv_removePiece _ t ht64 ?pcr2
    case pcr2 =>
      simp only [apply_ite Position.board, rcr_board, ite_self]
      exact hbt
    apply keyInv_ite
    · intro hcR
      apply keyInv_ite
      · intro hr0
        apply keyInv_rcr _ _ (makeCastling_mem _ _ (opposite_cases _ hturn) (Or.inr rfl))
        exact keyInv_epReset2 p _ _ _ _ rfl hep hk
      · intro hr0
        apply keyInv_ite
        · intro hr7
          apply keyInv_rcr _ _ (makeCastling_mem _ _ (opposite_cases _ hturn) (Or.inl rfl))
          exact keyInv_epReset2 p _ _ _ _ rfl hep hk
        · intro hr7
          exact keyInv_epReset2 p _ _ _ _ rfl hep hk
    · intro hcR
      exact keyInv_epReset2 p _ _ _ _ rfl hep hk

/-- doMove preserves the Zobrist invariant on a consistent position for a
pseudo-legal move of a generated shape. -/
lemma keyInv_doMove (p : Position) (m : Nat) (hc : p.consistent)
    (hpl : p.isPseudoLegal m = true) (hshape : moveShapeOk p m)
    (hk : p.keyInv) : (p.doMove m).keyInv := by
  obtain ⟨hprom, hepsh, hcast⟩ := id hshape
  obtain ⟨hturn, hwf, -, -, -, hcnt, hpsq, hepc, hcr⟩ := id hc
  obtain ⟨hsf, hst⟩ := isPseudoLegal_split p m hpl
  have hf64 : moveFrom m < 64 := moveFrom_lt m
  have ht64 : moveTo m < 64 := moveTo_lt m
  have hbf : p.board (moveFrom m) ≠ PIECE_NULL := by
    intro h
    rw [h] at hsf
    exact pieceNull_side p.turn hturn hsf
  rcases moveType_cases m with h | h | h | h
  · by_cases hbt : p.board (moveTo m) = PIECE_NULL
    · have hne : moveFrom m ≠ moveTo m := by
        intro e
        rw [e] at hbf
        exact hbf hbt
      exact keyInv_doMove_normal_quiet_core p m h hturn _ _ rfl rfl hf64 ht64 hne
        hbf hbt hk
    · have hne : moveFrom m ≠ moveTo m := by
        intro e
        apply hst
        rw [← e]
        exact hsf
      have hwft : pieceWF (p.board (moveTo m)) :=
        (hwf _ (List.mem_range.mpr ht64)).resolve_left hbt
      have hjcn : getPieceType (p.board (moveTo m)) ≠ PT_NULL := by
        have := hwft.2.1
        unfold PT_NULL
        omega
      exact keyInv_doMove_normal_capture_core p m h hturn _ _ rfl rfl hf64 ht64 hne
        hbf hbt hjcn hk
  · obtain ⟨hfrom, hcrbit, hinner⟩ := isPseudoLegal_castling p m h hpl
    rcases hturn with hW | hB
    · rcases (hcast h) with h6 | h2
      · have hfm : moveFrom m = 4 := by rw [hfrom, hW]; decide
        have htm : moveTo m = 6 := by rw [h6, hW]; decide
        have hcs : moveCastlingSide m = OO := by
          unfold moveCastlingSide
          rw [htm]
          decide
        rw [hcs, hW] at hcrbit hinner
        have hrook : p.board 7 = makePiece WHITE ROOK := by
          have hx := (hcr WHITE (by decide)).1 hcrbit
          rw [show relSquare 7 WHITE = 7 from rfl] at hx
          exact hx
        have h5 : (p.pieceTypeBB PT_ALL).testBit 5 = false :=
          and_zero_testBit _ _ hinner 5 (by decide)
        have h6b : (p.pieceTypeBB PT_ALL).testBit 6 = false :=
          and_zero_testBit _ _ hinner 6 (by decide)
        exact keyInv_doMove_castling_core p m h (Or.inl hW) 4 6 7 5 hfm htm
          (by rw [hW]; decide) (by rw [hW]; decide)
          (by decide) (by decide) (by decide) (by decide)
          (by decide) (by decide) (by decide) (by decide) (by decide) (by decide)
          (by rw [← hfm]; exact hbf)
          (by rw [hrook]; decide)
          (board_empty_of_allBit p hc 6 (by decide) h6b)
          (board_empty_of_allBit p hc 5 (by decide) h5)
          (by decide) hk
      · have hfm : moveFrom m = 4 := by rw [hfrom, hW]; decide
        have htm : moveTo m = 2 := by rw [h2, hW]; decide
        have hcs : moveCastlingSide m = OOO := by
          unfold moveCastlingSide
          rw [htm]
          decide
        rw [hcs, hW] at hcrbit hinner
        have hrook : p.board 0 = makePiece WHITE ROOK := by
          have hx := (hcr WHITE (by decide)).2 hcrbit
          rw [show relSquare 0 WHITE = 0 from rfl] at hx
          exact hx
        have h3 : (p.pieceTypeBB PT_ALL).testBit 3 = false :=
          and_zero_testBit _ _ hinner 3 (by decide)
        have h2b : (p.pieceTypeBB PT_ALL).testBit 2 = false :=
          and_zero_testBit _ _ hinner 2 (by decide)
        exact keyInv_doMove_castling_core p m h (Or.inl hW) 4 2 0 3 hfm htm
          (by rw [hW]; decide) (by rw [hW]; decide)
          (by decide) (by decide) (by decide) (by decide)
          (by decide) (by decide) (by decide) (by decide) (by decide) (by decide)
          (by rw [← hfm]; exact hbf)
          (by rw [hrook]; decide)
          (board_empty_of_allBit p hc 2 (by decide) h2b)
          (board_empty_of_allBit p hc 3 (by decide) h3)
          (by decide) hk
    · rcases (hcast h) with h6 | h2
      · have hfm : moveFrom m = 60 := by rw [hfrom, hB]; decide
        have htm : moveTo m = 62 := by rw [h6, hB]; decide
        have hcs : moveCastlingSide m = OO := by
          unfold moveCastlingSide
          rw [htm]
          decide
        rw [hcs, hB] at hcrbit hinner
        have hrook : p.board 63 = makePiece BLACK ROOK := by
          have hx := (hcr BLACK (by decide)).1 hcrbit
          rw [show relSquare 7 BLACK = 63 from by decide] at hx
          exact hx
        have h61 : (p.pieceTypeBB PT_ALL).testBit 61 = false :=
          and_zero_testBit _ _ hinner 61 (by decide)
        have h62 : (p.pieceTypeBB PT_ALL).testBit 62 = false :=
          and_zero_testBit _ _ hinner 62 (by decide)
        exact keyInv_doMove_castling_core p m h (Or.inr hB) 60 62 63 61 hfm htm
          (by rw [hB]; decide) (by rw [hB]; decide)
          (by decide) (by decide) (by decide) (by decide)
          (by decide) (by decide) (by decide) (by decide) (by decide) (by decide)
          (by rw [← hfm]; exact hbf)
          (by rw [hrook]; decide)
          (board_empty_of_allBit p hc 62 (by decide) h62)
          (board_empty_of_allBit p hc 61 (by decide) h61)
          (by decide) hk
      · have hfm : moveFrom m = 60 := by rw [hfrom, hB]; decide
        have htm : moveTo m = 58 := by rw [h2, hB]; decide
        have hcs : moveCastlingSide m = OOO := by
          unfold moveCastlingSide
          rw [htm]
          decide
        rw [hcs, hB] at hcrbit hinner
        have hrook : p.board 56 = makePiece BLACK ROOK := by
          have hx := (hcr BLACK (by decide)).2 hcrbit
          rw [show relSquare 0 BLACK = 56 from by decide] at hx
          exact hx
        have h59 : (p.pieceTypeBB PT_ALL).testBit 59 = false :=
          and_zero_testBit _ _ hinner 59 (by decide)
        have h58 : (p.pieceTypeBB PT_ALL).testBit 58 = false :=
          and_zero_testBit _ _ hinner 58 (by decide)
        exact keyInv_doMove_castling_core p m h (Or.inr hB) 60 58 56 59 hfm htm
          (by rw [hB]; decide) (by rw [hB]; decide)
          (by decide) (by decide) (by decide) (by decide)
          (by decide) (by decide) (by decide) (by decide) (by decide) (by decide)
          (by rw [← hfm]; exact hbf)
          (by rw [hrook]; decide)
          (board_empty_of_allBit p hc 58 (by decide) h58)
          (board_empty_of_allBit p hc 59 (by decide) h59)
          (by decide) hk
  · by_cases hbt : p.board (moveTo m) = PIECE_NULL
    · have hne : moveFrom m ≠ moveTo m := by
        intro e
        rw [e] at hbf
        exact hbf hbt
      exact keyInv_doMove_promo_quiet_core p m h hturn _ _ rfl rfl hf64 ht64 hne
        (hprom h) hbf hbt hk
    · have hne : moveFrom m ≠ moveTo m := by
        intro e
        apply hst
        rw [← e]
        exact hsf
      have hwft : pieceWF (p.board (moveTo m)) :=
        (hwf _ (List.mem_range.mpr ht64)).resolve_left hbt
      have hjcn : getPieceType (p.board (moveTo m)) ≠ PT_NULL := by
        have := hwft.2.1
        unfold PT_NULL
        omega
      exact keyInv_doMove_promo_capture_core p m h hturn _ _ rfl rfl hf64 ht64 hne
        (hprom h) hbf hbt hjcn hk
  · have hpawn := hepsh h
    have hepto : moveTo m = p.info.epSquare := isPseudoLegal_ep_to p m h hpawn hpl
    have hepn : p.info.epSquare ≠ SQ_NONE := by
      rw [← hepto]
      unfold SQ_NONE
      omega
    rcases hepc with hforb | hepc
    · exact absurd hforb hepn
    have hbt : p.board (moveTo m) = PIECE_NULL := by
      rw [hepto]
      exact hepc.2.1
    have hbcap : p.board (if p.turn = WHITE then moveTo m - 8 else moveTo m + 8) =
        makePiece (opposite p.turn) PAWN := by
      rcases hturn with hx | hx
      · rw [if_pos hx, hepto, hx, show opposite WHITE = BLACK from rfl]
        exact (hepc.2.2.1 hx).2
      · rw [if_neg (by rw [hx]; decide), hepto, hx, show opposite BLACK = WHITE from rfl]
        exact (hepc.2.2.2 hx).2
    have hcap64 : (if p.turn = WHITE then moveTo m - 8 else moveTo m + 8) < 64 := by
      rcases hturn with hx | hx
      · rw [if_pos hx]; omega
      · rw [if_neg (by rw [hx]; decide), hepto]
        have := (hepc.2.2.2 hx).1
        omega
    have hbcapne :
        p.board (if p.turn = WHITE then moveTo m - 8 else moveTo m + 8) ≠ PIECE_NULL := by
      rw [hbcap]
      rcases hturn with hx | hx <;> rw [hx] <;> decide
    have hcapside : getPieceSide (p.board (if p.turn = WHITE then moveTo m - 8
        else moveTo m + 8)) = opposite p.turn := by
      rw [hbcap]
      rcases hturn with hx | hx <;> rw [hx] <;> decide
    have hne : moveFrom m ≠ moveTo m := by
      intro e
      rw [e] at hbf
      exact hbf hbt
    have hfromcap :
        moveFrom m ≠ (if p.turn = WHITE then moveTo m - 8 else moveTo m + 8) := by
      intro e
      have h2 : getPieceSide (p.board (moveFrom m)) = opposite p.turn := by
        rw [e]
        exact hcapside
      rw [hsf] at h2
      exact opposite_ne p.turn hturn h2.symm
    have htocap :
        moveTo m ≠ (if p.turn = WHITE then moveTo m - 8 else moveTo m + 8) := by
      intro e
      rw [← e] at hbcapne
      exact hbcapne hbt
    exact keyInv_doMove_ep_core p m h hturn _ _ _ rfl rfl rfl hf64 ht64 hcap64
      hne hfromcap htocap hpawn hbf hbt hbcapne hk

/-- Position::clear leaves a position satisfying the Zobrist invariant:
key 0 against an empty board, no castling rights, no en-passant square and
the null side to move. -/
lemma keyInv_clear (p : Position) : (p.clear).keyInv := by
  unfold Position.keyInv zobristRecompute
  have hb : boardKeyList p.clear.board (List.range 64) =
      boardKeyList (fun _ => PIECE_NULL) (List.range 64) := by
    apply boardKeyList_congr
    intro j hj
    have hj64 : j < 64 := List.mem_range.mp hj
    show (if j < 64 then PIECE_NULL else p.board j) = PIECE_NULL
    rw [if_pos hj64]
  rw [hb]
  show (0 : Nat) = boardKeyList (fun _ => PIECE_NULL) (List.range 64) ^^^
    crKey CR_NULL ^^^
    (if SQ_NONE ≠ SQ_NONE then ZobristEP (sqFile SQ_NONE) else 0) ^^^
    (if NULL_COLOR = BLACK then ZobristBlackSide else 0)
  decide

/-- Granting all four castling rights at the end of Position::reset keeps
the Zobrist invariant when the position had none. -/
lemma keyInv_grantAll (q : Position) (h0 : q.info.castlingRight = CR_NULL)
    (hep : q.info.epSquare = SQ_NONE) (htu : q.turn = NULL_COLOR) (hk : q.keyInv) :
    Position.keyInv (Position.mk q.board q.pieceSq q.pieceCount q.index q.colorBB
      q.pieceTypeBB
      (PositionInfo.mk q.info.justCaptured q.info.rule50 q.info.epSquare CR_ALL
        (q.info.keyZobrist ^^^
          (ZobristCR CR_WHITE_OO ^^^ ZobristCR CR_WHITE_OOO ^^^
            ZobristCR CR_BLACK_OO ^^^ ZobristCR CR_BLACK_OOO)))
      q.prevStates q.psqScore q.gamePly WHITE) := by
  unfold Position.keyInv zobristRecompute at *
  simp only []
  rw [hk, h0, htu]
  simp only [hep, ne_eq, eq_self_iff_true, not_true_eq_false, if_false,
    show (NULL_COLOR = BLACK) = False from by decide,
    show (WHITE = BLACK) = False from by decide,
    show crKey CR_NULL = 0 from by decide]
  rw [show crKey CR_ALL = ZobristCR CR_WHITE_OO ^^^ ZobristCR CR_WHITE_OOO ^^^
      ZobristCR CR_BLACK_OO ^^^ ZobristCR CR_BLACK_OOO from by decide]
  apply Nat.eq_of_testBit_eq
  intro j
  simp only [Nat.testBit_xor, Nat.zero_testBit]
  cases (boardKeyList q.board (List.range 64)).testBit j <;>
    cases (ZobristCR CR_WHITE_OO).testBit j <;>
    cases (ZobristCR CR_WHITE_OOO).testBit j <;>
    cases (ZobristCR CR_BLACK_OO).testBit j <;>
    cases (ZobristCR CR_BLACK_OOO).testBit j <;> rfl

set_option maxRecDepth 10000 in
/-- Position::reset establishes the Zobrist invariant from any prior
state. -/
lemma keyInv_reset (p : Position) : (p.reset).keyInv := by
  unfold Position.reset
  apply keyInv_grantAll _ rfl rfl rfl
  apply keyInv_putPiece _ _ _ _ (by decide) rfl (by decide) (by decide) (by decide)
  apply keyInv_putPiece _ _ _ _ (by decide) rfl (by decide) (by decide) (by decide)
  apply keyInv_putPiece _ _ _ _ (by decide) rfl (by decide) (by decide) (by decide)
  apply keyInv_putPiece _ _ _ _ (by decide) rfl (by decide) (by decide) (by decide)
  apply keyInv_putPiece _ _ _ _ (by decide) rfl (by decide) (by decide) (by decide)
  apply keyInv_putPiece _ _ _ _ (by decide) rfl (by decide) (by decide) (by decide)
  apply keyInv_putPiece _ _ _ _ (by decide) rfl (by decide) (by decide) (by decide)
  apply keyInv_putPiece _ _ _ _ (by decide) rfl (by decide) (by decide) (by decide)
  apply keyInv_putPiece _ _ _ _ (by decide) rfl (by decide) (by decide) (by decide)
  apply keyInv_putPiece _ _ _ _ (by decide) rfl (by decide) (by decide) (by decide)
  apply keyInv_putPiece _ _ _ _ (by decide) rfl (by decide) (by decide) (by decide)
  apply keyInv_putPiece _ _ _ _ (by decide) rfl (by decide) (by decide) (by decide)
  apply keyInv_putPiece _ _ _ _ (by decide) rfl (by decide) (by decide) (by decide)
  apply keyInv_putPiece _ _ _ _ (by decide) rfl (by decide) (by decide) (by decide)
  apply keyInv_putPiece _ _ _ _ (by decide) rfl (by decide) (by decide) (by decide)
  apply keyInv_putPiece _ _ _ _ (by decide) rfl (by decide) (by decide) (by decide)
  apply keyInv_putPiece _ _ _ _ (by decide) rfl (by decide) (by decide) (by decide)
  apply keyInv_putPiece _ _ _ _ (by decide) rfl (by decide) (by decide) (by decide)
  apply keyInv_putPiece _ _ _ _ (by decide) rfl (by decide) (by decide) (by decide)
  apply keyInv_putPiece _ _ _ _ (by decide) rfl (by decide) (by decide) (by decide)
  apply keyInv_putPiece _ _ _ _ (by decide) rfl (by decide) (by decide) (by decide)
  apply keyInv_putPiece _ _ _ _ (by decide) rfl (by decide) (by decide) (by decide)
  apply keyInv_putPiece _ _ _ _ (by decide) rfl (by decide) (by decide) (by decide)
  apply keyInv_putPiece _ _ _ _ (by decide) rfl (by decide) (by decide) (by decide)
  apply keyInv_putPiece _ _ _ _ (by decide) rfl (by decide) (by decide) (by decide)
  apply keyInv_putPiece _ _ _ _ (by decide) rfl (by decide) (by decide) (by decide)
  apply keyInv_putPiece _ _ _ _ (by decide) rfl (by decide) (by decide) (by decide)
  apply keyInv_putPiece _ _ _ _ (by decide) rfl (by decide) (by decide) (by decide)
  apply keyInv_putPiece _ _ _ _ (by decide) rfl (by decide) (by decide) (by decide)
  apply keyInv_putPiece _ _ _ _ (by decide) rfl (by decide) (by decide) (by decide)
  apply keyInv_putPiece _ _ _ _ (by decide) rfl (by decide) (by decide) (by decide)
  apply keyInv_putPiece _ _ _ _ (by decide) rfl (by decide) (by decide) (by decide)
  exact keyInv_clear p

/-- A make/unmake pair that restores the key-relevant fields carries the
Zobrist invariant over. -/
lemma keyInv_of_restored (p q : Position) (hr : restoredFields p q) (hk : p.keyInv) :
    q.keyInv := by
  obtain ⟨hb, -, -, -, -, -, htu, hi⟩ := hr
  unfold Position.keyInv zobristRecompute at *
  rw [hi, hb, htu]
  exact hk

set_option maxRecDepth 8000 in
/-- C2 counterexample: Position::loadPosition does not maintain the Zobrist
invariant.  The FEN castling field is folded with repeated XORs of the same
ZobristCR component without checking for duplicate letters, so the accepted
input "8/8/8/8/8/8/8/8 w KK - 0 1" (the white king-side right listed
twice) records castlingRight = CR_WHITE_OO but XORs its key component
twice, cancelling it: the stored key is 0 while the recomputation contains
the ZobristCR(CR_WHITE_OO) component, so Position.keyInv fails. -/
theorem loadPosition_zobrist_counterexample :
    parseError (Position.initial.loadPosition
      ("8/8/8/8/8/8/8/8 w KK - 0 1".toList) false) = none ∧
    (Position.initial.loadPosition ("8/8/8/8/8/8/8/8 w KK - 0 1".toList)
        false).toOption.map
      (fun q => (q.info.castlingRight, q.info.keyZobrist, decide q.keyInv)) =
      some (CR_WHITE_OO, 0, false) := by
  decide

/-- C2 (amended): the incrementally maintained Zobrist key equals a full
recomputation from scratch after every state-changing operation other than
loadPosition: Position::reset establishes the invariant from any prior
state, the putPiece / removePiece / movePiece / removeCastlingRight
primitives preserve it under their call preconditions, and doMove and a
doMove/undoMove pair preserve it on a consistent position for a
pseudo-legal move of a generated shape.  loadPosition is excluded: it
breaks the invariant on FENs with a duplicate castling letter (see the
counterexample). -/
theorem zobrist_key_matches_recompute :
    (∀ p : Position, (p.reset).keyInv) ∧
    (∀ p : Position, ∀ sq c pt : Nat, sq < 64 → p.board sq = PIECE_NULL → c < 2 →
      1 ≤ pt → pt ≤ 6 → p.keyInv → (p.putPiece sq c pt).keyInv) ∧
    (∀ p : Position, ∀ sq : Nat, sq < 64 → p.board sq ≠ PIECE_NULL → p.keyInv →
      (p.removePiece sq).keyInv) ∧
    (∀ p : Position, ∀ f t : Nat, f < 64 → t < 64 → p.board f ≠ PIECE_NULL →
      p.board t = PIECE_NULL → f ≠ t → p.keyInv → (p.movePiece f t).keyInv) ∧
    (∀ p : Position, ∀ b : Nat, (b = CR_WHITE_OO ∨ b = CR_WHITE_OOO ∨
      b = CR_BLACK_OO ∨ b = CR_BLACK_OOO) → p.keyInv →
      (p.removeCastlingRight b).keyInv) ∧
    (∀ p : Position, ∀ m : Nat, p.consistent → p.isPseudoLegal m = true →
      moveShapeOk p m → p.keyInv → (p.doMove m).keyInv) ∧
    (∀ p : Position, ∀ m : Nat, p.consistent → p.isPseudoLegal m = true →
      moveShapeOk p m → p.keyInv → ((p.doMove m).undoMove m).keyInv) :=
  ⟨keyInv_reset,
   keyInv_putPiece,
   keyInv_removePiece,
   keyInv_movePiece,
   fun p b hb hk => keyInv_rcr p b hb hk,
   keyInv_doMove,
   fun p m hc hpl hs hk =>
     keyInv_of_restored p _ (roundtrip_restores p m hc hpl hs) hk⟩

set_option maxRecDepth 8000 in
/-- C2 witness: on the standard starting position the invariant holds after
reset, after making e2-e4, after the make/unmake pair, and after removing
the white king-side castling right. -/
theorem zobrist_key_matches_recompute_witness :
    Position.initial.reset.keyInv ∧
    (Position.initial.reset.doMove (mkMove 12 28)).keyInv ∧
    ((Position.initial.reset.doMove (mkMove 12 28)).undoMove (mkMove 12 28)).keyInv ∧
    (Position.initial.reset.removeCastlingRight CR_WHITE_OO).keyInv :=
  ⟨zobrist_key_matches_recompute.1 Position.initial,
   zobrist_key_matches_recompute.2.2.2.2.2.1 Position.initial.reset (mkMove 12 28)
     (by decide) (by decide) (by decide) (by decide),
   zobrist_key_matches_recompute.2.2.2.2.2.2 Position.initial.reset (mkMove 12 28)
     (by decide) (by decide) (by decide) (by decide),
   zobrist_key_matches_recompute.2.2.2.2.1 Position.initial.reset CR_WHITE_OO
     (Or.inl rfl) (by decide)⟩


lemma doMoveChecked_fail_eq (s : Searcher) (m : Nat) (s1 : Searcher)
    (h : s.doMoveChecked m = (false, s1)) :
    s1.tt = s.tt ∧ s1.searchPly = s.searchPly := by
  simp only [Searcher.doMoveChecked] at h
  split at h
  · injection h with h1 h2
    rw [← h2]
    exact ⟨rfl, rfl⟩
  · injection h with h1 h2
    exact Bool.noConfusion h1

lemma pvsTimeCheck_false (s0 s1 : Searcher) (h : pvsTimeCheck s0 = (false, s1)) :
    s1.tt = s0.tt := by
  simp only [pvsTimeCheck] at h
  split at h
  · split at h
    · injection h with h1 h2
      exact Bool.noConfusion h1
    · injection h with h1 h2
      rw [← h2]
  · injection h with h1 h2
    rw [← h2]

lemma pvsTTHit_tt (s : Searcher) (e : Option TTEntry) : (pvsTTHit s e).tt = s.tt := by
  cases e <;> rfl

lemma pvsTTHit_searchPly (s : Searcher) (e : Option TTEntry) :
    (pvsTTHit s e).searchPly = s.searchPly := by
  cases e <;> rfl

/-- Once a legal move has been found, the move loop of Searcher::pvs reports
one whatever happens afterwards: every continuation keeps anyLegalMove. -/
lemma pvsMoveLoop_any_true (rec : Searcher → Int → Int → Int × Searcher) (depth : Nat) :
    ∀ (fuel : Nat) (s : Searcher) (mm : MoveManager) (a b bs : Int) (bm : Nat)
      (pv : Bool) (out : PvsLoopOut),
      pvsMoveLoop rec depth fuel s mm a b bs bm true pv = out →
      out.anyLegalMove = true := by
  intro fuel
  induction fuel with
  | zero =>
      intro s mm a b bs bm pv out heq
      unfold pvsMoveLoop at heq
      rw [← heq]
  | succ n ih =>
      intro s mm a b bs bm pv out heq
      unfold pvsMoveLoop at heq
      simp only [] at heq
      rcases hnx : MoveManager.next s mm with ⟨move, mm1⟩
      rw [hnx] at heq
      simp only [] at heq
      rcases hdm : s.doMoveChecked move with ⟨ok, s1⟩
      rw [hdm] at heq
      simp only [] at heq
      by_cases hmv : move = MOVE_NONE
      · rw [if_pos hmv] at heq
        rw [← heq]
      · rw [if_neg hmv] at heq
        cases ok
        · rw [if_pos (show (!false) = true by decide)] at heq
          exact ih _ _ _ _ _ _ _ _ heq
        · rw [if_neg (show ¬((!true) = true) by decide)] at heq
          rcases hr0 : rec s1 (-b) (-a) with ⟨v0, t0⟩
          rw [hr0] at heq
          rcases hr1 : rec s1 (-a - 1) (-a) with ⟨v1, t1⟩
          rw [hr1] at heq
          simp only [] at heq
          cases pv
          · rw [if_neg (show ¬(false = true) by decide)] at heq
            by_cases hA : ¬t1.stopSearch = true ∧ b > -v1 ∧ -v1 > a
            · rw [if_pos hA] at heq
              rcases hr2 : rec t1 (-b) (- -v1) with ⟨v2, t2⟩
              rw [hr2] at heq
              simp only [] at heq
              repeat' split at heq
              all_goals first
                | exact ih _ _ _ _ _ _ _ _ heq
                | rw [← heq]
            · rw [if_neg hA] at heq
              simp only [] at heq
              repeat' split at heq
              all_goals first
                | exact ih _ _ _ _ _ _ _ _ heq
                | rw [← heq]
          · rw [if_pos (show true = true from rfl)] at heq
            simp only [] at heq
            repeat' split at heq
            all_goals first
              | exact ih _ _ _ _ _ _ _ _ heq
              | rw [← heq]

/-- When the move loop of Searcher::pvs starts with anyLegalMove false and
ends with anyLegalMove still false, it never entered the body for a legal
move: it did not take the stop exit, and the searcher's transposition table
and searchPly are what they were at entry. -/
lemma pvsMoveLoop_noLegal (rec : Searcher → Int → Int → Int × Searcher) (depth : Nat) :
    ∀ (fuel : Nat) (s : Searcher) (mm : MoveManager) (a b bs : Int) (bm : Nat)
      (pv : Bool) (out : PvsLoopOut),
      pvsMoveLoop rec depth fuel s mm a b bs bm false pv = out →
      out.anyLegalMove = false →
      out.stopped = false ∧ out.s.tt = s.tt ∧ out.s.searchPly = s.searchPly := by
  intro fuel
  induction fuel with
  | zero =>
      intro s mm a b bs bm pv out heq _
      unfold pvsMoveLoop at heq
      rw [← heq]
      exact ⟨rfl, rfl, rfl⟩
  | succ n ih =>
      intro s mm a b bs bm pv out heq h
      unfold pvsMoveLoop at heq
      simp only [] at heq
      rcases hnx : MoveManager.next s mm with ⟨move, mm1⟩
      rw [hnx] at heq
      simp only [] at heq
      rcases hdm : s.doMoveChecked move with ⟨ok, s1⟩
      rw [hdm] at heq
      simp only [] at heq
      by_cases hmv : move = MOVE_NONE
      · rw [if_pos hmv] at heq
        rw [← heq]
        exact ⟨rfl, rfl, rfl⟩
      · rw [if_neg hmv] at heq
        cases ok
        · rw [if_pos (show (!false) = true by decide)] at heq
          obtain ⟨h1, h2, h3⟩ := ih _ _ _ _ _ _ _ _ heq h
          obtain ⟨ht, hp⟩ := doMoveChecked_fail_eq s move _ hdm
          exact ⟨h1, h2.trans ht, h3.trans hp⟩
        · rw [if_neg (show ¬((!true) = true) by decide)] at heq
          rcases hr0 : rec s1 (-b) (-a) with ⟨v0, t0⟩
          rw [hr0] at heq
          rcases hr1 : rec s1 (-a - 1) (-a) with ⟨v1, t1⟩
          rw [hr1] at heq
          simp only [] at heq
          cases pv
          · rw [if_neg (show ¬(false = true) by decide)] at heq
            by_cases hA : ¬t1.stopSearch = true ∧ b > -v1 ∧ -v1 > a
            · rw [if_pos hA] at heq
              rcases hr2 : rec t1 (-b) (- -v1) with ⟨v2, t2⟩
              rw [hr2] at heq
              simp only [] at heq
              repeat' split at heq
              all_goals first
                | (rw [← heq] at h; exact Bool.noConfusion h)
                | (have ha := pvsMoveLoop_any_true rec depth n _ _ _ _ _ _ _ _ heq
                   rw [ha] at h
                   exact Bool.noConfusion h)
            · rw [if_neg hA] at heq
              simp only [] at heq
              repeat' split at heq
              all_goals first
                | (rw [← heq] at h; exact Bool.noConfusion h)
                | (have ha := pvsMoveLoop_any_true rec depth n _ _ _ _ _ _ _ _ heq
                   rw [ha] at h
                   exact Bool.noConfusion h)
          · rw [if_pos (show true = true from rfl)] at heq
            simp only [] at heq
            repeat' split at heq
            all_goals first
              | (rw [← heq] at h; exact Bool.noConfusion h)
              | (have ha := pvsMoveLoop_any_true rec depth n _ _ _ _ _ _ _ _ heq
                 rw [ha] at h
                 exact Bool.noConfusion h)

/-- The probe-adjust-loop unit of Searcher::pvs: when no legal move was
found, the loop did not take the stop exit and left the transposition table
and searchPly unchanged. -/
lemma pvsLoopCall_noLegal (rec : Searcher → Int → Int → Int × Searcher) (depth : Nat)
    (s : Searcher) (alpha beta : Int)
    (h : (pvsLoopCall rec depth s alpha beta).anyLegalMove = false) :
    (pvsLoopCall rec depth s alpha beta).stopped = false ∧
      (pvsLoopCall rec depth s alpha beta).s.tt = s.tt ∧
      (pvsLoopCall rec depth s alpha beta).s.searchPly = s.searchPly := by
  obtain ⟨h1, h2, h3⟩ := pvsMoveLoop_noLegal rec depth PVSLOOP_FUEL _ _ _ _ _ _ _
    (pvsLoopCall rec depth s alpha beta) rfl h
  exact ⟨h1, h2.trans (pvsTTHit_tt _ _), h3.trans (pvsTTHit_searchPly _ _)⟩

/-- C3: When Searcher::pvs at depth >= 1 passes its time check, fifty-move
check and transposition-table cutoff and the move loop finds no legal move,
it returns SCORE_LOSE + searchPly when the side to move is in check
(checkmate) and SCORE_ZERO otherwise (stalemate), and the transposition
table is exactly what it was at entry: the store branch is skipped.  The
in-check test and the returned searcher are stated on the loop's final
state, as in the source; the loop is proven to have preserved searchPly and
the table, so the mate score is SCORE_LOSE plus the entry searchPly. -/
theorem pvs_no_legal_move_mate_scores (d : Nat) (s0 s1 : Searcher) (alpha beta : Int)
    (htc : pvsTimeCheck s0 = (false, s1))
    (h50 : ¬s1.pos.info.rule50 ≥ 100)
    (hcut : pvsTTCut s1.searchPly (s1.tt.probe s1.pos.info.keyZobrist) (d + 1) alpha
      beta = false)
    (hnl : (pvsLoopCall (pvs d) (d + 1)
        { s1 with visitedNodes := s1.visitedNodes + 1 } alpha beta).anyLegalMove =
      false) :
    pvs (d + 1) s0 alpha beta =
      ((if (pvsLoopCall (pvs d) (d + 1)
              { s1 with visitedNodes := s1.visitedNodes + 1 } alpha
              beta).s.pos.isInCheck
          then SCORE_LOSE + (s1.searchPly : Int) else SCORE_ZERO),
        (pvsLoopCall (pvs d) (d + 1)
          { s1 with visitedNodes := s1.visitedNodes + 1 } alpha beta).s) ∧
      (pvs (d + 1) s0 alpha beta).2.tt = s0.tt := by
  obtain ⟨hstop, htt, hply⟩ := pvsLoopCall_noLegal (pvs d) (d + 1)
    { s1 with visitedNodes := s1.visitedNodes + 1 } alpha beta hnl
  have hply' : (pvsLoopCall (pvs d) (d + 1)
      { s1 with visitedNodes := s1.visitedNodes + 1 } alpha beta).s.searchPly =
      s1.searchPly := hply
  have hmain : pvs (d + 1) s0 alpha beta =
      ((if (pvsLoopCall (pvs d) (d + 1)
              { s1 with visitedNodes := s1.visitedNodes + 1 } alpha
              beta).s.pos.isInCheck
          then SCORE_LOSE + (s1.searchPly : Int) else SCORE_ZERO),
        (pvsLoopCall (pvs d) (d + 1)
          { s1 with visitedNodes := s1.visitedNodes + 1 } alpha beta).s) := by
    unfold pvs
    rw [htc]
    simp only []
    rw [if_neg h50]
    rw [hcut]
    rw [if_neg (show ¬(false = true) by decide)]
    simp only [hstop, hnl, Bool.false_eq_true, if_false]
    rw [hply']
  refine ⟨hmain, ?_⟩
  rw [hmain]
  exact htt.trans (pvsTimeCheck_false s0 s1 htc)

theorem pvs_no_legal_move_mate_scores_witness :
    pvs 1 mateTestS0 SCORE_LOSE SCORE_WIN =
      ((if mateTestOut.s.pos.isInCheck then SCORE_LOSE + (mateTestS1.searchPly : Int)
          else SCORE_ZERO), mateTestOut.s) ∧
      (pvs 1 mateTestS0 SCORE_LOSE SCORE_WIN).2.tt = mateTestS0.tt :=
  pvs_no_legal_move_mate_scores 0 mateTestS0 mateTestS1 SCORE_LOSE SCORE_WIN rfl
    (by decide) (by decide) (by decide)

end BlendX
